import Mathlib

/-!
# Underground Beats: sequencer transport, event generation and effects

A shallow embedding of `src/sequencer/Sequencer.cpp`, `src/effects/Delay.cpp` and
`src/effects/Reverb.cpp`.

Conventions of the embedding:

* C++ `double` and `float` values are exact rationals (`ℚ`); C++ `int` is `Int`.
* `juce::MidiBuffer` is the record of the events handed to `addEvent`, in call
  order; the order by sample position in which the buffer holds them is
  `MidiBuffer.inBufferOrder` of that record.
* `std::function` callbacks are a flag (is a target set?) together with a trace
  of the calls made through them; the calls on the external `Timeline` and on the
  `juce::Timer` base class are recorded in the same trace, in program order.
* A nullable pointer is an `Option`.
* C's `%` on `int` is `Int.tmod`; `static_cast<int>` is truncation toward zero.
* A sample buffer reached through a raw pointer is a map from indices to samples;
  the allocated part is the index range the source sizes it to.
-/

namespace UndergroundBeats

/-! ## Data model -/

/-- NoteEvent as used by the sequencer: `NoteEvent(note, velocity, startTime, duration)`. -/
structure NoteEvent where
  note : Int
  velocity : Int
  startTime : ℚ
  duration : ℚ
  deriving DecidableEq, Repr

/-- ActiveNote: a sounding note waiting for its note-off. -/
structure ActiveNote where
  note : Int
  velocity : Int
  startTime : ℚ
  endTime : ℚ
  deriving DecidableEq, Repr

/-- The two kinds of `juce::MidiMessage` the sequencer builds. -/
inductive MidiMessage where
  | noteOn (channel : Int) (note : Int) (velocity : ℚ)
  | noteOff (channel : Int) (note : Int)
  deriving DecidableEq, Repr

/-- One entry of a MIDI buffer: a message and its sample position. -/
structure MidiEvent where
  message : MidiMessage
  samplePosition : Int
  deriving DecidableEq, Repr

/-- MidiBuffer: the record of the events added to a `juce::MidiBuffer`, in the
order of the `addEvent` calls. The buffer itself holds its events ordered by
sample position; that order is `MidiBuffer.inBufferOrder` of the record. -/
abbrev MidiBuffer := List MidiEvent

/-- The call `buffer.addEvent(message, samplePosition)`, put on record. -/
def MidiBuffer.addEvent (buf : MidiBuffer) (m : MidiMessage) (samplePosition : Int) : MidiBuffer :=
  buf ++ [⟨m, samplePosition⟩]

/-- The call `buffer.addEvents(other, 0, -1, 0)`: every event of `other` is added,
in the order of `other`. -/
def MidiBuffer.addEvents (buf other : MidiBuffer) : MidiBuffer :=
  buf ++ other

/-- Where `juce::MidiBuffer::addEvent` stores a new event among the events held,
which are ordered by sample position: before the first event with a larger
sample position, so behind the events with the same one. -/
def MidiBuffer.insertByPosition (e : MidiEvent) : List MidiEvent → List MidiEvent
  | [] => [e]
  | x :: rest =>
    if x.samplePosition > e.samplePosition then e :: x :: rest
    else x :: MidiBuffer.insertByPosition e rest

/-- The events as the `juce::MidiBuffer` holds them, and as a reader of the buffer
meets them, after the recorded `addEvent` calls. -/
def MidiBuffer.inBufferOrder (buf : MidiBuffer) : List MidiEvent :=
  buf.foldl (fun held e => MidiBuffer.insertByPosition e held) []

/-- The external, read-only Timeline: `getNotesInRange`, the nullable inner
timeline (`getTimeline() != nullptr`), its automated parameters and
`getParameterValueAtTime`. -/
structure Timeline where
  getNotesInRange : ℚ → ℚ → List NoteEvent
  hasTimeline : Bool
  getAutomatedParameters : List String
  getParameterValueAtTime : String → ℚ → ℚ

/-- Observable calls the sequencer makes on its collaborators, in program order. -/
inductive Effect where
  | notesQuery (startPosition endPosition : ℚ)
  | noteCallback (ev : NoteEvent)
  | parameterCallback (paramId : String) (value : ℚ)
  | startTimer (intervalMs : Int)
  | stopTimer
  deriving DecidableEq, Repr

/-- One attribute of a `juce::XmlElement`: its name and the readings of its text
by `getDoubleAttribute`, `getIntAttribute` and `getBoolAttribute`. -/
structure XmlAttribute where
  name : String
  asDouble : ℚ
  asInt : Int
  asBool : Bool
  deriving DecidableEq, Repr

/-- XmlElement: a tag name and a flat attribute list. -/
structure XmlElement where
  tagName : String
  attributes : List XmlAttribute
  deriving DecidableEq, Repr

/-- Lookup of an attribute by name (the first one with that name). -/
def XmlElement.findAttribute (xml : XmlElement) (name : String) : Option XmlAttribute :=
  xml.attributes.find? (fun a => a.name == name)

/-- The call `getDoubleAttribute(name, default)`. -/
def XmlElement.getDoubleAttribute (xml : XmlElement) (name : String) (dflt : ℚ) : ℚ :=
  match xml.findAttribute name with
  | some a => a.asDouble
  | none => dflt

/-- The call `getIntAttribute(name, default)`. -/
def XmlElement.getIntAttribute (xml : XmlElement) (name : String) (dflt : Int) : Int :=
  match xml.findAttribute name with
  | some a => a.asInt
  | none => dflt

/-- The call `getBoolAttribute(name, default)`. -/
def XmlElement.getBoolAttribute (xml : XmlElement) (name : String) (dflt : Bool) : Bool :=
  match xml.findAttribute name with
  | some a => a.asBool
  | none => dflt

/-- The member variables of `Sequencer`, the `juce::Timer` base state
(`timerRunning`), the constant `timerIntervalMs` of the class declaration, and the
trace of calls made on collaborators (`effects`). -/
structure Sequencer where
  currentPosition : ℚ
  tempo : ℚ
  timeSignatureNumerator : Int
  timeSignatureDenominator : Int
  playing : Bool
  looping : Bool
  loopStart : ℚ
  loopEnd : ℚ
  quantizationGrid : ℚ
  currentSampleRate : ℚ
  currentBlockSize : Int
  lastEventPosition : ℚ
  timeline : Option Timeline
  activeNotes : List ActiveNote
  noteEventCallback : Bool
  parameterCallback : Bool
  tempMidiBuffer : MidiBuffer
  timerRunning : Bool
  timerIntervalMs : Int
  effects : List Effect

/-- The constructor `Sequencer::Sequencer()`; `timerIntervalMs` is the constant of
the class declaration. -/
def Sequencer.init (timerIntervalMs : Int) : Sequencer where
  currentPosition := 0
  tempo := 120
  timeSignatureNumerator := 4
  timeSignatureDenominator := 4
  playing := false
  looping := false
  loopStart := 0
  loopEnd := 4
  quantizationGrid := 1 / 4
  currentSampleRate := 44100
  currentBlockSize := 512
  lastEventPosition := 0
  timeline := none
  activeNotes := []
  noteEventCallback := false
  parameterCallback := false
  tempMidiBuffer := []
  timerRunning := false
  timerIntervalMs := timerIntervalMs
  effects := []

/-! ## Numeric helpers -/

/-- The conversion `static_cast<int>(x)`: truncation toward zero. -/
def truncToInt (x : ℚ) : Int :=
  if 0 ≤ x then ⌊x⌋ else ⌈x⌉

/-- The function `std::round`: nearest integer, halfway cases away from zero. -/
def roundHalfAway (x : ℚ) : Int :=
  if 0 ≤ x then ⌊x + 1 / 2⌋ else ⌈x - 1 / 2⌉

namespace Sequencer

/-! ## Time conversions -/

/-- Sequencer::beatsToSeconds. -/
def beatsToSeconds (s : Sequencer) (beats : ℚ) : ℚ :=
  (beats * 60) / s.tempo

/-- Sequencer::secondsToBeats. -/
def secondsToBeats (s : Sequencer) (seconds : ℚ) : ℚ :=
  (seconds * s.tempo) / 60

/-- Sequencer::secondsToSamples. -/
def secondsToSamples (s : Sequencer) (seconds : ℚ) : Int :=
  truncToInt (seconds * s.currentSampleRate)

/-- Sequencer::quantizeTime. -/
def quantizeTime (s : Sequencer) (time : ℚ) : ℚ :=
  (roundHalfAway (time / s.quantizationGrid) : ℚ) * s.quantizationGrid

/-! ## Transport setters -/

/-- Sequencer::setTimeline. -/
def setTimeline (s : Sequencer) (timeline : Option Timeline) : Sequencer :=
  { s with timeline := timeline }

/-- Sequencer::setPosition. -/
def setPosition (s : Sequencer) (positionInBeats : ℚ) : Sequencer :=
  let positionInBeats := if positionInBeats < 0 then 0 else positionInBeats
  let s := if s.playing then { s with lastEventPosition := positionInBeats } else s
  { s with currentPosition := positionInBeats }

/-- Sequencer::setTempo. -/
def setTempo (s : Sequencer) (bpm : ℚ) : Sequencer :=
  if bpm > 0 then { s with tempo := bpm } else s

/-- Sequencer::setTimeSignature. -/
def setTimeSignature (s : Sequencer) (numerator denominator : Int) : Sequencer :=
  if numerator > 0 ∧ denominator > 0 then
    { s with timeSignatureNumerator := numerator, timeSignatureDenominator := denominator }
  else s

/-- Sequencer::setLooping. -/
def setLooping (s : Sequencer) (shouldLoop : Bool) : Sequencer :=
  { s with looping := shouldLoop }

/-- Sequencer::setLoopStart. -/
def setLoopStart (s : Sequencer) (startInBeats : ℚ) : Sequencer :=
  if startInBeats ≥ 0 ∧ startInBeats < s.loopEnd then { s with loopStart := startInBeats } else s

/-- Sequencer::setLoopEnd. -/
def setLoopEnd (s : Sequencer) (endInBeats : ℚ) : Sequencer :=
  if endInBeats > s.loopStart then { s with loopEnd := endInBeats } else s

/-- Sequencer::setQuantizationGrid. -/
def setQuantizationGrid (s : Sequencer) (gridSize : ℚ) : Sequencer :=
  if gridSize > 0 then { s with quantizationGrid := gridSize } else s

/-- Sequencer::setNoteEventCallback (`callback` tells whether the function has a target). -/
def setNoteEventCallback (s : Sequencer) (callback : Bool) : Sequencer :=
  { s with noteEventCallback := callback }

/-- Sequencer::setParameterCallback (`callback` tells whether the function has a target). -/
def setParameterCallback (s : Sequencer) (callback : Bool) : Sequencer :=
  { s with parameterCallback := callback }

/-- Sequencer::prepare. -/
def prepare (s : Sequencer) (sampleRate : ℚ) (blockSize : Int) : Sequencer :=
  { s with currentSampleRate := sampleRate, currentBlockSize := blockSize }

/-! ## Transport control -/

/-- Sequencer::play. -/
def play (s : Sequencer) : Sequencer :=
  if !s.playing then
    { s with
      playing := true
      lastEventPosition := s.currentPosition
      timerRunning := true
      effects := s.effects ++ [Effect.startTimer s.timerIntervalMs] }
  else s

/-- Sequencer::stop. The local buffer `noteOffs` is filled and dropped; the
active notes are cleared before the loop that calls the note-event callback. -/
def stop (s : Sequencer) : Sequencer :=
  if s.playing then
    let s₁ : Sequencer :=
      { s with playing := false, timerRunning := false, effects := s.effects ++ [Effect.stopTimer] }
    let _noteOffs : MidiBuffer :=
      s₁.activeNotes.foldl (fun buf note => buf.addEvent (MidiMessage.noteOff 1 note.note) 0) []
    let s₂ : Sequencer := { s₁ with activeNotes := [] }
    if s₂.noteEventCallback then
      { s₂ with
        effects := s₂.effects ++
          s₂.activeNotes.map (fun note => Effect.noteCallback ⟨note.note, 0, s₂.currentPosition, 0⟩) }
    else s₂
  else s

/-- Sequencer::togglePlayStop. -/
def togglePlayStop (s : Sequencer) : Sequencer :=
  if s.playing then s.stop else s.play

/-! ## Event generation -/

/-- Sequencer::generateParameterEvents. -/
def generateParameterEvents (s : Sequencer) (currentTime : ℚ) : Sequencer :=
  match s.timeline with
  | none => s
  | some tl =>
    if !s.parameterCallback then s
    else if tl.hasTimeline then
      { s with
        effects := s.effects ++
          tl.getAutomatedParameters.map
            (fun paramId => Effect.parameterCallback paramId (tl.getParameterValueAtTime paramId currentTime)) }
    else s

/-- The loop of `Sequencer::checkNoteOffs` over the active notes still to visit:
a due note gets a note-off event and a callback and is erased, the others stay. -/
def checkNoteOffsLoop (s : Sequencer) (currentTime : ℚ) :
    List ActiveNote → MidiBuffer → List Effect → List ActiveNote × MidiBuffer × List Effect
  | [], buf, eff => ([], buf, eff)
  | it :: rest, buf, eff =>
    if it.endTime ≤ currentTime then
      let noteEndTimeInSeconds := s.beatsToSeconds (it.endTime - s.lastEventPosition)
      let samplePosition := s.secondsToSamples noteEndTimeInSeconds
      let buf := buf.addEvent (MidiMessage.noteOff 1 it.note) samplePosition
      let eff :=
        if s.noteEventCallback then eff ++ [Effect.noteCallback ⟨it.note, 0, it.endTime, 0⟩] else eff
      checkNoteOffsLoop s currentTime rest buf eff
    else
      let r := checkNoteOffsLoop s currentTime rest buf eff
      (it :: r.1, r.2.1, r.2.2)

/-- Sequencer::checkNoteOffs. -/
def checkNoteOffs (s : Sequencer) (currentTime : ℚ) (midiBuffer : MidiBuffer) :
    Sequencer × MidiBuffer :=
  let r := checkNoteOffsLoop s currentTime s.activeNotes midiBuffer s.effects
  ({ s with activeNotes := r.1, effects := r.2.2 }, r.2.1)

/-- The loop of `Sequencer::generateEvents` over the notes returned by the
timeline: note-on event, registration of the active note, callback. -/
def generateNoteOns (startPosition : ℚ) :
    List NoteEvent → Sequencer → MidiBuffer → Sequencer × MidiBuffer
  | [], s, buf => (s, buf)
  | note :: rest, s, buf =>
    let noteStartTimeInSeconds := s.beatsToSeconds note.startTime
    let samplePosition := s.secondsToSamples noteStartTimeInSeconds
    let buf := buf.addEvent (MidiMessage.noteOn 1 note.note ((note.velocity : ℚ) / 127)) samplePosition
    let activeNote : ActiveNote :=
      { note := note.note
        velocity := note.velocity
        startTime := startPosition + note.startTime
        endTime := (startPosition + note.startTime) + note.duration }
    let s₁ : Sequencer := { s with activeNotes := s.activeNotes ++ [activeNote] }
    let s₂ : Sequencer :=
      if s₁.noteEventCallback then { s₁ with effects := s₁.effects ++ [Effect.noteCallback note] }
      else s₁
    generateNoteOns startPosition rest s₂ buf

/-- Sequencer::generateEvents. -/
def generateEvents (s : Sequencer) (startPosition endPosition : ℚ) (midiBuffer : MidiBuffer) :
    Sequencer × MidiBuffer :=
  match s.timeline with
  | none => (s, midiBuffer)
  | some tl =>
    let notes := tl.getNotesInRange startPosition endPosition
    let s₀ : Sequencer := { s with effects := s.effects ++ [Effect.notesQuery startPosition endPosition] }
    let r₁ := generateNoteOns startPosition notes s₀ midiBuffer
    let r₂ := r₁.1.checkNoteOffs endPosition r₁.2
    let s₃ := r₂.1.generateParameterEvents endPosition
    ({ s₃ with lastEventPosition := endPosition }, r₂.2)

/-- Sequencer::processMidi. -/
def processMidi (s : Sequencer) (midiInput midiOutput : MidiBuffer) : Sequencer × MidiBuffer :=
  if !s.playing || s.timeline.isNone then
    (s, midiOutput.addEvents midiInput)
  else
    let midiOutput : MidiBuffer := []
    let blockTimeInSeconds : ℚ := (s.currentBlockSize : ℚ) / s.currentSampleRate
    let blockTimeInBeats := s.secondsToBeats blockTimeInSeconds
    let startPosition := s.currentPosition
    let endPosition := startPosition + blockTimeInBeats
    let s₁ : Sequencer := { s with currentPosition := endPosition }
    if s₁.looping && decide (s₁.currentPosition ≥ s₁.loopEnd) then
      let overflow := s₁.currentPosition - s₁.loopEnd
      let s₂ : Sequencer := { s₁ with currentPosition := s₁.loopStart + overflow }
      let r₁ := s₂.generateEvents startPosition s₂.loopEnd midiOutput
      let r₂ := r₁.1.generateEvents r₁.1.loopStart r₁.1.currentPosition r₁.2
      (r₂.1, r₂.2.addEvents midiInput)
    else
      let r := s₁.generateEvents startPosition endPosition midiOutput
      (r.1, r.2.addEvents midiInput)

/-- Sequencer::handleNoteOn. -/
def handleNoteOn (s : Sequencer) (midiChannel midiNoteNumber : Int) (velocity : ℚ) : Sequencer :=
  let s₁ : Sequencer :=
    { s with tempMidiBuffer := s.tempMidiBuffer.addEvent (MidiMessage.noteOn midiChannel midiNoteNumber velocity) 0 }
  if s₁.noteEventCallback then
    { s₁ with
      effects := s₁.effects ++
        [Effect.noteCallback ⟨midiNoteNumber, truncToInt (velocity * 127), s₁.currentPosition, 0⟩] }
  else s₁

/-- Sequencer::handleNoteOff. -/
def handleNoteOff (s : Sequencer) (midiChannel midiNoteNumber : Int) (_velocity : ℚ) : Sequencer :=
  let s₁ : Sequencer :=
    { s with tempMidiBuffer := s.tempMidiBuffer.addEvent (MidiMessage.noteOff midiChannel midiNoteNumber) 0 }
  if s₁.noteEventCallback then
    { s₁ with
      effects := s₁.effects ++ [Effect.noteCallback ⟨midiNoteNumber, 0, s₁.currentPosition, 0⟩] }
  else s₁

/-- Sequencer::timerCallback. -/
def timerCallback (s : Sequencer) : Sequencer :=
  if s.playing then
    let timeInSeconds : ℚ := (s.timerIntervalMs : ℚ) / 1000
    let timeInBeats := s.secondsToBeats timeInSeconds
    let s₁ : Sequencer := { s with currentPosition := s.currentPosition + timeInBeats }
    if s₁.looping && decide (s₁.currentPosition ≥ s₁.loopEnd) then
      let overflow := s₁.currentPosition - s₁.loopEnd
      let s₂ : Sequencer := { s₁ with currentPosition := s₁.loopStart + overflow }
      (s₂.generateParameterEvents s₂.loopEnd).generateParameterEvents s₂.loopStart
    else
      s₁.generateParameterEvents s₁.currentPosition
  else s

/-! ## Persistence -/

/-- Sequencer::restoreStateFromXml: the new state and the returned flag. -/
def restoreStateFromXml (s : Sequencer) (xml : Option XmlElement) : Sequencer × Bool :=
  match xml with
  | none => (s, false)
  | some xml =>
    if xml.tagName ≠ "Sequencer" then (s, false)
    else
      ({ s with
          currentPosition := xml.getDoubleAttribute "position" 0
          tempo := xml.getDoubleAttribute "tempo" 120
          timeSignatureNumerator := xml.getIntAttribute "timeSignatureNumerator" 4
          timeSignatureDenominator := xml.getIntAttribute "timeSignatureDenominator" 4
          looping := xml.getBoolAttribute "looping" false
          loopStart := xml.getDoubleAttribute "loopStart" 0
          loopEnd := xml.getDoubleAttribute "loopEnd" 4
          quantizationGrid := xml.getDoubleAttribute "quantizationGrid" (1 / 4) }, true)

end Sequencer

/-! ## Public operations and reachable states -/

/-- One call of a public member function of `Sequencer`, with its arguments. -/
inductive Op where
  | setTimeline (timeline : Option Timeline)
  | play
  | stop
  | togglePlayStop
  | setPosition (positionInBeats : ℚ)
  | setTempo (bpm : ℚ)
  | setTimeSignature (numerator denominator : Int)
  | setLooping (shouldLoop : Bool)
  | setLoopStart (startInBeats : ℚ)
  | setLoopEnd (endInBeats : ℚ)
  | setQuantizationGrid (gridSize : ℚ)
  | processMidi (midiInput midiOutput : MidiBuffer)
  | setNoteEventCallback (callback : Bool)
  | setParameterCallback (callback : Bool)
  | handleNoteOn (midiChannel midiNoteNumber : Int) (velocity : ℚ)
  | handleNoteOff (midiChannel midiNoteNumber : Int) (velocity : ℚ)
  | timerCallback
  | prepare (sampleRate : ℚ) (blockSize : Int)
  | restoreStateFromXml (xml : Option XmlElement)

/-- The state after one public call. -/
def Op.apply : Op → Sequencer → Sequencer
  | .setTimeline tl, s => s.setTimeline tl
  | .play, s => s.play
  | .stop, s => s.stop
  | .togglePlayStop, s => s.togglePlayStop
  | .setPosition p, s => s.setPosition p
  | .setTempo bpm, s => s.setTempo bpm
  | .setTimeSignature n d, s => s.setTimeSignature n d
  | .setLooping b, s => s.setLooping b
  | .setLoopStart x, s => s.setLoopStart x
  | .setLoopEnd x, s => s.setLoopEnd x
  | .setQuantizationGrid g, s => s.setQuantizationGrid g
  | .processMidi i o, s => (s.processMidi i o).1
  | .setNoteEventCallback c, s => s.setNoteEventCallback c
  | .setParameterCallback c, s => s.setParameterCallback c
  | .handleNoteOn c n v, s => s.handleNoteOn c n v
  | .handleNoteOff c n v, s => s.handleNoteOff c n v
  | .timerCallback, s => s.timerCallback
  | .prepare sr bs, s => s.prepare sr bs
  | .restoreStateFromXml xml, s => (s.restoreStateFromXml xml).1

/-- The state after a sequence of public calls, first call first. -/
def runOps (s : Sequencer) (ops : List Op) : Sequencer :=
  ops.foldl (fun st op => op.apply st) s

/-- A state is reachable when a sequence of public calls leads to it from the
constructor. -/
def Reachable (s : Sequencer) : Prop :=
  ∃ (timerIntervalMs : Int) (ops : List Op), s = runOps (Sequencer.init timerIntervalMs) ops

/-- The TransportState invariant of the data model. -/
def TransportInvariant (s : Sequencer) : Prop :=
  s.loopStart < s.loopEnd ∧ s.tempo > 0 ∧ s.quantizationGrid > 0

/-- A stopped sequencer has no active note. -/
def StoppedIdle (s : Sequencer) : Prop :=
  s.playing = false → s.activeNotes = []

/-! ## Event generation, in closed form

The lists and counts in which the theorems below describe what the loops of
`generateEvents` and `checkNoteOffs` emit. -/

/-- The active note `generateEvents` registers for a timeline note in a window
starting at `startPosition`. -/
def registeredNote (startPosition : ℚ) (note : NoteEvent) : ActiveNote :=
  { note := note.note
    velocity := note.velocity
    startTime := startPosition + note.startTime
    endTime := (startPosition + note.startTime) + note.duration }

/-- The note-on event `generateEvents` adds for a timeline note. -/
def noteOnEvent (s : Sequencer) (note : NoteEvent) : MidiEvent :=
  ⟨MidiMessage.noteOn 1 note.note ((note.velocity : ℚ) / 127),
    s.secondsToSamples (s.beatsToSeconds note.startTime)⟩

/-- The test of `checkNoteOffs`: the note's end time has been reached. -/
def isDue (currentTime : ℚ) (n : ActiveNote) : Bool :=
  decide (n.endTime ≤ currentTime)

/-- The note-off event `checkNoteOffs` adds for a due active note. -/
def noteOffEvent (s : Sequencer) (n : ActiveNote) : MidiEvent :=
  ⟨MidiMessage.noteOff 1 n.note,
    s.secondsToSamples (s.beatsToSeconds (n.endTime - s.lastEventPosition))⟩

/-- The listener call `checkNoteOffs` makes for a due active note. -/
def noteOffCallback (n : ActiveNote) : Effect :=
  Effect.noteCallback ⟨n.note, 0, n.endTime, 0⟩

/-- The listener calls `generateParameterEvents` makes at a time. -/
def parameterEffects (s : Sequencer) (currentTime : ℚ) : List Effect :=
  match s.timeline with
  | none => []
  | some tl =>
    if s.parameterCallback && tl.hasTimeline then
      tl.getAutomatedParameters.map
        (fun paramId => Effect.parameterCallback paramId (tl.getParameterValueAtTime paramId currentTime))
    else []

/-- The active notes, old and newly registered, whose note-off falls due in
a call of `generateEvents` for the window from `a` to `b`. -/
def dueNotes (s : Sequencer) (a b : ℚ) (notes : List NoteEvent) : List ActiveNote :=
  (s.activeNotes ++ notes.map (registeredNote a)).filter (isDue b)

/-- The active notes, old and newly registered, that stay active after a call of
`generateEvents` for the window from `a` to `b`. -/
def keptNotes (s : Sequencer) (a b : ℚ) (notes : List NoteEvent) : List ActiveNote :=
  (s.activeNotes ++ notes.map (registeredNote a)).filter (fun n => !isDue b n)

/-- The MIDI events of one call of `generateEvents`: the note-ons, then the note-offs. -/
def generatedEvents (s : Sequencer) (a b : ℚ) (notes : List NoteEvent) : MidiBuffer :=
  notes.map (noteOnEvent s) ++ (dueNotes s a b notes).map (noteOffEvent s)

/-- The collaborator calls of one call of `generateEvents`, in order. -/
def generatedEffects (s : Sequencer) (a b : ℚ) (notes : List NoteEvent) : List Effect :=
  [Effect.notesQuery a b] ++
    (if s.noteEventCallback then notes.map Effect.noteCallback else []) ++
    (if s.noteEventCallback then (dueNotes s a b notes).map noteOffCallback else []) ++
    parameterEffects s b

/-- Is the event a note-on? -/
def MidiEvent.isNoteOn (e : MidiEvent) : Bool :=
  match e.message with
  | MidiMessage.noteOn _ _ _ => true
  | MidiMessage.noteOff _ _ => false

/-- Is the event a note-off? -/
def MidiEvent.isNoteOff (e : MidiEvent) : Bool :=
  match e.message with
  | MidiMessage.noteOn _ _ _ => false
  | MidiMessage.noteOff _ _ => true

/-- The note number of an event. -/
def MidiEvent.pitch (e : MidiEvent) : Int :=
  match e.message with
  | MidiMessage.noteOn _ n _ => n
  | MidiMessage.noteOff _ n => n

/-- Number of note-on events for a pitch in an event list. -/
def noteOnCount (pitch : Int) (buf : MidiBuffer) : Nat :=
  buf.countP (fun e => e.isNoteOn && e.pitch == pitch)

/-- Number of note-off events for a pitch in an event list. -/
def noteOffCount (pitch : Int) (buf : MidiBuffer) : Nat :=
  buf.countP (fun e => e.isNoteOff && e.pitch == pitch)

/-- Number of active notes of a pitch. -/
def activeCount (pitch : Int) (notes : List ActiveNote) : Nat :=
  notes.countP (fun n => n.note == pitch)

/-- The windows asked of the timeline, in call order. -/
def queriedWindows (effects : List Effect) : List (ℚ × ℚ) :=
  effects.filterMap (fun e =>
    match e with
    | Effect.notesQuery a b => some (a, b)
    | _ => none)

/-- The events handed to the note-event listener, in call order. -/
def noteCallbacks (effects : List Effect) : List NoteEvent :=
  effects.filterMap (fun e =>
    match e with
    | Effect.noteCallback ev => some ev
    | _ => none)

/-- A sequence of `generateEvents` calls, one per window, on one MIDI buffer. -/
def runGenerateEvents (s : Sequencer) (buf : MidiBuffer) :
    List (ℚ × ℚ) → Sequencer × MidiBuffer
  | [] => (s, buf)
  | w :: ws =>
    let r := s.generateEvents w.1 w.2 buf
    runGenerateEvents r.1 r.2 ws

/-- In every prefix of the event list, the note-offs of a pitch number at most
`K` more than its note-ons. -/
def Balanced (K : Nat) (pitch : Int) (buf : MidiBuffer) : Prop :=
  ∀ j : Nat, noteOffCount pitch (buf.take j) ≤ K + noteOnCount pitch (buf.take j)

/-! ## Example inputs -/

/-- A timeline holding one note (pitch 60, velocity 100, start 0, duration 1),
returned for every window that contains beat 0; no automation. -/
def singleNoteTimeline : Timeline where
  getNotesInRange := fun a b => if a ≤ 0 ∧ 0 < b then [⟨60, 100, 0, 1⟩] else []
  hasTimeline := false
  getAutomatedParameters := []
  getParameterValueAtTime := fun _ _ => 0

/-- A playing, looping sequencer at position 3.5 in the loop [0, 4), with blocks of
one beat (22050 samples at 44100 Hz and 120 bpm). -/
def loopingExample : Sequencer :=
  { Sequencer.init 10 with
    playing := true
    looping := true
    currentPosition := 7 / 2
    lastEventPosition := 7 / 2
    currentBlockSize := 22050
    timeline := some singleNoteTimeline }

/-- The calls that lead from the constructor to a playing sequencer with a
listener set and one sounding note: the first block of 512 samples after `play`. -/
def soundingOps : List Op :=
  [Op.setTimeline (some singleNoteTimeline), Op.setNoteEventCallback true, Op.play,
    Op.processMidi [] []]

/-- A playing sequencer with a listener set and one sounding note. -/
def soundingExample : Sequencer :=
  runOps (Sequencer.init 10) soundingOps

/-- A playing sequencer at position 0 whose timeline holds the single note. -/
def singleNoteExample : Sequencer :=
  runOps (Sequencer.init 10) [Op.setTimeline (some singleNoteTimeline), Op.play]

/-- A record tagged "Sequencer" whose only attribute is a tempo of 90. -/
def tempoOnlyXml : XmlElement :=
  ⟨"Sequencer", [⟨"tempo", 90, 90, true⟩]⟩

/-- A record tagged "Sequencer" whose only attribute is a tempo of 0. -/
def zeroTempoXml : XmlElement :=
  ⟨"Sequencer", [⟨"tempo", 0, 0, false⟩]⟩

/-! ## Effects: parameter smoothing

The effects of `src/effects/Delay.cpp` and `src/effects/Reverb.cpp`. The atomic
parameter slots `parameters[...]` and the flag `isPrepared` belong to the base
class `ProcessorNode`; they are fields of the effect states here. -/

/-- The function `juce::jlimit (lowerLimit, upperLimit, valueToConstrain)`. -/
def jlimit (lowerLimit upperLimit valueToConstrain : ℚ) : ℚ :=
  if valueToConstrain < lowerLimit then lowerLimit
  else if upperLimit < valueToConstrain then upperLimit
  else valueToConstrain

/-- The JUCE class `juce::SmoothedValue<float>` with a linear ramp: the value
moves from `currentValue` to `target` in `countdown` equal steps. -/
structure SmoothedValue where
  currentValue : ℚ
  target : ℚ
  step : ℚ
  countdown : Int
  stepsToTarget : Int

namespace SmoothedValue

/-- A default-constructed smoothed value. -/
def init : SmoothedValue :=
  { currentValue := 0, target := 0, step := 0, countdown := 0, stepsToTarget := 0 }

/-- The call `isSmoothing()`. -/
def isSmoothing (sv : SmoothedValue) : Bool :=
  decide (sv.countdown > 0)

/-- The call `setCurrentAndTargetValue(newValue)`. -/
def setCurrentAndTargetValue (sv : SmoothedValue) (newValue : ℚ) : SmoothedValue :=
  { sv with target := newValue, currentValue := newValue, countdown := 0 }

/-- The call `reset(sampleRate, rampLengthInSeconds)`. -/
def reset (sv : SmoothedValue) (sampleRate rampLengthInSeconds : ℚ) : SmoothedValue :=
  let sv₁ : SmoothedValue := { sv with stepsToTarget := ⌊rampLengthInSeconds * sampleRate⌋ }
  sv₁.setCurrentAndTargetValue sv₁.target

/-- The call `setTargetValue(newValue)`. -/
def setTargetValue (sv : SmoothedValue) (newValue : ℚ) : SmoothedValue :=
  if newValue = sv.target then sv
  else if sv.stepsToTarget ≤ 0 then sv.setCurrentAndTargetValue newValue
  else
    { sv with
      target := newValue
      countdown := sv.stepsToTarget
      step := (newValue - sv.currentValue) / (sv.stepsToTarget : ℚ) }

/-- The call `getNextValue()`: the smoother after the call and the value returned. -/
def getNextValue (sv : SmoothedValue) : SmoothedValue × ℚ :=
  if !sv.isSmoothing then (sv, sv.target)
  else
    let sv₁ : SmoothedValue := { sv with countdown := sv.countdown - 1 }
    let sv₂ : SmoothedValue :=
      if sv₁.isSmoothing then { sv₁ with currentValue := sv₁.currentValue + sv₁.step }
      else { sv₁ with currentValue := sv₁.target }
    (sv₂, sv₂.currentValue)

end SmoothedValue

/-! ## Effects: delay -/

/-- Modelled from the spec: the constant `MAX_DELAY_TIME_MS` of `Delay.h`, which is
not among the sources; the spec gives the delay-time range as 10 to 2000 ms. -/
def MAX_DELAY_TIME_MS : ℚ := 2000

/-- The atomic parameter slots of a delay, `parameters[DelayTimeParam]`,
`parameters[FeedbackParam]` and `parameters[DryWetParam]`. -/
structure DelayParameters where
  DelayTimeParam : ℚ
  FeedbackParam : ℚ
  DryWetParam : ℚ

/-- An audio block: one sample list per channel, all of the block's length. -/
abbrev AudioBuffer := List (List ℚ)

/-- The call `buffer.getNumSamples()`. -/
def AudioBuffer.getNumSamples (buffer : AudioBuffer) : Int :=
  match buffer with
  | [] => 0
  | channelData :: _ => (channelData.length : Int)

/-- The member variables of `Delay`. The delay buffer maps a channel and a sample
index to the stored sample; the indices from 0 up to `delayBufferSize` are the
allocated buffer. -/
structure Delay where
  delayTimeMs : ℚ
  feedbackAmount : ℚ
  dryWetMix : ℚ
  delayBufferSize : Int
  delayWritePosition : Int
  delaySamples : Int
  parameters : DelayParameters
  isPrepared : Bool
  sampleRate : ℚ
  maximumBlockSize : Int
  numChannels : Int
  delayTimeSmoothed : SmoothedValue
  feedbackSmoothed : SmoothedValue
  dryWetSmoothed : SmoothedValue
  delayBuffer : Nat → Int → ℚ

/-- The smoothed values one sample of the delay loop works with. -/
structure SampleParams where
  currentDelayTimeSamples : ℚ
  currentFeedback : ℚ
  currentDryWet : ℚ

/-- The read position of `Delay::processBlockSIMD`: the write position minus the
truncated delay, plus the buffer size when negative. -/
def readPosition (delayWritePosition delayBufferSize : Int) (currentDelayTimeSamples : ℚ) : Int :=
  let readPosition := delayWritePosition - truncToInt currentDelayTimeSamples
  if readPosition < 0 then readPosition + delayBufferSize else readPosition

/-- The adjacent read position, `(readPosition + 1) % delayBufferSize`. -/
def readPosition2 (readPosition delayBufferSize : Int) : Int :=
  (readPosition + 1).tmod delayBufferSize

/-- The fraction `currentDelayTimeSamples - std::floor(currentDelayTimeSamples)`. -/
def delayFraction (currentDelayTimeSamples : ℚ) : ℚ :=
  currentDelayTimeSamples - (⌊currentDelayTimeSamples⌋ : ℚ)

/-- The interpolated sample read from the delay data of one channel. -/
def delayedSample (delayData : Int → ℚ) (delayWritePosition delayBufferSize : Int)
    (currentDelayTimeSamples : ℚ) : ℚ :=
  let readPosition := readPosition delayWritePosition delayBufferSize currentDelayTimeSamples
  let fraction := delayFraction currentDelayTimeSamples
  let readPosition2 := readPosition2 readPosition delayBufferSize
  delayData readPosition * (1 - fraction) + delayData readPosition2 * fraction

/-- One pass of the sample loop of `Delay::processBlockSIMD` on the delay data of
a channel, for given smoothed values: the new delay data and the output sample. -/
def sampleStep (delayData : Int → ℚ) (delayWritePosition delayBufferSize : Int) (x : ℚ)
    (p : SampleParams) : (Int → ℚ) × ℚ :=
  let delayedSample :=
    delayedSample delayData delayWritePosition delayBufferSize p.currentDelayTimeSamples
  (Function.update delayData delayWritePosition (x + delayedSample * p.currentFeedback),
    x * (1 - p.currentDryWet) + delayedSample * p.currentDryWet)

namespace Delay

/-- The constructor `Delay::Delay()`; no buffer is allocated yet. -/
def init : Delay where
  delayTimeMs := 500
  feedbackAmount := 1 / 2
  dryWetMix := 3 / 10
  delayBufferSize := 0
  delayWritePosition := 0
  delaySamples := 0
  parameters := ⟨500, 1 / 2, 3 / 10⟩
  isPrepared := false
  sampleRate := 0
  maximumBlockSize := 0
  numChannels := 0
  delayTimeSmoothed := SmoothedValue.init
  feedbackSmoothed := SmoothedValue.init
  dryWetSmoothed := SmoothedValue.init
  delayBuffer := fun _ _ => 0

/-- Delay::calculateDelayBufferSize. -/
def calculateDelayBufferSize (sampleRate maxDelayMs : ℚ) : Int :=
  let maxDelaySamples := (maxDelayMs / 1000) * sampleRate
  truncToInt maxDelaySamples + 512

/-- Delay::updateParameters. -/
def updateParameters (d : Delay) : Delay :=
  if d.sampleRate > 0 then
    { d with delaySamples := truncToInt ((d.delayTimeMs / 1000) * d.sampleRate) }
  else d

/-- Delay::setDelayTime. -/
def setDelayTime (d : Delay) (newDelayTimeMs : ℚ) : Delay :=
  let d₁ : Delay := { d with delayTimeMs := jlimit 10 MAX_DELAY_TIME_MS newDelayTimeMs }
  let d₂ : Delay := { d₁ with parameters := { d₁.parameters with DelayTimeParam := d₁.delayTimeMs } }
  if d₂.isPrepared then
    ({ d₂ with delayTimeSmoothed := d₂.delayTimeSmoothed.setTargetValue d₂.delayTimeMs }
      : Delay).updateParameters
  else d₂

/-- Delay::setFeedback. -/
def setFeedback (d : Delay) (newFeedback : ℚ) : Delay :=
  let d₁ : Delay := { d with feedbackAmount := jlimit 0 (19 / 20) newFeedback }
  let d₂ : Delay := { d₁ with parameters := { d₁.parameters with FeedbackParam := d₁.feedbackAmount } }
  if d₂.isPrepared then
    { d₂ with feedbackSmoothed := d₂.feedbackSmoothed.setTargetValue d₂.feedbackAmount }
  else d₂

/-- Delay::setDryWet. -/
def setDryWet (d : Delay) (newDryWet : ℚ) : Delay :=
  let d₁ : Delay := { d with dryWetMix := jlimit 0 1 newDryWet }
  let d₂ : Delay := { d₁ with parameters := { d₁.parameters with DryWetParam := d₁.dryWetMix } }
  if d₂.isPrepared then
    { d₂ with dryWetSmoothed := d₂.dryWetSmoothed.setTargetValue d₂.dryWetMix }
  else d₂

/-- Modelled from the spec: `ProcessorNode::prepareToPlay` of the base class, which
is not among the sources; a prepared node has its prepared flag set. -/
def baseprepareToPlay (d : Delay) : Delay :=
  { d with isPrepared := true }

/-- Delay::prepareToPlay. -/
def prepareToPlay (d : Delay) (sampleRate : ℚ) (samplesPerBlock : Int) : Delay :=
  let d₁ := d.baseprepareToPlay
  let d₂ : Delay :=
    { d₁ with sampleRate := sampleRate, maximumBlockSize := samplesPerBlock, numChannels := 2 }
  let d₃ : Delay :=
    { d₂ with
      delayTimeSmoothed :=
        (d₂.delayTimeSmoothed.reset sampleRate (1 / 10)).setCurrentAndTargetValue d₂.delayTimeMs
      feedbackSmoothed :=
        (d₂.feedbackSmoothed.reset sampleRate (1 / 20)).setCurrentAndTargetValue d₂.feedbackAmount
      dryWetSmoothed :=
        (d₂.dryWetSmoothed.reset sampleRate (1 / 20)).setCurrentAndTargetValue d₂.dryWetMix }
  let d₄ : Delay :=
    { d₃ with
      delayBufferSize := calculateDelayBufferSize sampleRate MAX_DELAY_TIME_MS
      delayBuffer := fun _ _ => 0 }
  let d₅ : Delay := { d₄ with delayWritePosition := 0 }
  let d₆ : Delay := { d₅ with delaySamples := truncToInt ((d₅.delayTimeMs / 1000) * sampleRate) }
  d₆.updateParameters

/-- The check at the head of `Delay::processBlockSIMD`: a delay time published in
the atomic slot that differs from the cached one by more than 0.1 is taken over. -/
def pollDelayTime (d : Delay) : Delay :=
  let currentDelayTime := d.parameters.DelayTimeParam
  if |currentDelayTime - d.delayTimeMs| > 1 / 10 then
    ({ d with
        delayTimeMs := currentDelayTime
        delayTimeSmoothed := d.delayTimeSmoothed.setTargetValue currentDelayTime }
      : Delay).updateParameters
  else d

/-- The three `getNextValue()` calls of one pass of the sample loop: the values
the loop body works with. -/
def nextParams (d : Delay) : SampleParams :=
  { currentDelayTimeSamples := (d.delayTimeSmoothed.getNextValue.2 / 1000) * d.sampleRate
    currentFeedback := d.feedbackSmoothed.getNextValue.2
    currentDryWet := d.dryWetSmoothed.getNextValue.2 }

/-- One pass of the sample loop of `Delay::processBlockSIMD` for a channel and an
input sample: the new state and the output sample. -/
def processSample (d : Delay) (channel : Nat) (x : ℚ) : Delay × ℚ :=
  let p := d.nextParams
  let r := sampleStep (d.delayBuffer channel) d.delayWritePosition d.delayBufferSize x p
  ({ d with
      delayTimeSmoothed := d.delayTimeSmoothed.getNextValue.1
      feedbackSmoothed := d.feedbackSmoothed.getNextValue.1
      dryWetSmoothed := d.dryWetSmoothed.getNextValue.1
      delayBuffer := Function.update d.delayBuffer channel r.1 }, r.2)

/-- The sample loop of `Delay::processBlockSIMD` over the samples of a channel. -/
def processSamples (channel : Nat) : Delay → List ℚ → Delay × List ℚ
  | d, [] => (d, [])
  | d, x :: xs =>
    let r := d.processSample channel x
    let r₂ := processSamples channel r.1 xs
    (r₂.1, r.2 :: r₂.2)

/-- The update of the write position at the end of the channel loop body:
`delayWritePosition += numSamples; delayWritePosition %= delayBufferSize`. -/
def advanceWritePosition (d : Delay) (numSamples : Int) : Delay :=
  let d₁ : Delay := { d with delayWritePosition := d.delayWritePosition + numSamples }
  { d₁ with delayWritePosition := d₁.delayWritePosition.tmod d₁.delayBufferSize }

/-- The channel loop of `Delay::processBlockSIMD`, from channel number `channel`
on: the sample loop, then the update of the write position. -/
def processChannels (numSamples : Int) : Delay → Nat → List (List ℚ) → Delay × List (List ℚ)
  | d, _, [] => (d, [])
  | d, channel, channelData :: rest =>
    let r := processSamples channel d channelData
    let d₁ := r.1.advanceWritePosition numSamples
    let r₂ := processChannels numSamples d₁ (channel + 1) rest
    (r₂.1, r.2 :: r₂.2)

/-- Delay::processBlockSIMD (and `processBlock`, which forwards to it): the new
state and the processed buffer. The copy `dryBuffer` is not used. -/
def processBlockSIMD (d : Delay) (buffer : AudioBuffer) : Delay × AudioBuffer :=
  processChannels buffer.getNumSamples d.pollDelayTime 0 buffer

/-- A sequence of `processBlockSIMD` calls, one per block. -/
def runBlocks : Delay → List AudioBuffer → Delay × List AudioBuffer
  | d, [] => (d, [])
  | d, buffer :: rest =>
    let r := d.processBlockSIMD buffer
    let r₂ := runBlocks r.1 rest
    (r₂.1, r.2 :: r₂.2)

end Delay

/-- The smoothed values of one pass of the sample loop lie in their ranges:
feedback in [0, 0.95], dry/wet in [0, 1], and the delay in samples between 0
and the buffer size. -/
def SampleParams.InRange (delayBufferSize : Int) (p : SampleParams) : Prop :=
  0 ≤ p.currentFeedback ∧ p.currentFeedback ≤ 19 / 20 ∧
  0 ≤ p.currentDryWet ∧ p.currentDryWet ≤ 1 ∧
  0 ≤ p.currentDelayTimeSamples ∧ p.currentDelayTimeSamples ≤ (delayBufferSize : ℚ)

namespace Delay

/-- Every pass of the sample loop over a channel works with values in range. -/
def SamplesInRange (channel : Nat) : Delay → List ℚ → Prop
  | _, [] => True
  | d, x :: xs =>
    d.nextParams.InRange d.delayBufferSize ∧ SamplesInRange channel (d.processSample channel x).1 xs

/-- Every pass of the sample loop, over all channels from `channel` on, works
with values in range. -/
def ChannelsInRange (numSamples : Int) : Delay → Nat → List (List ℚ) → Prop
  | _, _, [] => True
  | d, channel, channelData :: rest =>
    SamplesInRange channel d channelData ∧
    ChannelsInRange numSamples
      ((processSamples channel d channelData).1.advanceWritePosition numSamples) (channel + 1) rest

/-- Every pass of the sample loop in a sequence of blocks works with values in
range. -/
def BlocksInRange : Delay → List AudioBuffer → Prop
  | _, [] => True
  | d, buffer :: rest =>
    ChannelsInRange buffer.getNumSamples d.pollDelayTime 0 buffer ∧
    BlocksInRange (d.processBlockSIMD buffer).1 rest

/-- Every slot of the allocated delay buffer has magnitude at most `B`. -/
def SlotsBounded (B : ℚ) (d : Delay) : Prop :=
  ∀ (channel : Nat) (i : Int), 0 ≤ i → i < d.delayBufferSize → |d.delayBuffer channel i| ≤ B

end Delay

/-! ## Effects: reverb -/

/-- The structure `juce::Reverb::Parameters`. -/
structure ReverbParameters where
  roomSize : ℚ
  damping : ℚ
  wetLevel : ℚ
  dryLevel : ℚ
  width : ℚ
  freezeMode : ℚ

/-- The atomic parameter slots of a reverb, indexed by `Reverb::ParameterIndex`. -/
structure ReverbSlots where
  RoomSizeParam : ℚ
  DampingParam : ℚ
  WidthParam : ℚ
  DryWetParam : ℚ

/-- The member variables of `Reverb`; of the `juce::Reverb` processor, the
parameters last handed to it (`reverb`) and its sample rate. -/
structure Reverb where
  roomSize : ℚ
  dampingAmount : ℚ
  stereoWidth : ℚ
  dryWetMix : ℚ
  parameters : ReverbSlots
  isPrepared : Bool
  reverb : ReverbParameters
  reverbSampleRate : ℚ
  reverbParams : ReverbParameters
  sampleRate : ℚ
  maximumBlockSize : Int
  numChannels : Int
  roomSizeSmoothed : SmoothedValue
  dampingSmoothed : SmoothedValue
  widthSmoothed : SmoothedValue
  dryWetSmoothed : SmoothedValue

namespace Reverb

/-- Reverb::updateParameters. -/
def updateParameters (r : Reverb) : Reverb :=
  let reverbParams : ReverbParameters :=
    { roomSize := r.roomSize
      damping := r.dampingAmount
      wetLevel := r.dryWetMix
      dryLevel := 1 - r.dryWetMix
      width := r.stereoWidth
      freezeMode := 0 }
  { r with reverbParams := reverbParams, reverb := reverbParams }

/-- The constructor `Reverb::Reverb()`. -/
def init : Reverb :=
  let reverbParams : ReverbParameters :=
    { roomSize := 1 / 2, damping := 1 / 2, wetLevel := 3 / 10, dryLevel := 1 - 3 / 10,
      width := 1, freezeMode := 0 }
  { roomSize := 1 / 2
    dampingAmount := 1 / 2
    stereoWidth := 1
    dryWetMix := 3 / 10
    parameters := ⟨1 / 2, 1 / 2, 1, 3 / 10⟩
    isPrepared := false
    reverb := reverbParams
    reverbSampleRate := 44100
    reverbParams := reverbParams
    sampleRate := 0
    maximumBlockSize := 0
    numChannels := 0
    roomSizeSmoothed := SmoothedValue.init
    dampingSmoothed := SmoothedValue.init
    widthSmoothed := SmoothedValue.init
    dryWetSmoothed := SmoothedValue.init }

/-- Reverb::setRoomSize. -/
def setRoomSize (r : Reverb) (size : ℚ) : Reverb :=
  let r₁ : Reverb := { r with roomSize := jlimit 0 1 size }
  let r₂ : Reverb := { r₁ with parameters := { r₁.parameters with RoomSizeParam := r₁.roomSize } }
  if r₂.isPrepared then
    ({ r₂ with roomSizeSmoothed := r₂.roomSizeSmoothed.setTargetValue r₂.roomSize }
      : Reverb).updateParameters
  else r₂

/-- Reverb::setDamping. -/
def setDamping (r : Reverb) (damping : ℚ) : Reverb :=
  let r₁ : Reverb := { r with dampingAmount := jlimit 0 1 damping }
  let r₂ : Reverb := { r₁ with parameters := { r₁.parameters with DampingParam := r₁.dampingAmount } }
  if r₂.isPrepared then
    ({ r₂ with dampingSmoothed := r₂.dampingSmoothed.setTargetValue r₂.dampingAmount }
      : Reverb).updateParameters
  else r₂

/-- Reverb::setWidth. -/
def setWidth (r : Reverb) (width : ℚ) : Reverb :=
  let r₁ : Reverb := { r with stereoWidth := jlimit 0 1 width }
  let r₂ : Reverb := { r₁ with parameters := { r₁.parameters with WidthParam := r₁.stereoWidth } }
  if r₂.isPrepared then
    ({ r₂ with widthSmoothed := r₂.widthSmoothed.setTargetValue r₂.stereoWidth }
      : Reverb).updateParameters
  else r₂

/-- Reverb::setDryWet. -/
def setDryWet (r : Reverb) (dryWet : ℚ) : Reverb :=
  let r₁ : Reverb := { r with dryWetMix := jlimit 0 1 dryWet }
  let r₂ : Reverb := { r₁ with parameters := { r₁.parameters with DryWetParam := r₁.dryWetMix } }
  if r₂.isPrepared then
    ({ r₂ with dryWetSmoothed := r₂.dryWetSmoothed.setTargetValue r₂.dryWetMix }
      : Reverb).updateParameters
  else r₂

/-- Modelled from the spec: `ProcessorNode::prepareToPlay` of the base class, which
is not among the sources; a prepared node has its prepared flag set. -/
def baseprepareToPlay (r : Reverb) : Reverb :=
  { r with isPrepared := true }

/-- Reverb::prepareToPlay. -/
def prepareToPlay (r : Reverb) (sampleRate : ℚ) (samplesPerBlock : Int) : Reverb :=
  let r₁ := r.baseprepareToPlay
  let r₂ : Reverb :=
    { r₁ with sampleRate := sampleRate, maximumBlockSize := samplesPerBlock, numChannels := 2 }
  let r₃ : Reverb :=
    { r₂ with
      roomSizeSmoothed :=
        (r₂.roomSizeSmoothed.reset sampleRate (1 / 20)).setCurrentAndTargetValue r₂.roomSize
      dampingSmoothed :=
        (r₂.dampingSmoothed.reset sampleRate (1 / 20)).setCurrentAndTargetValue r₂.dampingAmount
      widthSmoothed :=
        (r₂.widthSmoothed.reset sampleRate (1 / 20)).setCurrentAndTargetValue r₂.stereoWidth
      dryWetSmoothed :=
        (r₂.dryWetSmoothed.reset sampleRate (1 / 20)).setCurrentAndTargetValue r₂.dryWetMix }
  let r₄ : Reverb := { r₃ with reverbSampleRate := sampleRate }
  r₄.updateParameters

end Reverb

/-! ## Example inputs for the effects -/

/-- A delay prepared for 44100 Hz and blocks of 512 samples. -/
def preparedDelay : Delay :=
  Delay.init.prepareToPlay 44100 512

/-- A stereo block of two samples per channel. -/
def stereoBlock : AudioBuffer :=
  [[1, 2], [1, 2]]

/-- The prepared delay with a dry/wet mix of 1 published in the atomic slot only. -/
def slotOnlyDelay : Delay :=
  { preparedDelay with parameters := { preparedDelay.parameters with DryWetParam := 1 } }

/-- The prepared delay after `setDryWet 1`, with the atomic slots put back to
what they were before the call. -/
def smootherOnlyDelay : Delay :=
  { preparedDelay.setDryWet 1 with parameters := preparedDelay.parameters }

/-- A reverb prepared for 44100 Hz and blocks of 512 samples. -/
def preparedReverb : Reverb :=
  Reverb.init.prepareToPlay 44100 512

/-- A timeline holding one note (pitch 60, velocity 100, start 4, duration 1),
returned for every window that contains beat 4; no automation. -/
def laterNoteTimeline : Timeline where
  getNotesInRange := fun a b => if a ≤ 4 ∧ 4 < b then [⟨60, 100, 4, 1⟩] else []
  hasTimeline := false
  getAutomatedParameters := []
  getParameterValueAtTime := fun _ _ => 0

/-- A playing sequencer at position 4 with blocks of one beat (22050 samples at
44100 Hz and 120 bpm), whose timeline holds the note at beat 4. -/
def laterNoteExample : Sequencer :=
  runOps (Sequencer.init 10)
    [Op.setTimeline (some laterNoteTimeline), Op.prepare 44100 22050, Op.setPosition 4, Op.play]

/-! ## Persistence: saving -/

/-- How the text that `juce::XmlElement::setAttribute` writes for a number reads
back through a reader of another type: a double read by `getIntAttribute` or by
`getBoolAttribute`, an integer read by `getBoolAttribute`. `createStateXml` and
`restoreStateFromXml` never read an attribute this way, so these readings are
left open. -/
structure TextReadings where
  intOfDouble : ℚ → Int
  boolOfDouble : ℚ → Bool
  boolOfInt : Int → Bool

/-- The attribute written by `setAttribute(name, double)`. -/
def XmlAttribute.ofDouble (txt : TextReadings) (name : String) (value : ℚ) : XmlAttribute :=
  ⟨name, value, txt.intOfDouble value, txt.boolOfDouble value⟩

/-- The attribute written by `setAttribute(name, int)`. -/
def XmlAttribute.ofInt (txt : TextReadings) (name : String) (value : Int) : XmlAttribute :=
  ⟨name, (value : ℚ), value, txt.boolOfInt value⟩

/-- The attribute written by `setAttribute(name, bool)`: the flag converts to the
integer 1 or 0, and `getBoolAttribute` reads the text "1" as true and "0" as false. -/
def XmlAttribute.ofBool (name : String) (value : Bool) : XmlAttribute :=
  ⟨name, if value then 1 else 0, if value then 1 else 0, value⟩

/-- The call `setAttribute`: an attribute of that name gets the new value, otherwise
the attribute is added at the end. -/
def XmlElement.setAttribute (xml : XmlElement) (a : XmlAttribute) : XmlElement :=
  if xml.attributes.any (fun b => b.name == a.name) then
    { xml with attributes := xml.attributes.map (fun b => if b.name == a.name then a else b) }
  else
    { xml with attributes := xml.attributes ++ [a] }

/-- Sequencer::createStateXml. -/
def Sequencer.createStateXml (s : Sequencer) (txt : TextReadings) : XmlElement :=
  let xml : XmlElement := ⟨"Sequencer", []⟩
  let xml := xml.setAttribute (XmlAttribute.ofDouble txt "position" s.currentPosition)
  let xml := xml.setAttribute (XmlAttribute.ofDouble txt "tempo" s.tempo)
  let xml := xml.setAttribute (XmlAttribute.ofInt txt "timeSignatureNumerator" s.timeSignatureNumerator)
  let xml := xml.setAttribute (XmlAttribute.ofInt txt "timeSignatureDenominator" s.timeSignatureDenominator)
  let xml := xml.setAttribute (XmlAttribute.ofBool "looping" s.looping)
  let xml := xml.setAttribute (XmlAttribute.ofDouble txt "loopStart" s.loopStart)
  let xml := xml.setAttribute (XmlAttribute.ofDouble txt "loopEnd" s.loopEnd)
  let xml := xml.setAttribute (XmlAttribute.ofDouble txt "quantizationGrid" s.quantizationGrid)
  xml

/-! ## Parameter notifications -/

/-- The values handed to the parameter-event listener, in call order. -/
def parameterCallbacks (effects : List Effect) : List (String × ℚ) :=
  effects.filterMap (fun e =>
    match e with
    | Effect.parameterCallback paramId value => some (paramId, value)
    | _ => none)

/-- The collaborator calls of one call of `generateEvents` that come before the
parameter notifications: the timeline query, the listener calls of the note-ons
and those of the note-offs. -/
def noteEffects (s : Sequencer) (a b : ℚ) (notes : List NoteEvent) : List Effect :=
  [Effect.notesQuery a b] ++
    (if s.noteEventCallback then notes.map Effect.noteCallback else []) ++
    (if s.noteEventCallback then (dueNotes s a b notes).map noteOffCallback else [])

/-- A timeline with the single note at beat 0 and two automated parameters:
"cutoff" follows the beat, "resonance" is constantly 1. -/
def automatedTimeline : Timeline where
  getNotesInRange := fun a b => if a ≤ 0 ∧ 0 < b then [⟨60, 100, 0, 1⟩] else []
  hasTimeline := true
  getAutomatedParameters := ["cutoff", "resonance"]
  getParameterValueAtTime := fun paramId t => if paramId = "cutoff" then t else 1

/-- A playing sequencer at position 0 with both listeners set, on the automated
timeline. -/
def automatedExample : Sequencer :=
  runOps (Sequencer.init 10)
    [Op.setTimeline (some automatedTimeline), Op.setNoteEventCallback true,
      Op.setParameterCallback true, Op.play]

/-- A stopped sequencer holding two active notes, ending at beats 1 and 3. -/
def twoActiveExample : Sequencer :=
  { Sequencer.init 10 with activeNotes := [⟨60, 100, 0, 1⟩, ⟨62, 100, 0, 3⟩, ⟨64, 100, 1 / 2, 1⟩] }

/-! ## Effects: calls that set the parameters of the reverb -/

/-- One call of a member function of `Reverb` that sets parameters: a setter,
`prepareToPlay`, or `updateParameters`. -/
inductive ReverbOp where
  | setRoomSize (size : ℚ)
  | setDamping (damping : ℚ)
  | setWidth (width : ℚ)
  | setDryWet (dryWet : ℚ)
  | prepareToPlay (sampleRate : ℚ) (samplesPerBlock : Int)
  | updateParameters

/-- The reverb after one such call. -/
def ReverbOp.apply : ReverbOp → Reverb → Reverb
  | .setRoomSize size, r => r.setRoomSize size
  | .setDamping damping, r => r.setDamping damping
  | .setWidth width, r => r.setWidth width
  | .setDryWet dryWet, r => r.setDryWet dryWet
  | .prepareToPlay sampleRate samplesPerBlock, r => r.prepareToPlay sampleRate samplesPerBlock
  | .updateParameters, r => r.updateParameters

/-- The reverb after a sequence of such calls, first call first. -/
def Reverb.runCalls (r : Reverb) (ops : List ReverbOp) : Reverb :=
  ops.foldl (fun st op => op.apply st) r

/-- A reverb state reached from the constructor by setter calls, `prepareToPlay`
and `updateParameters`. -/
def Reverb.ReachableBySetters (r : Reverb) : Prop :=
  ∃ ops : List ReverbOp, r = Reverb.init.runCalls ops

/-- What the reverb hands to the reverberation network: a wet level in [0, 1],
the complementary dry level and no freeze. -/
def Reverb.HandedParamsValid (r : Reverb) : Prop :=
  0 ≤ r.reverb.wetLevel ∧ r.reverb.wetLevel ≤ 1 ∧
    r.reverb.dryLevel = 1 - r.reverb.wetLevel ∧ r.reverb.freezeMode = 0

/-! ## Mixer: solo and mute -/

/-- The toggle states of the solo and mute buttons of a `MixerChannel`. -/
structure MixerChannel where
  soloButton : Bool
  muteButton : Bool
  deriving DecidableEq, Repr

namespace MixerChannel

/-- The constructor `MixerChannel::MixerChannel`: both buttons are off. -/
def init : MixerChannel :=
  ⟨false, false⟩

/-- MixerChannel::setMute, called with `juce::dontSendNotification`. -/
def setMute (c : MixerChannel) (mute : Bool) : MixerChannel :=
  { c with muteButton := mute }

/-- MixerChannel::isMuted. -/
def isMuted (c : MixerChannel) : Bool :=
  c.muteButton

/-- MixerChannel::setSolo, called with `juce::dontSendNotification`. -/
def setSolo (c : MixerChannel) (solo : Bool) : MixerChannel :=
  { c with soloButton := solo }

/-- MixerChannel::isSoloed. -/
def isSoloed (c : MixerChannel) : Bool :=
  c.soloButton

end MixerChannel

/-- The input channels of `MixerView`. The audio engine pointer is left out: the
handlers only test it before a TODO. -/
structure MixerView where
  inputChannels : List MixerChannel
  deriving DecidableEq, Repr

namespace MixerView

/-- The constructor `MixerView::MixerView`: `createDefaultChannels` creates four
input channels. -/
def init : MixerView :=
  ⟨List.replicate 4 MixerChannel.init⟩

/-- MixerView::handleMuteChange: nothing but a TODO for the audio engine. -/
def handleMuteChange (v : MixerView) (_channelIndex : Int) (_muted : Bool) : MixerView :=
  v

/-- The first loop of the soloed branch of `handleSoloChange`: the indices of the
soloed channels, counted from `i`. -/
def soloedChannels : Int → List MixerChannel → List Int
  | _, [] => []
  | i, ch :: rest =>
    if ch.isSoloed then i :: soloedChannels (i + 1) rest else soloedChannels (i + 1) rest

/-- The second loop of the soloed branch of `handleSoloChange`, counted from `i`:
a channel whose mute state differs from `shouldBeMuted` is set to it. -/
def muteNonSoloed (soloed : List Int) : Int → List MixerChannel → List MixerChannel
  | _, [] => []
  | i, ch :: rest =>
    let shouldBeMuted := !(soloed.contains i)
    (if shouldBeMuted != ch.isMuted then ch.setMute shouldBeMuted else ch) ::
      muteNonSoloed soloed (i + 1) rest

/-- The loop of the other branch of `handleSoloChange`: every muted channel is
unmuted. -/
def unmuteAll : List MixerChannel → List MixerChannel
  | [] => []
  | ch :: rest => (if ch.isMuted then ch.setMute false else ch) :: unmuteAll rest

/-- MixerView::handleSoloChange. -/
def handleSoloChange (v : MixerView) (_channelIndex : Int) (soloed : Bool) : MixerView :=
  if soloed then
    let soloedChannels := soloedChannels 0 v.inputChannels
    { v with inputChannels := muteNonSoloed soloedChannels 0 v.inputChannels }
  else
    let anySoloed := v.inputChannels.any (fun channel => channel.isSoloed)
    if !anySoloed then { v with inputChannels := unmuteAll v.inputChannels }
    else v

/-- A click on the solo button of an input channel: the button toggles its state
(`setClickingTogglesState(true)`), then `MixerChannel::buttonClicked` calls the
solo callback, which is `handleSoloChange(channelIndex, state)`. -/
def clickSolo (v : MixerView) (channelIndex : Nat) : MixerView :=
  match v.inputChannels.get? channelIndex with
  | none => v
  | some ch =>
    let state := !ch.soloButton
    let v₁ : MixerView :=
      { v with inputChannels := v.inputChannels.set channelIndex { ch with soloButton := state } }
    v₁.handleSoloChange channelIndex state

/-- The view after a sequence of clicks on solo buttons, first click first. -/
def clickSolos (v : MixerView) (clicks : List Nat) : MixerView :=
  clicks.foldl clickSolo v

/-- The mute states agree with the solo states: with a soloed channel, a channel
is muted exactly when it is not soloed; without one, no channel is muted. -/
def SoloMuteConsistent (v : MixerView) : Prop :=
  if v.inputChannels.any (fun ch => ch.isSoloed) then
    ∀ ch ∈ v.inputChannels, ch.isMuted = !ch.isSoloed
  else
    ∀ ch ∈ v.inputChannels, ch.isMuted = false

end MixerView

/-! ## Example input for the loop wrap -/

/-- A timeline holding one short note (pitch 60, velocity 100, start 1/10,
duration 1/10), returned for every window that contains beat 1/10; no automation. -/
def wrapNoteTimeline : Timeline where
  getNotesInRange := fun a b => if a ≤ 1 / 10 ∧ 1 / 10 < b then [⟨60, 100, 1 / 10, 1 / 10⟩] else []
  hasTimeline := false
  getAutomatedParameters := []
  getParameterValueAtTime := fun _ _ => 0

/-- A playing, looping sequencer at position 3.5 in the loop [0, 4), with blocks of
one beat (22050 samples at 44100 Hz and 120 bpm), whose timeline holds the short
note at beat 1/10. -/
def wrapNoteExample : Sequencer :=
  runOps (Sequencer.init 10)
    [Op.setTimeline (some wrapNoteTimeline), Op.prepare 44100 22050, Op.setLooping true,
      Op.setPosition (7 / 2), Op.play]

/-! ## Time conversions and quantization -/

namespace Sequencer

/-- C6: for a fixed tempo > 0, `beatsToSeconds` and `secondsToBeats` are exact
inverses of each other (in both orders) over rational arithmetic, where
`beatsToSeconds b = b*60/tempo` and `secondsToBeats x = x*tempo/60`. -/
theorem beats_seconds_inverse (s : Sequencer) (x : ℚ) (htempo : s.tempo > 0) :
    s.beatsToSeconds (s.secondsToBeats x) = x ∧
    s.secondsToBeats (s.beatsToSeconds x) = x ∧
    (∀ b, s.beatsToSeconds b = b * 60 / s.tempo) ∧
    (∀ t, s.secondsToBeats t = t * s.tempo / 60) := by
  have h : s.tempo ≠ 0 := ne_of_gt htempo
  refine ⟨?_, ?_, fun _ => rfl, fun _ => rfl⟩
  · unfold beatsToSeconds secondsToBeats
    field_simp
  · unfold beatsToSeconds secondsToBeats
    field_simp

/-- Witness of C6 at the constructor state (tempo 120) and `x = 3/2`. -/
theorem beats_seconds_inverse_witness :
    (Sequencer.init 10).tempo > 0 ∧
    (Sequencer.init 10).beatsToSeconds ((Sequencer.init 10).secondsToBeats (3 / 2)) = 3 / 2 ∧
    (Sequencer.init 10).secondsToBeats ((Sequencer.init 10).beatsToSeconds (3 / 2)) = 3 / 2 :=
  have h : (Sequencer.init 10).tempo > 0 := by norm_num [Sequencer.init]
  ⟨h, (beats_seconds_inverse (Sequencer.init 10) (3 / 2) h).1,
    (beats_seconds_inverse (Sequencer.init 10) (3 / 2) h).2.1⟩

end Sequencer

/-- The distance from `x` to `roundHalfAway x`: at most one half, and the
half is only reached on the side away from zero. -/
theorem roundHalfAway_bounds (x : ℚ) :
    (0 ≤ x → -(1 / 2) < (roundHalfAway x : ℚ) - x ∧ (roundHalfAway x : ℚ) - x ≤ 1 / 2) ∧
    (x < 0 → -(1 / 2) ≤ (roundHalfAway x : ℚ) - x ∧ (roundHalfAway x : ℚ) - x < 1 / 2) := by
  constructor
  · intro hx
    have h1 := Int.floor_le (x + 1 / 2)
    have h2 := Int.lt_floor_add_one (x + 1 / 2)
    simp only [roundHalfAway, if_pos hx]
    constructor <;> linarith
  · intro hx
    have h1 := Int.le_ceil (x - 1 / 2)
    have h2 := Int.ceil_lt_add_one (x - 1 / 2)
    simp only [roundHalfAway, if_neg (not_le.mpr hx)]
    constructor <;> linarith

/-- The value `roundHalfAway x` is within one half of `x`. -/
theorem roundHalfAway_abs_le (x : ℚ) : |(roundHalfAway x : ℚ) - x| ≤ 1 / 2 := by
  rcases le_or_lt 0 x with hx | hx
  · obtain ⟨h1, h2⟩ := (roundHalfAway_bounds x).1 hx
    exact abs_le.mpr ⟨le_of_lt h1, h2⟩
  · obtain ⟨h1, h2⟩ := (roundHalfAway_bounds x).2 hx
    exact abs_le.mpr ⟨h1, le_of_lt h2⟩

/-- No integer is closer to `x` than `roundHalfAway x`. -/
theorem roundHalfAway_nearest (x : ℚ) (m : Int) :
    |(roundHalfAway x : ℚ) - x| ≤ |(m : ℚ) - x| := by
  by_cases hm : m = roundHalfAway x
  · rw [hm]
  · have h1 : (1 : ℚ) ≤ |(m : ℚ) - (roundHalfAway x : ℚ)| := by
      have : (1 : Int) ≤ |m - roundHalfAway x| := Int.one_le_abs (sub_ne_zero.mpr hm)
      exact_mod_cast this
    have h2 := roundHalfAway_abs_le x
    have h3 : |(m : ℚ) - (roundHalfAway x : ℚ)| ≤ |(m : ℚ) - x| + |(roundHalfAway x : ℚ) - x| := by
      have := abs_sub_le (m : ℚ) x (roundHalfAway x : ℚ)
      rwa [abs_sub_comm x (roundHalfAway x : ℚ)] at this
    linarith

/-- A halfway case is rounded to the integer of larger magnitude. -/
theorem roundHalfAway_tie (x : ℚ) (h : |(roundHalfAway x : ℚ) - x| = 1 / 2) :
    |x| < |(roundHalfAway x : ℚ)| := by
  rcases le_or_lt 0 x with hx | hx
  · obtain ⟨h1, h2⟩ := (roundHalfAway_bounds x).1 hx
    have h3 : (roundHalfAway x : ℚ) - x = 1 / 2 := by
      rcases abs_eq (by norm_num : (0 : ℚ) ≤ 1 / 2) |>.mp h with h' | h'
      · exact h'
      · linarith
    rw [abs_of_nonneg hx, abs_of_nonneg (by linarith)]
    linarith
  · obtain ⟨h1, h2⟩ := (roundHalfAway_bounds x).2 hx
    have h3 : (roundHalfAway x : ℚ) - x = -(1 / 2) := by
      rcases abs_eq (by norm_num : (0 : ℚ) ≤ 1 / 2) |>.mp h with h' | h'
      · linarith
      · exact h'
    rw [abs_of_neg hx, abs_of_neg (by linarith)]
    linarith

namespace Sequencer

/-- The distance between `quantizeTime t` and `t`, in grid units. -/
theorem quantizeTime_sub (s : Sequencer) (t : ℚ) (hg : s.quantizationGrid > 0) (m : Int) :
    |(m : ℚ) * s.quantizationGrid - t| = |(m : ℚ) - t / s.quantizationGrid| * s.quantizationGrid := by
  have hne : s.quantizationGrid ≠ 0 := ne_of_gt hg
  have : (m : ℚ) * s.quantizationGrid - t = ((m : ℚ) - t / s.quantizationGrid) * s.quantizationGrid := by
    field_simp
  rw [this, abs_mul, abs_of_pos hg]

/-- C7: for a grid `g > 0`, `quantizeTime t` is the integer multiple
`roundHalfAway (t/g) * g` of the grid, lies within `g/2` of `t`, is at least as
close to `t` as any other multiple of the grid, and in a tie is the multiple
away from zero; with `g = 0.25`, `quantizeTime 0.9 = 1.0` and `quantizeTime 0.1 = 0.0`. -/
theorem quantizeTime_nearest_multiple (s : Sequencer) (t : ℚ) (hg : s.quantizationGrid > 0) :
    (∃ k : Int, s.quantizeTime t = (k : ℚ) * s.quantizationGrid) ∧
    |s.quantizeTime t - t| ≤ s.quantizationGrid / 2 ∧
    (∀ m : Int, |s.quantizeTime t - t| ≤ |(m : ℚ) * s.quantizationGrid - t|) ∧
    (|s.quantizeTime t - t| = s.quantizationGrid / 2 → |t| < |s.quantizeTime t|) ∧
    (s.quantizationGrid = 1 / 4 → s.quantizeTime (9 / 10) = 1 ∧ s.quantizeTime (1 / 10) = 0) := by
  have hne : s.quantizationGrid ≠ 0 := ne_of_gt hg
  have key := quantizeTime_sub s t hg (roundHalfAway (t / s.quantizationGrid))
  refine ⟨⟨roundHalfAway (t / s.quantizationGrid), rfl⟩, ?_, ?_, ?_, ?_⟩
  · unfold quantizeTime
    rw [key]
    have := roundHalfAway_abs_le (t / s.quantizationGrid)
    nlinarith
  · intro m
    unfold quantizeTime
    rw [key, quantizeTime_sub s t hg m]
    exact mul_le_mul_of_nonneg_right (roundHalfAway_nearest _ m) (le_of_lt hg)
  · unfold quantizeTime
    rw [key]
    intro h
    have h' : |(roundHalfAway (t / s.quantizationGrid) : ℚ) - t / s.quantizationGrid| = 1 / 2 := by
      have : |(roundHalfAway (t / s.quantizationGrid) : ℚ) - t / s.quantizationGrid| * s.quantizationGrid
          = (1 / 2) * s.quantizationGrid := by rw [h]; ring
      exact mul_right_cancel₀ hne this
    have h2 := roundHalfAway_tie _ h'
    have h3 : |t| = |t / s.quantizationGrid| * s.quantizationGrid := by
      rw [abs_div, abs_of_pos hg]; field_simp
    rw [h3, abs_mul, abs_of_pos hg]
    exact mul_lt_mul_of_pos_right h2 hg
  · intro h4
    unfold quantizeTime roundHalfAway
    rw [h4]
    constructor
    · have : ⌊(9 / 10 / (1 / 4) + 1 / 2 : ℚ)⌋ = 4 := by
        rw [Int.floor_eq_iff]; norm_num
      rw [if_pos (by norm_num), this]; norm_num
    · have : ⌊(1 / 10 / (1 / 4) + 1 / 2 : ℚ)⌋ = 0 := by
        rw [Int.floor_eq_iff]; norm_num
      rw [if_pos (by norm_num), this]; norm_num

/-- Witness of C7 at the constructor state (grid 0.25) and `t = 0.9`. -/
theorem quantizeTime_nearest_multiple_witness :
    (Sequencer.init 10).quantizationGrid > 0 ∧
    |(Sequencer.init 10).quantizeTime (9 / 10) - 9 / 10| ≤ (Sequencer.init 10).quantizationGrid / 2 ∧
    (Sequencer.init 10).quantizeTime (9 / 10) = 1 ∧
    (Sequencer.init 10).quantizeTime (1 / 10) = 0 :=
  have h : (Sequencer.init 10).quantizationGrid > 0 := by norm_num [Sequencer.init]
  have hq : (Sequencer.init 10).quantizationGrid = 1 / 4 := rfl
  ⟨h, (quantizeTime_nearest_multiple (Sequencer.init 10) (9 / 10) h).2.1,
    ((quantizeTime_nearest_multiple (Sequencer.init 10) (9 / 10) h).2.2.2.2 hq).1,
    ((quantizeTime_nearest_multiple (Sequencer.init 10) (9 / 10) h).2.2.2.2 hq).2⟩

/-! ## Guards of the transport setters -/

/-- C8, as stated, fails for `setLoopStart`: on the constructor state
(`loopEnd = 4`, `loopStart = 0`) the argument `-1` is below `loopEnd`, so it is not
among the rejected arguments the claim lists, and yet it is not stored. -/
theorem setLoopStart_negative_rejected :
    ¬ ((-1 : ℚ) ≥ (Sequencer.init 10).loopEnd) ∧
    ((Sequencer.init 10).setLoopStart (-1)).loopStart ≠ -1 ∧
    ((Sequencer.init 10).setLoopStart (-1)).loopStart = 0 := by
  refine ⟨by norm_num [Sequencer.init], ?_, ?_⟩ <;>
    norm_num [setLoopStart, Sequencer.init]

/-- C8 (amended): `setTempo bpm` with `bpm ≤ 0`, `setLoopStart x` with `x < 0` or
`x ≥ loopEnd`, `setLoopEnd e` with `e ≤ loopStart` and `setQuantizationGrid g` with
`g ≤ 0` each return the state unchanged; for every other argument exactly the
named field is set to the argument and no other field changes. -/
theorem setters_guarded (s : Sequencer) (bpm x e g : ℚ) :
    (bpm ≤ 0 → s.setTempo bpm = s) ∧
    (bpm > 0 → s.setTempo bpm = { s with tempo := bpm }) ∧
    (x < 0 ∨ x ≥ s.loopEnd → s.setLoopStart x = s) ∧
    (0 ≤ x ∧ x < s.loopEnd → s.setLoopStart x = { s with loopStart := x }) ∧
    (e ≤ s.loopStart → s.setLoopEnd e = s) ∧
    (e > s.loopStart → s.setLoopEnd e = { s with loopEnd := e }) ∧
    (g ≤ 0 → s.setQuantizationGrid g = s) ∧
    (g > 0 → s.setQuantizationGrid g = { s with quantizationGrid := g }) := by
  refine ⟨?_, ?_, ?_, ?_, ?_, ?_, ?_, ?_⟩
  · intro h; unfold setTempo; rw [if_neg (not_lt.mpr h)]
  · intro h; unfold setTempo; rw [if_pos h]
  · intro h
    unfold setLoopStart
    rw [if_neg]
    rintro ⟨h1, h2⟩
    rcases h with h | h
    · exact absurd h1 (not_le.mpr h)
    · exact absurd h2 (not_lt.mpr h)
  · intro h; unfold setLoopStart; rw [if_pos ⟨h.1, h.2⟩]
  · intro h; unfold setLoopEnd; rw [if_neg (not_lt.mpr h)]
  · intro h; unfold setLoopEnd; rw [if_pos h]
  · intro h; unfold setQuantizationGrid; rw [if_neg (not_lt.mpr h)]
  · intro h; unfold setQuantizationGrid; rw [if_pos h]

/-- Witness of C8 (amended) on the constructor state: the rejected arguments
`0`, `-1`, `0`, `0` and the accepted arguments `90`, `1`, `8`, `1/2`. -/
theorem setters_guarded_witness :
    (Sequencer.init 10).setTempo 0 = Sequencer.init 10 ∧
    (Sequencer.init 10).setLoopStart (-1) = Sequencer.init 10 ∧
    (Sequencer.init 10).setLoopEnd 0 = Sequencer.init 10 ∧
    (Sequencer.init 10).setQuantizationGrid 0 = Sequencer.init 10 ∧
    (Sequencer.init 10).setTempo 90 = { Sequencer.init 10 with tempo := 90 } ∧
    (Sequencer.init 10).setLoopStart 1 = { Sequencer.init 10 with loopStart := 1 } ∧
    (Sequencer.init 10).setLoopEnd 8 = { Sequencer.init 10 with loopEnd := 8 } ∧
    (Sequencer.init 10).setQuantizationGrid (1 / 2) =
      { Sequencer.init 10 with quantizationGrid := 1 / 2 } :=
  ⟨(setters_guarded (Sequencer.init 10) 0 (-1) 0 0).1 (le_refl 0),
   (setters_guarded (Sequencer.init 10) 0 (-1) 0 0).2.2.1 (Or.inl (by norm_num)),
   (setters_guarded (Sequencer.init 10) 0 (-1) 0 0).2.2.2.2.1 (by norm_num [Sequencer.init]),
   (setters_guarded (Sequencer.init 10) 0 (-1) 0 0).2.2.2.2.2.2.1 (le_refl 0),
   (setters_guarded (Sequencer.init 10) 90 1 8 (1 / 2)).2.1 (by norm_num),
   (setters_guarded (Sequencer.init 10) 90 1 8 (1 / 2)).2.2.2.1 (by norm_num [Sequencer.init]),
   (setters_guarded (Sequencer.init 10) 90 1 8 (1 / 2)).2.2.2.2.2.1 (by norm_num [Sequencer.init]),
   (setters_guarded (Sequencer.init 10) 90 1 8 (1 / 2)).2.2.2.2.2.2.2 (by norm_num)⟩

/-! ## Restoring persisted state -/

/-- C10: for a record tagged "Sequencer", `restoreStateFromXml` returns true and
every transport field holds the record's value when the attribute is present
and the default when it is absent: position 0, tempo 120, time signature 4/4,
looping false, loopStart 0, loopEnd 4, quantizationGrid 0.25. -/
theorem restoreStateFromXml_fields (s : Sequencer) (xml : XmlElement)
    (htag : xml.tagName = "Sequencer") :
    (s.restoreStateFromXml (some xml)).2 = true ∧
    (s.restoreStateFromXml (some xml)).1.currentPosition =
      ((xml.findAttribute "position").map XmlAttribute.asDouble).getD 0 ∧
    (s.restoreStateFromXml (some xml)).1.tempo =
      ((xml.findAttribute "tempo").map XmlAttribute.asDouble).getD 120 ∧
    (s.restoreStateFromXml (some xml)).1.timeSignatureNumerator =
      ((xml.findAttribute "timeSignatureNumerator").map XmlAttribute.asInt).getD 4 ∧
    (s.restoreStateFromXml (some xml)).1.timeSignatureDenominator =
      ((xml.findAttribute "timeSignatureDenominator").map XmlAttribute.asInt).getD 4 ∧
    (s.restoreStateFromXml (some xml)).1.looping =
      ((xml.findAttribute "looping").map XmlAttribute.asBool).getD false ∧
    (s.restoreStateFromXml (some xml)).1.loopStart =
      ((xml.findAttribute "loopStart").map XmlAttribute.asDouble).getD 0 ∧
    (s.restoreStateFromXml (some xml)).1.loopEnd =
      ((xml.findAttribute "loopEnd").map XmlAttribute.asDouble).getD 4 ∧
    (s.restoreStateFromXml (some xml)).1.quantizationGrid =
      ((xml.findAttribute "quantizationGrid").map XmlAttribute.asDouble).getD (1 / 4) := by
  have hd : ∀ (n : String) (d : ℚ), xml.getDoubleAttribute n d =
      ((xml.findAttribute n).map XmlAttribute.asDouble).getD d := by
    intro n d; unfold XmlElement.getDoubleAttribute; cases xml.findAttribute n <;> rfl
  have hi : ∀ (n : String) (d : Int), xml.getIntAttribute n d =
      ((xml.findAttribute n).map XmlAttribute.asInt).getD d := by
    intro n d; unfold XmlElement.getIntAttribute; cases xml.findAttribute n <;> rfl
  have hb : ∀ (n : String) (d : Bool), xml.getBoolAttribute n d =
      ((xml.findAttribute n).map XmlAttribute.asBool).getD d := by
    intro n d; unfold XmlElement.getBoolAttribute; cases xml.findAttribute n <;> rfl
  simp [restoreStateFromXml, htag, hd, hi, hb]

end Sequencer


/-! ## Closed forms of the event-generation loops -/

namespace Sequencer

/-- The note-on loop adds one note-on event and one registered active note per
timeline note, in order, and one listener call per note when a listener is set. -/
theorem generateNoteOns_eq (a : ℚ) (notes : List NoteEvent) (s : Sequencer) (buf : MidiBuffer) :
    generateNoteOns a notes s buf =
      ({ s with
          activeNotes := s.activeNotes ++ notes.map (registeredNote a)
          effects := s.effects ++
            (if s.noteEventCallback then notes.map Effect.noteCallback else []) },
        buf ++ notes.map (noteOnEvent s)) := by
  induction notes generalizing s buf with
  | nil => cases s; simp [generateNoteOns]
  | cons n rest ih =>
    unfold generateNoteOns
    simp only [ih]
    cases h : s.noteEventCallback <;>
      simp [h, noteOnEvent, registeredNote, MidiBuffer.addEvent, beatsToSeconds, secondsToSamples]

/-- The note-off loop keeps the notes that are not due, and adds one note-off
event (and one listener call when a listener is set) per due note, in order. -/
theorem checkNoteOffsLoop_eq (s : Sequencer) (t : ℚ) (notes : List ActiveNote)
    (buf : MidiBuffer) (eff : List Effect) :
    checkNoteOffsLoop s t notes buf eff =
      (notes.filter (fun n => !isDue t n),
        buf ++ (notes.filter (isDue t)).map (noteOffEvent s),
        eff ++ (if s.noteEventCallback then (notes.filter (isDue t)).map noteOffCallback else [])) := by
  induction notes generalizing buf eff with
  | nil => simp [checkNoteOffsLoop]
  | cons n rest ih =>
    unfold checkNoteOffsLoop
    by_cases hdue : n.endTime ≤ t
    · have hd : isDue t n = true := by simp [isDue, hdue]
      simp only [if_pos hdue, ih, List.filter_cons, hd]
      cases h : s.noteEventCallback <;>
        simp [h, noteOffEvent, noteOffCallback, MidiBuffer.addEvent]
    · have hd : isDue t n = false := by simp [isDue, hdue]
      simp only [if_neg hdue, ih, List.filter_cons, hd]
      simp

/-- The calls of `generateParameterEvents` are those of `parameterEffects`;
nothing else changes. -/
theorem generateParameterEvents_eq (s : Sequencer) (t : ℚ) :
    s.generateParameterEvents t = { s with effects := s.effects ++ parameterEffects s t } := by
  unfold generateParameterEvents parameterEffects
  cases htl : s.timeline with
  | none => cases s; simp_all
  | some tl =>
    cases hp : s.parameterCallback <;> cases ht : tl.hasTimeline <;> cases s <;> simp_all

/-- The note-on event depends on the state through tempo and sample rate only. -/
theorem noteOnEvent_fun (s : Sequencer) :
    noteOnEvent s = fun note =>
      ⟨MidiMessage.noteOn 1 note.note ((note.velocity : ℚ) / 127),
        truncToInt (note.startTime * 60 / s.tempo * s.currentSampleRate)⟩ := rfl

/-- The note-off event depends on the state through tempo, sample rate and the
last event position only. -/
theorem noteOffEvent_fun (s : Sequencer) :
    noteOffEvent s = fun n =>
      ⟨MidiMessage.noteOff 1 n.note,
        truncToInt ((n.endTime - s.lastEventPosition) * 60 / s.tempo * s.currentSampleRate)⟩ := rfl

/-- One call of `generateEvents` with a timeline set: the events added, the
calls made and the new state. -/
theorem generateEvents_eq (s : Sequencer) (tl : Timeline) (a b : ℚ) (buf : MidiBuffer)
    (htl : s.timeline = some tl) :
    s.generateEvents a b buf =
      ({ s with
          activeNotes := keptNotes s a b (tl.getNotesInRange a b)
          effects := s.effects ++ generatedEffects s a b (tl.getNotesInRange a b)
          lastEventPosition := b },
        buf ++ generatedEvents s a b (tl.getNotesInRange a b)) := by
  unfold generateEvents
  simp only [htl, generateNoteOns_eq, checkNoteOffs, checkNoteOffsLoop_eq,
    generateParameterEvents_eq]
  simp [keptNotes, dueNotes, generatedEffects, generatedEvents, parameterEffects, htl,
    noteOffEvent_fun, noteOnEvent_fun, List.append_assoc]

/-- Without a timeline `generateEvents` does nothing. -/
theorem generateEvents_none (s : Sequencer) (a b : ℚ) (buf : MidiBuffer)
    (htl : s.timeline = none) : s.generateEvents a b buf = (s, buf) := by
  unfold generateEvents
  simp [htl]

end Sequencer

/-! ## Windows asked of the timeline -/

/-- The windows of a concatenated trace. -/
theorem queriedWindows_append (l₁ l₂ : List Effect) :
    queriedWindows (l₁ ++ l₂) = queriedWindows l₁ ++ queriedWindows l₂ := by
  simp [queriedWindows, List.filterMap_append]

/-- A trace built from calls that are not timeline queries has no window. -/
theorem queriedWindows_map_nil {α : Type} (f : α → Effect) (l : List α)
    (h : ∀ x, queriedWindows [f x] = []) : queriedWindows (l.map f) = [] := by
  induction l with
  | nil => rfl
  | cons x rest ih =>
    have hx := h x
    rw [List.map_cons, ← List.singleton_append, queriedWindows_append, hx, ih]
    rfl

/-- Parameter callbacks are not timeline queries. -/
theorem queriedWindows_parameterEffects (s : Sequencer) (t : ℚ) :
    queriedWindows (parameterEffects s t) = [] := by
  unfold parameterEffects
  cases s.timeline with
  | none => rfl
  | some tl =>
    by_cases hc : (s.parameterCallback && tl.hasTimeline) = true
    · simp only [hc, if_true]
      apply queriedWindows_map_nil
      intro x
      rfl
    · simp only [hc, if_false]
      rfl

/-- One call of `generateEvents` asks the timeline for exactly its own window. -/
theorem queriedWindows_generatedEffects (s : Sequencer) (a b : ℚ) (notes : List NoteEvent) :
    queriedWindows (generatedEffects s a b notes) = [(a, b)] := by
  have h1 : queriedWindows (if s.noteEventCallback then notes.map Effect.noteCallback else []) = [] := by
    split
    · apply queriedWindows_map_nil
      intro x
      rfl
    · rfl
  have h2 : queriedWindows
      (if s.noteEventCallback then (dueNotes s a b notes).map noteOffCallback else []) = [] := by
    split
    · apply queriedWindows_map_nil
      intro x
      rfl
    · rfl
  unfold generatedEffects
  rw [queriedWindows_append, queriedWindows_append, queriedWindows_append, h1, h2,
    queriedWindows_parameterEffects]
  rfl

namespace Sequencer

/-! ## Block processing -/

/-- C1: in a playing state with a timeline and looping on, when the block
window starting at the position `p` reaches the loop end, `processMidi` runs
`generateEvents` for the window from `p` to `loopEnd` and then for the window from
`loopStart` to `loopStart + overflow`, with `overflow = p + blockBeats - loopEnd`;
the timeline is asked for exactly these two windows in that order, and the
position afterwards is `loopStart + overflow`. -/
theorem processMidi_loop_wrap (s : Sequencer) (tl : Timeline) (midiInput midiOutput : MidiBuffer)
    (hplay : s.playing = true) (htl : s.timeline = some tl) (hloop : s.looping = true)
    (hcross : s.currentPosition + s.secondsToBeats ((s.currentBlockSize : ℚ) / s.currentSampleRate)
      ≥ s.loopEnd) :
    let overflow :=
      s.currentPosition + s.secondsToBeats ((s.currentBlockSize : ℚ) / s.currentSampleRate) - s.loopEnd
    let s₂ : Sequencer := { s with currentPosition := s.loopStart + overflow }
    let r₁ := s₂.generateEvents s.currentPosition s.loopEnd []
    let r₂ := r₁.1.generateEvents s.loopStart (s.loopStart + overflow) r₁.2
    s.processMidi midiInput midiOutput = (r₂.1, r₂.2 ++ midiInput) ∧
    queriedWindows (s.processMidi midiInput midiOutput).1.effects =
      queriedWindows s.effects ++
        [(s.currentPosition, s.loopEnd), (s.loopStart, s.loopStart + overflow)] ∧
    (s.processMidi midiInput midiOutput).1.currentPosition = s.loopStart + overflow := by
  intro overflow s₂ r₁ r₂
  have hdef : s.processMidi midiInput midiOutput = (r₂.1, r₂.2 ++ midiInput) := by
    unfold processMidi
    simp [hplay, htl, hloop, hcross, MidiBuffer.addEvents, generateEvents_eq _ tl, r₂, r₁, s₂,
      overflow]
  refine ⟨hdef, ?_, ?_⟩
  · rw [hdef]
    simp [generateEvents_eq _ tl, htl, queriedWindows_append, queriedWindows_generatedEffects,
      r₂, r₁, s₂]
  · rw [hdef]
    simp [generateEvents_eq _ tl, htl, r₂, r₁, s₂]

/-- Witness of C1: loop [0, 4), position 3.5, a block of one beat. The two
windows are [3.5, 4) and [0, 0.5) and the position afterwards is 0.5. -/
theorem processMidi_loop_wrap_witness :
    loopingExample.playing = true ∧ loopingExample.looping = true ∧
    loopingExample.loopStart = 0 ∧ loopingExample.loopEnd = 4 ∧
    loopingExample.currentPosition = 7 / 2 ∧
    loopingExample.secondsToBeats
      ((loopingExample.currentBlockSize : ℚ) / loopingExample.currentSampleRate) = 1 ∧
    queriedWindows (loopingExample.processMidi [] []).1.effects = [(7 / 2, 4), (0, 1 / 2)] ∧
    (loopingExample.processMidi [] []).1.currentPosition = 1 / 2 := by
  have hbeats : loopingExample.secondsToBeats
      ((loopingExample.currentBlockSize : ℚ) / loopingExample.currentSampleRate) = 1 := by
    norm_num [loopingExample, Sequencer.init, secondsToBeats]
  have h := processMidi_loop_wrap loopingExample singleNoteTimeline [] [] rfl rfl rfl
    (by rw [hbeats]; norm_num [loopingExample, Sequencer.init])
  refine ⟨rfl, rfl, rfl, rfl, rfl, hbeats, ?_, ?_⟩
  · rw [h.2.1, hbeats]
    norm_num [loopingExample, Sequencer.init, queriedWindows]
  · rw [h.2.2, hbeats]
    norm_num [loopingExample, Sequencer.init]

/-- C2: in a playing state with a timeline, tempo > 0 and sample rate > 0, when
looping is off or the block window starting at the position `p` ends before the
loop end, `processMidi` runs `generateEvents` once, for the window from `p` to
`p + blockBeats` with `blockBeats = (blockSize / sampleRate) * tempo / 60`; the
timeline is asked for exactly this window, and the position afterwards is
`p + blockBeats`. -/
theorem processMidi_single_window (s : Sequencer) (tl : Timeline)
    (midiInput midiOutput : MidiBuffer)
    (hplay : s.playing = true) (htl : s.timeline = some tl)
    (_htempo : s.tempo > 0) (_hrate : s.currentSampleRate > 0)
    (hcase : s.looping = false ∨
      s.currentPosition + ((s.currentBlockSize : ℚ) / s.currentSampleRate) * s.tempo / 60
        < s.loopEnd) :
    let blockBeats := ((s.currentBlockSize : ℚ) / s.currentSampleRate) * s.tempo / 60
    let s₁ : Sequencer := { s with currentPosition := s.currentPosition + blockBeats }
    let r := s₁.generateEvents s.currentPosition (s.currentPosition + blockBeats) []
    s.processMidi midiInput midiOutput = (r.1, r.2 ++ midiInput) ∧
    queriedWindows (s.processMidi midiInput midiOutput).1.effects =
      queriedWindows s.effects ++ [(s.currentPosition, s.currentPosition + blockBeats)] ∧
    (s.processMidi midiInput midiOutput).1.currentPosition = s.currentPosition + blockBeats := by
  intro blockBeats s₁ r
  have hdef : s.processMidi midiInput midiOutput = (r.1, r.2 ++ midiInput) := by
    unfold processMidi
    rcases hcase with hoff | hlt
    · simp [hplay, htl, hoff, MidiBuffer.addEvents, secondsToBeats, r, s₁, blockBeats]
    · have hnot : ¬ (s.loopEnd ≤
          s.currentPosition + ((s.currentBlockSize : ℚ) / s.currentSampleRate) * s.tempo / 60) :=
        not_le.mpr hlt
      simp [hplay, htl, hnot, MidiBuffer.addEvents, secondsToBeats, r, s₁, blockBeats]
  refine ⟨hdef, ?_, ?_⟩
  · rw [hdef]
    simp [generateEvents_eq _ tl, htl, queriedWindows_append, queriedWindows_generatedEffects,
      r, s₁]
  · rw [hdef]
    simp [generateEvents_eq _ tl, htl, r, s₁]

/-- Witness of C2: the looping example with looping switched off; the single
window is [3.5, 4.5) and the position afterwards is 4.5. -/
theorem processMidi_single_window_witness :
    (loopingExample.setLooping false).playing = true ∧
    (loopingExample.setLooping false).tempo > 0 ∧
    (loopingExample.setLooping false).currentSampleRate > 0 ∧
    (loopingExample.setLooping false).looping = false ∧
    queriedWindows ((loopingExample.setLooping false).processMidi [] []).1.effects =
      [(7 / 2, 9 / 2)] ∧
    ((loopingExample.setLooping false).processMidi [] []).1.currentPosition = 9 / 2 := by
  have ht : (loopingExample.setLooping false).tempo > 0 := by
    norm_num [loopingExample, Sequencer.init, setLooping]
  have hr : (loopingExample.setLooping false).currentSampleRate > 0 := by
    norm_num [loopingExample, Sequencer.init, setLooping]
  have h := processMidi_single_window (loopingExample.setLooping false) singleNoteTimeline [] []
    rfl rfl ht hr (Or.inl rfl)
  refine ⟨rfl, ht, hr, rfl, ?_, ?_⟩
  · rw [h.2.1]
    norm_num [loopingExample, Sequencer.init, setLooping, queriedWindows]
  · rw [h.2.2]
    norm_num [loopingExample, Sequencer.init, setLooping]

/-! ## Frame properties -/

/-- What `generateEvents` leaves untouched. -/
theorem generateEvents_frame (s : Sequencer) (a b : ℚ) (buf : MidiBuffer) :
    (s.generateEvents a b buf).1.playing = s.playing ∧
    (s.generateEvents a b buf).1.tempo = s.tempo ∧
    (s.generateEvents a b buf).1.loopStart = s.loopStart ∧
    (s.generateEvents a b buf).1.loopEnd = s.loopEnd ∧
    (s.generateEvents a b buf).1.quantizationGrid = s.quantizationGrid ∧
    (s.generateEvents a b buf).1.currentPosition = s.currentPosition ∧
    (s.generateEvents a b buf).1.timeline = s.timeline := by
  cases h : s.timeline with
  | none => simp [generateEvents_none s a b buf h, h]
  | some tl => simp [generateEvents_eq s tl a b buf h, h]

/-- What `processMidi` leaves untouched. -/
theorem processMidi_frame (s : Sequencer) (i o : MidiBuffer) :
    (s.processMidi i o).1.playing = s.playing ∧
    (s.processMidi i o).1.tempo = s.tempo ∧
    (s.processMidi i o).1.loopStart = s.loopStart ∧
    (s.processMidi i o).1.loopEnd = s.loopEnd ∧
    (s.processMidi i o).1.quantizationGrid = s.quantizationGrid := by
  unfold processMidi
  dsimp only
  split_ifs <;> simp [generateEvents_frame]

/-- What `timerCallback` leaves untouched. -/
theorem timerCallback_frame (s : Sequencer) :
    s.timerCallback.playing = s.playing ∧
    s.timerCallback.activeNotes = s.activeNotes ∧
    s.timerCallback.tempo = s.tempo ∧
    s.timerCallback.loopStart = s.loopStart ∧
    s.timerCallback.loopEnd = s.loopEnd ∧
    s.timerCallback.quantizationGrid = s.quantizationGrid := by
  unfold timerCallback
  dsimp only
  split_ifs <;> simp [generateParameterEvents_eq]

/-- A stopped sequencer, or one without a timeline, keeps its active notes in
`processMidi`. -/
theorem processMidi_activeNotes_of_stopped (s : Sequencer) (i o : MidiBuffer)
    (h : s.playing = false) : (s.processMidi i o).1.activeNotes = s.activeNotes := by
  unfold processMidi
  simp [h]

end Sequencer

/-! ## A stopped sequencer has no active note -/

/-- Every public call keeps `StoppedIdle`. -/
theorem Op.apply_stoppedIdle (op : Op) (s : Sequencer) (h : StoppedIdle s) :
    StoppedIdle (op.apply s) := by
  unfold StoppedIdle at *
  cases op with
  | setTimeline tl => exact h
  | play =>
    simp only [Op.apply, Sequencer.play]
    split_ifs with hp
    · intro hc; simp at hc
    · exact h
  | stop =>
    simp only [Op.apply, Sequencer.stop]
    split_ifs <;> simp_all
  | togglePlayStop =>
    simp only [Op.apply, Sequencer.togglePlayStop, Sequencer.stop, Sequencer.play]
    split_ifs <;> simp_all
  | setPosition p =>
    simp only [Op.apply, Sequencer.setPosition]
    split_ifs <;> simp_all
  | setTempo bpm =>
    simp only [Op.apply, Sequencer.setTempo]
    split_ifs <;> simp_all
  | setTimeSignature n d =>
    simp only [Op.apply, Sequencer.setTimeSignature]
    split_ifs <;> simp_all
  | setLooping b => exact h
  | setLoopStart x =>
    simp only [Op.apply, Sequencer.setLoopStart]
    split_ifs <;> simp_all
  | setLoopEnd x =>
    simp only [Op.apply, Sequencer.setLoopEnd]
    split_ifs <;> simp_all
  | setQuantizationGrid g =>
    simp only [Op.apply, Sequencer.setQuantizationGrid]
    split_ifs <;> simp_all
  | processMidi i o =>
    intro hstop
    have hp : s.playing = false := by
      rw [← (Sequencer.processMidi_frame s i o).1]; exact hstop
    simp only [Op.apply]
    rw [Sequencer.processMidi_activeNotes_of_stopped s i o hp]
    exact h hp
  | setNoteEventCallback c => exact h
  | setParameterCallback c => exact h
  | handleNoteOn c n v =>
    simp only [Op.apply, Sequencer.handleNoteOn]
    split_ifs <;> simp_all
  | handleNoteOff c n v =>
    simp only [Op.apply, Sequencer.handleNoteOff]
    split_ifs <;> simp_all
  | timerCallback =>
    simp only [Op.apply]
    rw [(Sequencer.timerCallback_frame s).1, (Sequencer.timerCallback_frame s).2.1]
    exact h
  | prepare sr bs => exact h
  | restoreStateFromXml xml =>
    simp only [Op.apply, Sequencer.restoreStateFromXml]
    cases xml with
    | none => exact h
    | some x =>
      dsimp only
      split_ifs
      · exact h
      · exact h

/-- Every sequence of public calls keeps `StoppedIdle`. -/
theorem runOps_stoppedIdle (ops : List Op) (s : Sequencer) (h : StoppedIdle s) :
    StoppedIdle (runOps s ops) := by
  induction ops generalizing s with
  | nil => exact h
  | cons op rest ih => exact ih (op.apply s) (Op.apply_stoppedIdle op s h)

/-- In every reachable state, a stopped sequencer has no active note. -/
theorem Reachable.stoppedIdle {s : Sequencer} (h : Reachable s) : StoppedIdle s := by
  obtain ⟨ms, ops, rfl⟩ := h
  exact runOps_stoppedIdle ops _ (fun _ => rfl)

namespace Sequencer

/-- The whole effect of `stop`: a playing sequencer is stopped, its timer is
stopped and its active notes are dropped; the note-event listener is not called. -/
theorem stop_eq (s : Sequencer) :
    s.stop =
      if s.playing then
        { s with
          playing := false
          timerRunning := false
          activeNotes := []
          effects := s.effects ++ [Effect.stopTimer] }
      else s := by
  unfold stop
  cases hp : s.playing <;> cases hc : s.noteEventCallback <;> simp [hc]

/-- C5: in every state reachable from the constructor, after `stop` the
playing flag is false and the active-note set is empty, and no active note is
present after a `stop` followed by `play`. -/
theorem stop_clears_activeNotes (s : Sequencer) (h : Reachable s) :
    s.stop.playing = false ∧ s.stop.activeNotes = [] ∧
    s.stop.play.playing = true ∧ s.stop.play.activeNotes = [] := by
  have hidle := h.stoppedIdle
  unfold StoppedIdle at hidle
  have h1 : s.stop.playing = false := by
    rw [stop_eq]; split_ifs <;> simp_all
  have h2 : s.stop.activeNotes = [] := by
    rw [stop_eq]; split_ifs <;> simp_all
  refine ⟨h1, h2, ?_, ?_⟩
  · unfold play; simp [h1]
  · unfold play; simp [h1, h2]

/-- The sounding example, evaluated: playing, listener set, one active note
(pitch 60), and so far one listener call, for its note-on. -/
theorem soundingExample_state :
    soundingExample.playing = true ∧ soundingExample.noteEventCallback = true ∧
    soundingExample.activeNotes = [⟨60, 100, 0, 1⟩] ∧
    soundingExample.effects =
      [Effect.startTimer 10, Effect.notesQuery 0 (256 / 11025),
        Effect.noteCallback ⟨60, 100, 0, 1⟩] := by
  simp [soundingExample, soundingOps, runOps, Op.apply, setTimeline, setNoteEventCallback, play,
    Sequencer.init, processMidi, generateEvents_eq _ singleNoteTimeline, secondsToBeats,
    keptNotes, generatedEffects, dueNotes, isDue, registeredNote, singleNoteTimeline,
    parameterEffects]
  norm_num

/-- Witness of C5: the sounding example is reachable and has an active note;
`stop` empties the active-note set, and it stays empty through `play`. -/
theorem stop_clears_activeNotes_witness :
    Reachable soundingExample ∧ soundingExample.activeNotes ≠ [] ∧
    soundingExample.stop.playing = false ∧ soundingExample.stop.activeNotes = [] ∧
    soundingExample.stop.play.playing = true ∧ soundingExample.stop.play.activeNotes = [] :=
  have hr : Reachable soundingExample := ⟨10, soundingOps, rfl⟩
  ⟨hr, by rw [soundingExample_state.2.2.1]; simp, stop_clears_activeNotes soundingExample hr⟩

/-- C4 fails on the sounding example: the sequencer is playing, a listener is
set and one note (pitch 60) is active, yet `stop` calls the listener for no
note-off. The only call `stop` makes is `stopTimer`, and the listener has seen
no velocity-0 event. -/
theorem stop_skips_noteOff_callbacks :
    soundingExample.playing = true ∧ soundingExample.noteEventCallback = true ∧
    soundingExample.activeNotes = [⟨60, 100, 0, 1⟩] ∧
    soundingExample.stop.effects = soundingExample.effects ++ [Effect.stopTimer] ∧
    noteCallbacks soundingExample.stop.effects = noteCallbacks soundingExample.effects ∧
    noteCallbacks soundingExample.stop.effects = [⟨60, 100, 0, 1⟩] := by
  obtain ⟨hp, hc, ha, he⟩ := soundingExample_state
  have hstop : soundingExample.stop.effects = soundingExample.effects ++ [Effect.stopTimer] := by
    rw [stop_eq]; simp [hp]
  refine ⟨hp, hc, ha, hstop, ?_, ?_⟩
  · rw [hstop]; simp [noteCallbacks, List.filterMap_append]
  · rw [hstop, he]; simp [noteCallbacks]

/-- Witness of C10: a record whose only attribute is a tempo of 90. -/
theorem restoreStateFromXml_fields_witness :
    tempoOnlyXml.tagName = "Sequencer" ∧
    ((Sequencer.init 10).restoreStateFromXml (some tempoOnlyXml)).2 = true ∧
    ((Sequencer.init 10).restoreStateFromXml (some tempoOnlyXml)).1.tempo = 90 ∧
    ((Sequencer.init 10).restoreStateFromXml (some tempoOnlyXml)).1.loopEnd = 4 ∧
    ((Sequencer.init 10).restoreStateFromXml (some tempoOnlyXml)).1.quantizationGrid = 1 / 4 := by
  have h := restoreStateFromXml_fields (Sequencer.init 10) tempoOnlyXml rfl
  refine ⟨rfl, h.1, ?_, ?_, ?_⟩
  · rw [h.2.2.1]; simp [tempoOnlyXml, XmlElement.findAttribute]
  · rw [h.2.2.2.2.2.2.2.1]; simp [tempoOnlyXml, XmlElement.findAttribute]
  · rw [h.2.2.2.2.2.2.2.2]; simp [tempoOnlyXml, XmlElement.findAttribute]

end Sequencer

/-! ## The transport invariant -/

/-- The constructor establishes the transport invariant. -/
theorem init_transportInvariant (ms : Int) : TransportInvariant (Sequencer.init ms) := by
  unfold TransportInvariant Sequencer.init
  norm_num

/-- Every public call other than `restoreStateFromXml` keeps the transport invariant. -/
theorem Op.apply_transportInvariant (op : Op) (s : Sequencer) (h : TransportInvariant s)
    (hop : ∀ xml, op ≠ Op.restoreStateFromXml xml) : TransportInvariant (op.apply s) := by
  unfold TransportInvariant at *
  obtain ⟨h1, h2, h3⟩ := h
  cases op with
  | setTimeline tl => exact ⟨h1, h2, h3⟩
  | play =>
    simp only [Op.apply, Sequencer.play]
    split_ifs <;> exact ⟨h1, h2, h3⟩
  | stop =>
    simp only [Op.apply, Sequencer.stop_eq]
    split_ifs <;> exact ⟨h1, h2, h3⟩
  | togglePlayStop =>
    simp only [Op.apply, Sequencer.togglePlayStop, Sequencer.stop_eq, Sequencer.play]
    split_ifs <;> exact ⟨h1, h2, h3⟩
  | setPosition p =>
    simp only [Op.apply, Sequencer.setPosition]
    split_ifs <;> exact ⟨h1, h2, h3⟩
  | setTempo bpm =>
    simp only [Op.apply, Sequencer.setTempo]
    split_ifs with hb
    · exact ⟨h1, hb, h3⟩
    · exact ⟨h1, h2, h3⟩
  | setTimeSignature n d =>
    simp only [Op.apply, Sequencer.setTimeSignature]
    split_ifs <;> exact ⟨h1, h2, h3⟩
  | setLooping b => exact ⟨h1, h2, h3⟩
  | setLoopStart x =>
    simp only [Op.apply, Sequencer.setLoopStart]
    split_ifs with hb
    · exact ⟨hb.2, h2, h3⟩
    · exact ⟨h1, h2, h3⟩
  | setLoopEnd x =>
    simp only [Op.apply, Sequencer.setLoopEnd]
    split_ifs with hb
    · exact ⟨hb, h2, h3⟩
    · exact ⟨h1, h2, h3⟩
  | setQuantizationGrid g =>
    simp only [Op.apply, Sequencer.setQuantizationGrid]
    split_ifs with hb
    · exact ⟨h1, h2, hb⟩
    · exact ⟨h1, h2, h3⟩
  | processMidi i o =>
    obtain ⟨_, f2, f3, f4, f5⟩ := Sequencer.processMidi_frame s i o
    simp only [Op.apply, f2, f3, f4, f5]
    exact ⟨h1, h2, h3⟩
  | setNoteEventCallback c => exact ⟨h1, h2, h3⟩
  | setParameterCallback c => exact ⟨h1, h2, h3⟩
  | handleNoteOn c n v =>
    simp only [Op.apply, Sequencer.handleNoteOn]
    split_ifs <;> exact ⟨h1, h2, h3⟩
  | handleNoteOff c n v =>
    simp only [Op.apply, Sequencer.handleNoteOff]
    split_ifs <;> exact ⟨h1, h2, h3⟩
  | timerCallback =>
    obtain ⟨_, _, f2, f3, f4, f5⟩ := Sequencer.timerCallback_frame s
    simp only [Op.apply, f2, f3, f4, f5]
    exact ⟨h1, h2, h3⟩
  | prepare sr bs => exact ⟨h1, h2, h3⟩
  | restoreStateFromXml xml => exact absurd rfl (hop xml)

/-- C9 fails through `restoreStateFromXml`: restoring the record
`<Sequencer tempo="0"/>` on a freshly constructed sequencer is accepted (returns
true) and gives a reachable state with tempo 0, which breaks the invariant
`tempo > 0` that `setTempo` guards. -/
theorem restoreStateFromXml_breaks_invariant :
    Reachable (runOps (Sequencer.init 10) [Op.restoreStateFromXml (some zeroTempoXml)]) ∧
    ((Sequencer.init 10).restoreStateFromXml (some zeroTempoXml)).2 = true ∧
    (runOps (Sequencer.init 10) [Op.restoreStateFromXml (some zeroTempoXml)]).tempo = 0 ∧
    ¬ TransportInvariant (runOps (Sequencer.init 10) [Op.restoreStateFromXml (some zeroTempoXml)]) ∧
    ((Sequencer.init 10).setTempo 0).tempo = 120 := by
  have ht : (runOps (Sequencer.init 10) [Op.restoreStateFromXml (some zeroTempoXml)]).tempo = 0 := by
    simp [runOps, Op.apply, Sequencer.restoreStateFromXml, zeroTempoXml,
      XmlElement.getDoubleAttribute, XmlElement.findAttribute]
  refine ⟨⟨10, _, rfl⟩, ?_, ht, ?_, ?_⟩
  · simp [Sequencer.restoreStateFromXml, zeroTempoXml]
  · unfold TransportInvariant
    rw [ht]
    norm_num
  · simp [Sequencer.setTempo, Sequencer.init]


/-! ## Note-ons and note-offs -/

/-- Note-on counts add up over concatenation. -/
theorem noteOnCount_append (p : Int) (l₁ l₂ : MidiBuffer) :
    noteOnCount p (l₁ ++ l₂) = noteOnCount p l₁ + noteOnCount p l₂ := by
  simp [noteOnCount, List.countP_append]

/-- Note-off counts add up over concatenation. -/
theorem noteOffCount_append (p : Int) (l₁ l₂ : MidiBuffer) :
    noteOffCount p (l₁ ++ l₂) = noteOffCount p l₁ + noteOffCount p l₂ := by
  simp [noteOffCount, List.countP_append]

/-- A prefix has no more note-offs than the whole list. -/
theorem noteOffCount_take_le (p : Int) (l : MidiBuffer) (j : Nat) :
    noteOffCount p (l.take j) ≤ noteOffCount p l :=
  (List.take_sublist j l).countP_le _

/-- The note-on events of a call contain no note-off. -/
theorem noteOffCount_noteOns (p : Int) (s : Sequencer) (notes : List NoteEvent) :
    noteOffCount p (notes.map (noteOnEvent s)) = 0 := by
  unfold noteOffCount
  rw [List.countP_map, List.countP_eq_zero]
  intro n _
  simp [noteOnEvent, MidiEvent.isNoteOff]

/-- One note-on of a pitch per registered note of that pitch. -/
theorem noteOnCount_noteOns (p : Int) (s : Sequencer) (a : ℚ) (notes : List NoteEvent) :
    noteOnCount p (notes.map (noteOnEvent s)) =
      activeCount p (notes.map (registeredNote a)) := by
  unfold noteOnCount activeCount
  rw [List.countP_map, List.countP_map]
  congr 1

/-- The note-off events of a call contain no note-on. -/
theorem noteOnCount_noteOffs (p : Int) (s : Sequencer) (l : List ActiveNote) :
    noteOnCount p (l.map (noteOffEvent s)) = 0 := by
  unfold noteOnCount
  rw [List.countP_map, List.countP_eq_zero]
  intro n _
  simp [noteOffEvent, MidiEvent.isNoteOn]

/-- One note-off of a pitch per due note of that pitch. -/
theorem noteOffCount_noteOffs (p : Int) (s : Sequencer) (l : List ActiveNote) :
    noteOffCount p (l.map (noteOffEvent s)) = activeCount p l := by
  unfold noteOffCount activeCount
  rw [List.countP_map]
  congr 1

/-- Active-note counts add up over concatenation. -/
theorem activeCount_append (p : Int) (l₁ l₂ : List ActiveNote) :
    activeCount p (l₁ ++ l₂) = activeCount p l₁ + activeCount p l₂ := by
  simp [activeCount, List.countP_append]

/-- Due and kept notes partition the active notes. -/
theorem activeCount_filter_partition (p : Int) (t : ℚ) (l : List ActiveNote) :
    activeCount p (l.filter (isDue t)) + activeCount p (l.filter (fun n => !isDue t n)) =
      activeCount p l := by
  induction l with
  | nil => rfl
  | cons n rest ih =>
    unfold activeCount at *
    cases hd : isDue t n <;> simp [List.filter_cons, hd, List.countP_cons] <;> omega

/-- Conservation over one call: per pitch, the note-offs emitted and the notes
still active account for the notes active before and the note-ons emitted. -/
theorem generateEvents_counts (s : Sequencer) (a b : ℚ) (buf : MidiBuffer) (p : Int) :
    ∃ ons offs : MidiBuffer,
      (s.generateEvents a b buf).2 = buf ++ ons ++ offs ∧
      noteOffCount p ons = 0 ∧ noteOnCount p offs = 0 ∧
      noteOffCount p offs + activeCount p (s.generateEvents a b buf).1.activeNotes =
        activeCount p s.activeNotes + noteOnCount p ons := by
  cases htl : s.timeline with
  | none =>
    refine ⟨[], [], ?_, rfl, rfl, ?_⟩
    · simp [Sequencer.generateEvents_none s a b buf htl]
    · simp [Sequencer.generateEvents_none s a b buf htl, noteOffCount, noteOnCount]
  | some tl =>
    refine ⟨(tl.getNotesInRange a b).map (noteOnEvent s),
      (dueNotes s a b (tl.getNotesInRange a b)).map (noteOffEvent s), ?_,
      noteOffCount_noteOns _ _ _, noteOnCount_noteOffs _ _ _, ?_⟩
    · simp [Sequencer.generateEvents_eq s tl a b buf htl, generatedEvents]
    · have hpart := activeCount_filter_partition p b
        (s.activeNotes ++ (tl.getNotesInRange a b).map (registeredNote a))
      rw [activeCount_append] at hpart
      rw [noteOffCount_noteOffs, noteOnCount_noteOns p s a]
      simp only [Sequencer.generateEvents_eq s tl a b buf htl, dueNotes, keptNotes]
      exact hpart

/-- Adding events without note-offs keeps the balance. -/
theorem Balanced.append_ons {K : Nat} {p : Int} {buf : MidiBuffer} (h : Balanced K p buf)
    (ons : MidiBuffer) (hons : noteOffCount p ons = 0) : Balanced K p (buf ++ ons) := by
  intro j
  rw [List.take_append_eq_append_take, noteOffCount_append, noteOnCount_append]
  have h1 := h j
  have h2 := noteOffCount_take_le p ons (j - buf.length)
  omega

/-- Adding note-offs keeps the balance when the total stays within the bound. -/
theorem Balanced.append_offs {K : Nat} {p : Int} {buf : MidiBuffer} (h : Balanced K p buf)
    (offs : MidiBuffer) (htot : noteOffCount p (buf ++ offs) ≤ K + noteOnCount p buf) :
    Balanced K p (buf ++ offs) := by
  intro j
  rw [List.take_append_eq_append_take, noteOffCount_append, noteOnCount_append]
  rcases Nat.lt_or_ge j buf.length with hj | hj
  · have h0 : j - buf.length = 0 := by omega
    have h1 := h j
    simp only [h0, List.take_zero]
    simp only [noteOffCount, noteOnCount, List.countP_nil] at *
    omega
  · rw [List.take_of_length_le hj]
    have h2 := noteOffCount_take_le p offs (j - buf.length)
    rw [noteOffCount_append] at htot
    omega

/-- One call keeps the balance and the conservation law. -/
theorem generateEvents_balanced (s : Sequencer) (a b : ℚ) (buf : MidiBuffer) (p : Int) (K : Nat)
    (hbal : Balanced K p buf)
    (hcons : noteOffCount p buf + activeCount p s.activeNotes = K + noteOnCount p buf) :
    Balanced K p (s.generateEvents a b buf).2 ∧
    noteOffCount p (s.generateEvents a b buf).2 +
        activeCount p (s.generateEvents a b buf).1.activeNotes =
      K + noteOnCount p (s.generateEvents a b buf).2 := by
  obtain ⟨ons, offs, hbuf, h1, h2, h3⟩ := generateEvents_counts s a b buf p
  rw [hbuf]
  have hc : noteOffCount p (buf ++ ons ++ offs) +
      activeCount p (s.generateEvents a b buf).1.activeNotes =
      K + noteOnCount p (buf ++ ons ++ offs) := by
    simp only [noteOffCount_append, noteOnCount_append]
    omega
  refine ⟨?_, hc⟩
  apply Balanced.append_offs (hbal.append_ons ons h1)
  simp only [noteOffCount_append, noteOnCount_append] at hc ⊢
  omega

/-- Every sequence of calls keeps the balance and the conservation law. -/
theorem runGenerateEvents_balanced (ws : List (ℚ × ℚ)) (s : Sequencer) (buf : MidiBuffer)
    (p : Int) (K : Nat) (hbal : Balanced K p buf)
    (hcons : noteOffCount p buf + activeCount p s.activeNotes = K + noteOnCount p buf) :
    Balanced K p (runGenerateEvents s buf ws).2 ∧
    noteOffCount p (runGenerateEvents s buf ws).2 +
        activeCount p (runGenerateEvents s buf ws).1.activeNotes =
      K + noteOnCount p (runGenerateEvents s buf ws).2 := by
  induction ws generalizing s buf with
  | nil => exact ⟨hbal, hcons⟩
  | cons w rest ih =>
    obtain ⟨h1, h2⟩ := generateEvents_balanced s w.1 w.2 buf p K hbal hcons
    exact ih _ _ h1 h2

namespace Sequencer

/-- With a timeline set, one call of `generateEvents` adds exactly one note-on
event per note the timeline returns, in order and with that note's pitch, and
registers exactly one active note per returned note; the note-offs it adds are
one per due active note, with that note's pitch, and a due note leaves the active
set, so it cannot produce a second note-off. Over any sequence of
`generateEvents` calls, in every initial part of the record of `addEvent` calls
the note-offs of a pitch never outnumber the notes of that pitch that were active
at the start plus the note-ons added so far, and at the end note-offs plus
still-active notes equal initially active notes plus note-ons. This is the order
of the calls, not the order of the sample positions the buffer keeps. -/
theorem generateEvents_noteOn_noteOff (s : Sequencer) (tl : Timeline)
    (htl : s.timeline = some tl) (a b : ℚ) (buf : MidiBuffer) (ws : List (ℚ × ℚ)) (pitch : Int) :
    (s.generateEvents a b buf).2 =
      buf ++ (tl.getNotesInRange a b).map (noteOnEvent s) ++
        ((s.activeNotes ++ (tl.getNotesInRange a b).map (registeredNote a)).filter
          (isDue b)).map (noteOffEvent s) ∧
    (s.generateEvents a b buf).1.activeNotes =
      (s.activeNotes ++ (tl.getNotesInRange a b).map (registeredNote a)).filter
        (fun n => !isDue b n) ∧
    (∀ n, (noteOnEvent s n).message = MidiMessage.noteOn 1 n.note ((n.velocity : ℚ) / 127)) ∧
    (∀ n, (noteOffEvent s n).message = MidiMessage.noteOff 1 n.note) ∧
    (∀ n, (registeredNote a n).note = n.note) ∧
    (∀ j : Nat, noteOffCount pitch ((runGenerateEvents s [] ws).2.take j) ≤
      activeCount pitch s.activeNotes + noteOnCount pitch ((runGenerateEvents s [] ws).2.take j)) ∧
    noteOffCount pitch (runGenerateEvents s [] ws).2 +
        activeCount pitch (runGenerateEvents s [] ws).1.activeNotes =
      activeCount pitch s.activeNotes + noteOnCount pitch (runGenerateEvents s [] ws).2 := by
  have hrun := runGenerateEvents_balanced ws s [] pitch (activeCount pitch s.activeNotes)
    (fun j => by simp [noteOffCount]) (by simp [noteOffCount, noteOnCount])
  refine ⟨?_, ?_, fun _ => rfl, fun _ => rfl, fun _ => rfl, hrun.1, hrun.2⟩
  · simp [generateEvents_eq s tl a b buf htl, generatedEvents, dueNotes]
  · simp [generateEvents_eq s tl a b buf htl, keptNotes]

/-- Example: a single note (pitch 60, start 0, duration 1) returned for
the window [0, 1). The call `generateEvents 0 1` emits one note-on and then, the
time having reached 1, one note-off for pitch 60, and no note stays active. -/
theorem generateEvents_noteOn_noteOff_witness :
    singleNoteExample.timeline = some singleNoteTimeline ∧
    singleNoteTimeline.getNotesInRange 0 1 = [⟨60, 100, 0, 1⟩] ∧
    (singleNoteExample.generateEvents 0 1 []).2 =
      [⟨MidiMessage.noteOn 1 60 (100 / 127), 0⟩, ⟨MidiMessage.noteOff 1 60, 22050⟩] ∧
    (singleNoteExample.generateEvents 0 1 []).1.activeNotes = [] := by
  have h := generateEvents_noteOn_noteOff singleNoteExample singleNoteTimeline rfl 0 1 [] [] 60
  have hn : singleNoteTimeline.getNotesInRange 0 1 = [⟨60, 100, 0, 1⟩] := by
    simp [singleNoteTimeline]
  refine ⟨rfl, hn, ?_, ?_⟩
  · rw [h.1, hn]
    simp [singleNoteExample, runOps, Op.apply, setTimeline, play, Sequencer.init, registeredNote,
      isDue, noteOnEvent, noteOffEvent, beatsToSeconds, secondsToSamples, truncToInt]
    norm_num
  · rw [h.2.1, hn]
    simp [singleNoteExample, runOps, Op.apply, setTimeline, play, Sequencer.init, registeredNote,
      isDue]

end Sequencer

/-! ## Effects: clamped parameters -/

/-- The function `jlimit` is the clamp `min (max x lo) hi` when `lo ≤ hi`. -/
theorem jlimit_eq_min_max (lo hi x : ℚ) (h : lo ≤ hi) : jlimit lo hi x = min (max x lo) hi := by
  unfold jlimit
  split_ifs with h1 h2
  · rw [max_eq_right (le_of_lt h1), min_eq_left h]
  · rw [max_eq_left (not_lt.mp h1), min_eq_right (le_of_lt h2)]
  · rw [max_eq_left (not_lt.mp h1), min_eq_left (not_lt.mp h2)]

/-- The result of `jlimit` lies between the limits when `lo ≤ hi`. -/
theorem jlimit_mem (lo hi x : ℚ) (h : lo ≤ hi) : lo ≤ jlimit lo hi x ∧ jlimit lo hi x ≤ hi := by
  unfold jlimit
  split_ifs with h1 h2
  · exact ⟨le_refl _, h⟩
  · exact ⟨h, le_refl _⟩
  · exact ⟨not_lt.mp h1, not_lt.mp h2⟩

/-- A value between the limits is returned unchanged by `jlimit`. -/
theorem jlimit_of_mem (lo hi x : ℚ) (h1 : lo ≤ x) (h2 : x ≤ hi) : jlimit lo hi x = x := by
  unfold jlimit
  rw [if_neg (not_lt.mpr h1), if_neg (not_lt.mpr h2)]

namespace Delay

/-- C11: after `setFeedback x` the stored feedback amount and the published
feedback parameter both equal `min (max x 0) 0.95`, so they lie in [0, 0.95];
a value `x ≥ 0.95` is clamped to 0.95. -/
theorem setFeedback_clamped (d : Delay) (x : ℚ) :
    (d.setFeedback x).feedbackAmount = min (max x 0) (19 / 20) ∧
    (d.setFeedback x).parameters.FeedbackParam = min (max x 0) (19 / 20) ∧
    0 ≤ (d.setFeedback x).feedbackAmount ∧ (d.setFeedback x).feedbackAmount ≤ 19 / 20 ∧
    (x ≥ 19 / 20 → (d.setFeedback x).feedbackAmount = 19 / 20 ∧
      (d.setFeedback x).parameters.FeedbackParam = 19 / 20) := by
  have hc := jlimit_eq_min_max 0 (19 / 20) x (by norm_num)
  have hm := jlimit_mem 0 (19 / 20) x (by norm_num)
  have h1 : (d.setFeedback x).feedbackAmount = jlimit 0 (19 / 20) x := by
    unfold setFeedback; dsimp only; split_ifs <;> rfl
  have h2 : (d.setFeedback x).parameters.FeedbackParam = jlimit 0 (19 / 20) x := by
    unfold setFeedback; dsimp only; split_ifs <;> rfl
  refine ⟨by rw [h1, hc], by rw [h2, hc], by rw [h1]; exact hm.1, by rw [h1]; exact hm.2, ?_⟩
  intro hx
  have : min (max x 0) (19 / 20 : ℚ) = 19 / 20 := by
    rw [max_eq_left (by linarith), min_eq_right hx]
  rw [h1, h2, hc, this]
  exact ⟨rfl, rfl⟩

/-- Witness of C11: a feedback of 2 on a fresh delay is stored as 0.95. -/
theorem setFeedback_clamped_witness :
    (2 : ℚ) ≥ 19 / 20 ∧ (Delay.init.setFeedback 2).feedbackAmount = 19 / 20 ∧
    (Delay.init.setFeedback 2).parameters.FeedbackParam = 19 / 20 :=
  ⟨by norm_num, (setFeedback_clamped Delay.init 2).2.2.2.2 (by norm_num)⟩

/-- What `setDelayTime` stores, in the cached field and in the atomic slot. -/
theorem setDelayTime_stored (d : Delay) (x : ℚ) :
    (d.setDelayTime x).delayTimeMs = jlimit 10 MAX_DELAY_TIME_MS x ∧
    (d.setDelayTime x).parameters.DelayTimeParam = jlimit 10 MAX_DELAY_TIME_MS x := by
  unfold setDelayTime updateParameters
  dsimp only
  split_ifs <;> exact ⟨rfl, rfl⟩

/-- What `setDryWet` stores, in the cached field and in the atomic slot. -/
theorem setDryWet_stored (d : Delay) (x : ℚ) :
    (d.setDryWet x).dryWetMix = jlimit 0 1 x ∧
    (d.setDryWet x).parameters.DryWetParam = jlimit 0 1 x := by
  unfold setDryWet
  dsimp only
  split_ifs <;> exact ⟨rfl, rfl⟩

end Delay

namespace Reverb

/-- What `setRoomSize` stores, in the cached field and in the atomic slot. -/
theorem setRoomSize_stored (r : Reverb) (x : ℚ) :
    (r.setRoomSize x).roomSize = jlimit 0 1 x ∧
    (r.setRoomSize x).parameters.RoomSizeParam = jlimit 0 1 x := by
  unfold setRoomSize updateParameters
  dsimp only
  split_ifs <;> exact ⟨rfl, rfl⟩

/-- What `setDamping` stores, in the cached field and in the atomic slot. -/
theorem setDamping_stored (r : Reverb) (x : ℚ) :
    (r.setDamping x).dampingAmount = jlimit 0 1 x ∧
    (r.setDamping x).parameters.DampingParam = jlimit 0 1 x := by
  unfold setDamping updateParameters
  dsimp only
  split_ifs <;> exact ⟨rfl, rfl⟩

/-- What `setWidth` stores, in the cached field and in the atomic slot. -/
theorem setWidth_stored (r : Reverb) (x : ℚ) :
    (r.setWidth x).stereoWidth = jlimit 0 1 x ∧
    (r.setWidth x).parameters.WidthParam = jlimit 0 1 x := by
  unfold setWidth updateParameters
  dsimp only
  split_ifs <;> exact ⟨rfl, rfl⟩

/-- What `setDryWet` stores, in the cached field and in the atomic slot. -/
theorem reverbDryWet_stored (r : Reverb) (x : ℚ) :
    (r.setDryWet x).dryWetMix = jlimit 0 1 x ∧
    (r.setDryWet x).parameters.DryWetParam = jlimit 0 1 x := by
  unfold setDryWet updateParameters
  dsimp only
  split_ifs <;> exact ⟨rfl, rfl⟩

end Reverb

/-- C14: out-of-range parameter inputs are clamped, not rejected. For every
input `x`, `Delay::setDelayTime` stores `min (max x 10) MAX_DELAY_TIME_MS` (2000),
`Delay::setDryWet` and the four reverb setters store `min (max x 0) 1`, each in
the cached field and in the published parameter slot; an in-range `x` is stored
unchanged. -/
theorem setters_clamp (d : Delay) (r : Reverb) (x : ℚ) :
    MAX_DELAY_TIME_MS = 2000 ∧
    (d.setDelayTime x).delayTimeMs = min (max x 10) MAX_DELAY_TIME_MS ∧
    (d.setDelayTime x).parameters.DelayTimeParam = min (max x 10) MAX_DELAY_TIME_MS ∧
    (d.setDryWet x).dryWetMix = min (max x 0) 1 ∧
    (d.setDryWet x).parameters.DryWetParam = min (max x 0) 1 ∧
    (r.setRoomSize x).roomSize = min (max x 0) 1 ∧
    (r.setRoomSize x).parameters.RoomSizeParam = min (max x 0) 1 ∧
    (r.setDamping x).dampingAmount = min (max x 0) 1 ∧
    (r.setDamping x).parameters.DampingParam = min (max x 0) 1 ∧
    (r.setWidth x).stereoWidth = min (max x 0) 1 ∧
    (r.setWidth x).parameters.WidthParam = min (max x 0) 1 ∧
    (r.setDryWet x).dryWetMix = min (max x 0) 1 ∧
    (r.setDryWet x).parameters.DryWetParam = min (max x 0) 1 ∧
    (10 ≤ x → x ≤ MAX_DELAY_TIME_MS →
      (d.setDelayTime x).delayTimeMs = x ∧ (d.setDelayTime x).parameters.DelayTimeParam = x) ∧
    (0 ≤ x → x ≤ 1 →
      (d.setDryWet x).dryWetMix = x ∧ (d.setDryWet x).parameters.DryWetParam = x ∧
      (r.setRoomSize x).roomSize = x ∧ (r.setRoomSize x).parameters.RoomSizeParam = x ∧
      (r.setDamping x).dampingAmount = x ∧ (r.setDamping x).parameters.DampingParam = x ∧
      (r.setWidth x).stereoWidth = x ∧ (r.setWidth x).parameters.WidthParam = x ∧
      (r.setDryWet x).dryWetMix = x ∧ (r.setDryWet x).parameters.DryWetParam = x) := by
  have hmax : (10 : ℚ) ≤ MAX_DELAY_TIME_MS := by norm_num [MAX_DELAY_TIME_MS]
  have h01 : (0 : ℚ) ≤ 1 := by norm_num
  have hd := jlimit_eq_min_max 10 MAX_DELAY_TIME_MS x hmax
  have hu := jlimit_eq_min_max 0 1 x h01
  obtain ⟨a1, a2⟩ := Delay.setDelayTime_stored d x
  obtain ⟨b1, b2⟩ := Delay.setDryWet_stored d x
  obtain ⟨c1, c2⟩ := Reverb.setRoomSize_stored r x
  obtain ⟨e1, e2⟩ := Reverb.setDamping_stored r x
  obtain ⟨f1, f2⟩ := Reverb.setWidth_stored r x
  obtain ⟨g1, g2⟩ := Reverb.reverbDryWet_stored r x
  refine ⟨rfl, by rw [a1, hd], by rw [a2, hd], by rw [b1, hu], by rw [b2, hu], by rw [c1, hu],
    by rw [c2, hu], by rw [e1, hu], by rw [e2, hu], by rw [f1, hu], by rw [f2, hu],
    by rw [g1, hu], by rw [g2, hu], ?_, ?_⟩
  · intro h1 h2
    have := jlimit_of_mem 10 MAX_DELAY_TIME_MS x h1 h2
    exact ⟨by rw [a1, this], by rw [a2, this]⟩
  · intro h1 h2
    have := jlimit_of_mem 0 1 x h1 h2
    exact ⟨by rw [b1, this], by rw [b2, this], by rw [c1, this], by rw [c2, this],
      by rw [e1, this], by rw [e2, this], by rw [f1, this], by rw [f2, this],
      by rw [g1, this], by rw [g2, this]⟩

/-- Witness of C14 on a prepared delay and a prepared reverb: the in-range
inputs 100 ms and 0.5 are stored unchanged. -/
theorem setters_clamp_witness :
    (10 : ℚ) ≤ 100 ∧ (100 : ℚ) ≤ MAX_DELAY_TIME_MS ∧
    (preparedDelay.setDelayTime 100).delayTimeMs = 100 ∧
    (preparedDelay.setDelayTime 100).parameters.DelayTimeParam = 100 ∧
    (0 : ℚ) ≤ 1 / 2 ∧ (1 / 2 : ℚ) ≤ 1 ∧
    (preparedDelay.setDryWet (1 / 2)).dryWetMix = 1 / 2 ∧
    (preparedReverb.setRoomSize (1 / 2)).roomSize = 1 / 2 ∧
    (preparedReverb.setDryWet (1 / 2)).parameters.DryWetParam = 1 / 2 :=
  have h1 : (10 : ℚ) ≤ 100 := by norm_num
  have h2 : (100 : ℚ) ≤ MAX_DELAY_TIME_MS := by norm_num [MAX_DELAY_TIME_MS]
  have h3 : (0 : ℚ) ≤ 1 / 2 := by norm_num
  have h4 : (1 / 2 : ℚ) ≤ 1 := by norm_num
  ⟨h1, h2,
    ((setters_clamp preparedDelay preparedReverb 100).2.2.2.2.2.2.2.2.2.2.2.2.2.1 h1 h2).1,
    ((setters_clamp preparedDelay preparedReverb 100).2.2.2.2.2.2.2.2.2.2.2.2.2.1 h1 h2).2,
    h3, h4,
    ((setters_clamp preparedDelay preparedReverb (1 / 2)).2.2.2.2.2.2.2.2.2.2.2.2.2.2 h3 h4).1,
    ((setters_clamp preparedDelay preparedReverb (1 / 2)).2.2.2.2.2.2.2.2.2.2.2.2.2.2
      h3 h4).2.2.1,
    ((setters_clamp preparedDelay preparedReverb (1 / 2)).2.2.2.2.2.2.2.2.2.2.2.2.2.2
      h3 h4).2.2.2.2.2.2.2.2.2⟩

/-! ## Effects: read positions of the delay -/

/-- Truncation of a non-negative value is its floor. -/
theorem truncToInt_of_nonneg (x : ℚ) (h : 0 ≤ x) : truncToInt x = ⌊x⌋ := by
  unfold truncToInt
  rw [if_pos h]

/-- The truncated delay lies between 0 and the buffer size. -/
theorem truncToInt_bounds (L : Int) (d : ℚ) (hd0 : 0 ≤ d) (hd : d ≤ (L : ℚ)) :
    0 ≤ truncToInt d ∧ truncToInt d ≤ L := by
  rw [truncToInt_of_nonneg d hd0]
  refine ⟨Int.floor_nonneg.mpr hd0, ?_⟩
  have h1 := Int.floor_le d
  have h2 : ((⌊d⌋ : Int) : ℚ) ≤ (L : ℚ) := le_trans h1 hd
  exact_mod_cast h2

/-- C13: for a buffer of length `L > 0`, a write position `w` with `0 ≤ w < L` and
a delay of `d` samples with `0 ≤ d ≤ L`, the read position of
`Delay::processBlockSIMD` (`w - trunc d`, plus `L` when negative) and the adjacent
read position `(readPosition + 1) % L` both lie in `[0, L)`. -/
theorem readPosition_in_bounds (L w : Int) (d : ℚ) (hL : 0 < L) (hw0 : 0 ≤ w) (hw : w < L)
    (hd0 : 0 ≤ d) (hd : d ≤ (L : ℚ)) :
    0 ≤ readPosition w L d ∧ readPosition w L d < L ∧
    0 ≤ readPosition2 (readPosition w L d) L ∧ readPosition2 (readPosition w L d) L < L := by
  obtain ⟨ht0, ht⟩ := truncToInt_bounds L d hd0 hd
  have h1 : 0 ≤ readPosition w L d ∧ readPosition w L d < L := by
    unfold readPosition
    dsimp only
    split_ifs <;> omega
  refine ⟨h1.1, h1.2, ?_, ?_⟩
  · unfold readPosition2
    rw [Int.tmod_eq_emod (by omega) (le_of_lt hL)]
    exact Int.emod_nonneg _ (ne_of_gt hL)
  · unfold readPosition2
    rw [Int.tmod_eq_emod (by omega) (le_of_lt hL)]
    exact Int.emod_lt_of_pos _ hL

/-- Witness of C13: buffer length 88712, write position 0, delay 22050.5 samples. -/
theorem readPosition_in_bounds_witness :
    (0 : Int) < 88712 ∧ (0 : ℚ) ≤ 44101 / 2 ∧ (44101 / 2 : ℚ) ≤ ((88712 : Int) : ℚ) ∧
    0 ≤ readPosition 0 88712 (44101 / 2) ∧ readPosition 0 88712 (44101 / 2) < 88712 ∧
    0 ≤ readPosition2 (readPosition 0 88712 (44101 / 2)) 88712 ∧
    readPosition2 (readPosition 0 88712 (44101 / 2)) 88712 < 88712 :=
  have h1 : (0 : Int) < 88712 := by decide
  have h2 : (0 : ℚ) ≤ 44101 / 2 := by norm_num
  have h3 : (44101 / 2 : ℚ) ≤ ((88712 : Int) : ℚ) := by norm_num
  ⟨h1, h2, h3, readPosition_in_bounds 88712 0 (44101 / 2) h1 (le_refl 0) h1 h2 h3⟩

/-! ## Effects: one sample of the delay -/

/-- The fraction of a delay lies in [0, 1). -/
theorem delayFraction_mem (d : ℚ) : 0 ≤ delayFraction d ∧ delayFraction d < 1 := by
  unfold delayFraction
  rw [Int.self_sub_floor]
  exact ⟨Int.fract_nonneg d, Int.fract_lt_one d⟩

/-- A linear interpolation with weight in [0, 1] lies between its end points. -/
theorem interpolation_between (a b f : ℚ) (h0 : 0 ≤ f) (h1 : f ≤ 1) :
    min a b ≤ a * (1 - f) + b * f ∧ a * (1 - f) + b * f ≤ max a b := by
  have ha := min_le_left a b
  have hb := min_le_right a b
  have ha2 := le_max_left a b
  have hb2 := le_max_right a b
  have hf : 0 ≤ 1 - f := by linarith
  constructor
  · nlinarith [mul_le_mul_of_nonneg_right ha hf, mul_le_mul_of_nonneg_right hb h0]
  · nlinarith [mul_le_mul_of_nonneg_right ha2 hf, mul_le_mul_of_nonneg_right hb2 h0]

/-- C19: one pass of the sample loop of `Delay::processBlockSIMD`, for an input
sample `x`, the buffer values `a` at the read position and `b` at the next slot, a
delay with fractional part `f = d - floor d`, feedback `g` and dry/wet mix `m`,
computes `delayed = a*(1 - f) + b*f`, writes `x + delayed*g` at the write position
(and nowhere else) and outputs `x*(1 - m) + delayed*m`; `f` lies in [0, 1), so
`delayed` lies between `a` and `b`, and with `m = 0` the output is `x`. -/
theorem sampleStep_computes (delayData : Int → ℚ) (w L : Int) (x : ℚ) (p : SampleParams)
    (d : Delay) (channel : Nat) :
    let a := delayData (readPosition w L p.currentDelayTimeSamples)
    let b := delayData (readPosition2 (readPosition w L p.currentDelayTimeSamples) L)
    let f := p.currentDelayTimeSamples - (⌊p.currentDelayTimeSamples⌋ : ℚ)
    let delayed := a * (1 - f) + b * f
    (sampleStep delayData w L x p).1 w = x + delayed * p.currentFeedback ∧
    (sampleStep delayData w L x p).2 = x * (1 - p.currentDryWet) + delayed * p.currentDryWet ∧
    (∀ i, i ≠ w → (sampleStep delayData w L x p).1 i = delayData i) ∧
    0 ≤ f ∧ f < 1 ∧ min a b ≤ delayed ∧ delayed ≤ max a b ∧
    (p.currentDryWet = 0 → (sampleStep delayData w L x p).2 = x) ∧
    (d.processSample channel x).2 =
      (sampleStep (d.delayBuffer channel) d.delayWritePosition d.delayBufferSize x d.nextParams).2 ∧
    (d.processSample channel x).1.delayBuffer channel =
      (sampleStep (d.delayBuffer channel) d.delayWritePosition d.delayBufferSize x d.nextParams).1 := by
  intro a b f delayed
  obtain ⟨hf0, hf1⟩ := delayFraction_mem p.currentDelayTimeSamples
  have hb := interpolation_between a b (delayFraction p.currentDelayTimeSamples) hf0 (le_of_lt hf1)
  refine ⟨?_, rfl, ?_, hf0, hf1, hb.1, hb.2, ?_, rfl, ?_⟩
  · simp [sampleStep, delayedSample, delayFraction, delayed, a, b, f]
  · intro i hi
    simp [sampleStep, Function.update_noteq hi]
  · intro hm
    simp [sampleStep, hm]
  · simp [Delay.processSample]

/-- Witness of C19: a fully dry sample (mix 0) on a cleared buffer comes out
unchanged. -/
theorem sampleStep_computes_witness :
    (⟨22050, 1 / 2, 0⟩ : SampleParams).currentDryWet = 0 ∧
    (sampleStep (fun _ => 0) 0 88712 1 ⟨22050, 1 / 2, 0⟩).2 = 1 :=
  ⟨rfl, (sampleStep_computes (fun _ => 0) 0 88712 1 ⟨22050, 1 / 2, 0⟩ preparedDelay 0).2.2.2.2.2.2.2.1
    rfl⟩

namespace Sequencer

/-! ## Play, stop and the timer -/

/-- C15: `play` on a stopped sequencer at position `p` sets playing, records `p`
as `lastEventPosition` and keeps the position; `play` on a playing sequencer
changes nothing; `togglePlayStop` is `stop` when playing and `play` when stopped,
so it always flips the playing flag. -/
theorem play_and_toggle (s : Sequencer) :
    (s.playing = false →
      s.play.playing = true ∧ s.play.lastEventPosition = s.currentPosition ∧
      s.play.currentPosition = s.currentPosition) ∧
    (s.playing = true → s.play = s) ∧
    (s.playing = true → s.togglePlayStop = s.stop) ∧
    (s.playing = false → s.togglePlayStop = s.play) ∧
    s.togglePlayStop.playing = !s.playing := by
  refine ⟨?_, ?_, ?_, ?_, ?_⟩
  · intro h; simp [play, h]
  · intro h; simp [play, h]
  · intro h; simp [togglePlayStop, h]
  · intro h; simp [togglePlayStop, h]
  · cases h : s.playing
    · simp [togglePlayStop, h, play]
    · simp [togglePlayStop, h, stop_eq]

/-- Witness of C15: the stopped constructor state and the playing single-note
example. -/
theorem play_and_toggle_witness :
    (Sequencer.init 10).playing = false ∧ (Sequencer.init 10).play.playing = true ∧
    (Sequencer.init 10).play.lastEventPosition = (Sequencer.init 10).currentPosition ∧
    (Sequencer.init 10).togglePlayStop = (Sequencer.init 10).play ∧
    singleNoteExample.playing = true ∧ singleNoteExample.play = singleNoteExample ∧
    singleNoteExample.togglePlayStop = singleNoteExample.stop :=
  ⟨rfl, ((play_and_toggle (Sequencer.init 10)).1 rfl).1,
    ((play_and_toggle (Sequencer.init 10)).1 rfl).2.1,
    (play_and_toggle (Sequencer.init 10)).2.2.2.1 rfl,
    rfl, (play_and_toggle singleNoteExample).2.1 rfl,
    (play_and_toggle singleNoteExample).2.2.1 rfl⟩

/-- The position after `timerCallback` in a playing state, and what the callback
leaves untouched. -/
theorem timerCallback_position (s : Sequencer) (hplay : s.playing = true) :
    s.timerCallback.currentPosition =
      (if s.looping = true ∧
          s.currentPosition + s.secondsToBeats ((s.timerIntervalMs : ℚ) / 1000) ≥ s.loopEnd then
        s.loopStart +
          (s.currentPosition + s.secondsToBeats ((s.timerIntervalMs : ℚ) / 1000) - s.loopEnd)
      else s.currentPosition + s.secondsToBeats ((s.timerIntervalMs : ℚ) / 1000)) ∧
    s.timerCallback.timeline = s.timeline ∧
    s.timerCallback.looping = s.looping ∧
    s.timerCallback.currentBlockSize = s.currentBlockSize ∧
    s.timerCallback.currentSampleRate = s.currentSampleRate := by
  unfold timerCallback
  by_cases hc : s.looping = true ∧
      s.currentPosition + s.secondsToBeats ((s.timerIntervalMs : ℚ) / 1000) ≥ s.loopEnd
  · have hc2 := hc.2
    simp [hplay, hc.1, hc2, generateParameterEvents_eq]
  · rw [if_neg hc]
    have hc3 : ¬ (s.looping = true ∧
        s.loopEnd ≤ s.currentPosition + s.secondsToBeats ((s.timerIntervalMs : ℚ) / 1000)) := hc
    simp [hplay, hc3, generateParameterEvents_eq]

/-- The position after `processMidi` when the block does not wrap. -/
theorem processMidi_position_of_no_wrap (s : Sequencer) (tl : Timeline) (i o : MidiBuffer)
    (hplay : s.playing = true) (htl : s.timeline = some tl)
    (hcase : s.looping = false ∨
      s.currentPosition + s.secondsToBeats ((s.currentBlockSize : ℚ) / s.currentSampleRate)
        < s.loopEnd) :
    (s.processMidi i o).1.currentPosition =
      s.currentPosition + s.secondsToBeats ((s.currentBlockSize : ℚ) / s.currentSampleRate) := by
  unfold processMidi
  rcases hcase with hoff | hlt
  · simp [hplay, htl, hoff, generateEvents_eq _ tl]
  · have hnot : ¬ (s.loopEnd ≤
        s.currentPosition + s.secondsToBeats ((s.currentBlockSize : ℚ) / s.currentSampleRate)) :=
      not_le.mpr hlt
    simp [hplay, htl, hnot, generateEvents_eq _ tl]

/-- C16, as stated, fails: on the playing single-note example (position 0,
120 bpm, timer interval 10 ms, blocks of 512 samples at 44100 Hz) `timerCallback`
moves the position `processMidi` starts from, from 0 to 1/50; `processMidi` alone
advances by one block (256/11025 beats), `timerCallback` followed by `processMidi`
by the timer interval plus the block. -/
theorem timerCallback_moves_position :
    singleNoteExample.playing = true ∧ singleNoteExample.currentPosition = 0 ∧
    singleNoteExample.timerCallback.currentPosition = 1 / 50 ∧
    singleNoteExample.timerCallback.currentPosition ≠ singleNoteExample.currentPosition ∧
    (singleNoteExample.processMidi [] []).1.currentPosition = 256 / 11025 ∧
    (singleNoteExample.timerCallback.processMidi [] []).1.currentPosition =
      1 / 50 + 256 / 11025 := by
  have hp : singleNoteExample.playing = true := rfl
  have h0 : singleNoteExample.currentPosition = 0 := rfl
  have ht := timerCallback_position singleNoteExample hp
  have hloop : singleNoteExample.looping = false := rfl
  have htb : singleNoteExample.secondsToBeats ((singleNoteExample.timerIntervalMs : ℚ) / 1000)
      = 1 / 50 := by
    norm_num [singleNoteExample, runOps, Op.apply, setTimeline, play, Sequencer.init,
      secondsToBeats]
  have hbb : singleNoteExample.secondsToBeats
      ((singleNoteExample.currentBlockSize : ℚ) / singleNoteExample.currentSampleRate)
      = 256 / 11025 := by
    norm_num [singleNoteExample, runOps, Op.apply, setTimeline, play, Sequencer.init,
      secondsToBeats]
  have h1 : singleNoteExample.timerCallback.currentPosition = 1 / 50 := by
    rw [ht.1, htb, h0]; simp [hloop]
  have h2 := processMidi_position_of_no_wrap singleNoteExample singleNoteTimeline [] [] hp rfl
    (Or.inl hloop)
  have hp3 : singleNoteExample.timerCallback.playing = true := by
    rw [(timerCallback_frame singleNoteExample).1]; rfl
  have h3 := processMidi_position_of_no_wrap singleNoteExample.timerCallback singleNoteTimeline
    [] [] hp3 (by rw [ht.2.1]; rfl) (Or.inl (by rw [ht.2.2.1]; rfl))
  refine ⟨hp, h0, h1, ?_, ?_, ?_⟩
  · rw [h1, h0]; norm_num
  · rw [h2, hbb, h0]; norm_num
  · rw [h3, h1]
    have : singleNoteExample.timerCallback.secondsToBeats
        ((singleNoteExample.timerCallback.currentBlockSize : ℚ) /
          singleNoteExample.timerCallback.currentSampleRate) = 256 / 11025 := by
      unfold secondsToBeats
      rw [ht.2.2.2.1, ht.2.2.2.2, (timerCallback_frame singleNoteExample).2.2.1]
      exact hbb
    rw [this]

/-- C16 (amended): in a playing state `timerCallback` advances the position that
`processMidi` starts from by the beats of the timer interval,
`secondsToBeats (timerIntervalMs / 1000)`, wrapping to `loopStart + overflow` when
looping and the loop end is reached; so, when neither call wraps, a
`timerCallback` followed by a `processMidi` advances the position by the timer
interval's beats plus one block's beats. -/
theorem timerCallback_then_processMidi (s : Sequencer) (tl : Timeline) (i o : MidiBuffer)
    (hplay : s.playing = true) (htl : s.timeline = some tl) :
    let timerBeats := s.secondsToBeats ((s.timerIntervalMs : ℚ) / 1000)
    let blockBeats := s.secondsToBeats ((s.currentBlockSize : ℚ) / s.currentSampleRate)
    (s.looping = false ∨ s.currentPosition + timerBeats < s.loopEnd →
      s.timerCallback.currentPosition = s.currentPosition + timerBeats) ∧
    (s.looping = true → s.currentPosition + timerBeats ≥ s.loopEnd →
      s.timerCallback.currentPosition =
        s.loopStart + (s.currentPosition + timerBeats - s.loopEnd)) ∧
    (s.looping = false ∨
        (s.currentPosition + timerBeats < s.loopEnd ∧
          s.currentPosition + timerBeats + blockBeats < s.loopEnd) →
      (s.timerCallback.processMidi i o).1.currentPosition =
        s.currentPosition + timerBeats + blockBeats) := by
  intro timerBeats blockBeats
  obtain ⟨hpos, hline, hloop, hbs, hsr⟩ := timerCallback_position s hplay
  obtain ⟨fplay, _, ftempo, _, fend, _⟩ := timerCallback_frame s
  have hfirst : s.looping = false ∨ s.currentPosition + timerBeats < s.loopEnd →
      s.timerCallback.currentPosition = s.currentPosition + timerBeats := by
    intro h
    rw [hpos, if_neg]
    rintro ⟨h1, h2⟩
    rcases h with h | h
    · rw [h1] at h; exact Bool.noConfusion h
    · exact absurd h2 (not_le.mpr h)
  refine ⟨hfirst, ?_, ?_⟩
  · intro h1 h2
    rw [hpos, if_pos ⟨h1, h2⟩]
  · intro h
    have hp1 : s.timerCallback.currentPosition = s.currentPosition + timerBeats :=
      hfirst (h.imp id And.left)
    have hbb : s.timerCallback.secondsToBeats
        ((s.timerCallback.currentBlockSize : ℚ) / s.timerCallback.currentSampleRate)
        = blockBeats := by
      show s.timerCallback.secondsToBeats _ = s.secondsToBeats _
      unfold secondsToBeats
      rw [hbs, hsr, ftempo]
    have := processMidi_position_of_no_wrap s.timerCallback tl i o (by rw [fplay]; exact hplay)
      (by rw [hline]; exact htl)
      (by
        rcases h with h | h
        · left; rw [hloop]; exact h
        · right; rw [hbb, hp1, fend]; exact h.2)
    rw [this, hbb, hp1]

/-- Witness of C16 (amended): the looping example with looping switched off. -/
theorem timerCallback_then_processMidi_witness :
    (loopingExample.setLooping false).playing = true ∧
    (loopingExample.setLooping false).timeline = some singleNoteTimeline ∧
    (loopingExample.setLooping false).looping = false ∧
    (loopingExample.setLooping false).timerCallback.currentPosition =
      (loopingExample.setLooping false).currentPosition +
        (loopingExample.setLooping false).secondsToBeats
          (((loopingExample.setLooping false).timerIntervalMs : ℚ) / 1000) ∧
    (((loopingExample.setLooping false).timerCallback).processMidi [] []).1.currentPosition =
      (loopingExample.setLooping false).currentPosition +
        (loopingExample.setLooping false).secondsToBeats
          (((loopingExample.setLooping false).timerIntervalMs : ℚ) / 1000) +
        (loopingExample.setLooping false).secondsToBeats
          (((loopingExample.setLooping false).currentBlockSize : ℚ) /
            (loopingExample.setLooping false).currentSampleRate) :=
  ⟨rfl, rfl, rfl,
    (timerCallback_then_processMidi (loopingExample.setLooping false) singleNoteTimeline [] []
      rfl rfl).1 (Or.inl rfl),
    (timerCallback_then_processMidi (loopingExample.setLooping false) singleNoteTimeline [] []
      rfl rfl).2.2 (Or.inl rfl)⟩

/-! ## Sample offset of a note-on -/

/-- The later-note example, evaluated. -/
theorem laterNoteExample_state :
    laterNoteExample.timeline = some laterNoteTimeline ∧
    laterNoteExample.tempo = 120 ∧ laterNoteExample.currentSampleRate = 44100 ∧
    laterNoteExample.currentBlockSize = 22050 ∧ laterNoteExample.currentPosition = 4 ∧
    laterNoteExample.activeNotes = [] ∧ laterNoteExample.lastEventPosition = 4 := by
  simp [laterNoteExample, runOps, Op.apply, setTimeline, prepare, setPosition, play,
    Sequencer.init]

/-- C20 fails in the code: for the window [4, 5) of a one-beat block of 22050
samples, the note starting at beat 4 gets its note-on at sample 88200, the offset
of beat 4 from beat 0, although the comment on that line reads "sample position
relative to the start of the buffer"; the offset of the note from the window
start is 0, and 88200 is not below the block size. -/
theorem generateEvents_noteOn_absolute_offset :
    laterNoteExample.timeline = some laterNoteTimeline ∧
    laterNoteTimeline.getNotesInRange 4 5 = [⟨60, 100, 4, 1⟩] ∧
    laterNoteExample.currentBlockSize = 22050 ∧
    (laterNoteExample.generateEvents 4 5 []).2 = [⟨MidiMessage.noteOn 1 60 (100 / 127), 88200⟩] ∧
    truncToInt (laterNoteExample.beatsToSeconds (4 - 4) * laterNoteExample.currentSampleRate) = 0 ∧
    ¬ ((88200 : Int) < laterNoteExample.currentBlockSize) := by
  obtain ⟨htl, htempo, hsr, hbs, hpos, hact, hlast⟩ := laterNoteExample_state
  have hn : laterNoteTimeline.getNotesInRange 4 5 = [⟨60, 100, 4, 1⟩] := by
    simp [laterNoteTimeline]
    norm_num
  refine ⟨htl, hn, hbs, ?_, ?_, ?_⟩
  · rw [generateEvents_eq _ laterNoteTimeline 4 5 [] htl, hn]
    simp [generatedEvents, dueNotes, hact, registeredNote, isDue, noteOnEvent, beatsToSeconds,
      secondsToSamples, htempo, hsr, truncToInt]
    norm_num
  · simp [beatsToSeconds, truncToInt]
  · rw [hbs]; decide

/-- What the code computes: for a window from `a` to `b`, `generateEvents` places
the note-on of every note `n` the timeline returns at the sample offset
`trunc (beatsToSeconds n.startTime * sampleRate)`, whatever the window start.
With tempo > 0 and sample rate > 0, this offset lies in `[0, blockSize)` whenever
`0 ≤ n.startTime` and `n.startTime` is less than the beats of one block. -/
theorem generateEvents_noteOn_offset (s : Sequencer) (tl : Timeline) (htl : s.timeline = some tl)
    (a b : ℚ) (buf : MidiBuffer) :
    (∃ noteOffs : MidiBuffer,
      (s.generateEvents a b buf).2 =
        buf ++ (tl.getNotesInRange a b).map (fun n =>
          ⟨MidiMessage.noteOn 1 n.note ((n.velocity : ℚ) / 127),
            truncToInt (s.beatsToSeconds n.startTime * s.currentSampleRate)⟩) ++ noteOffs) ∧
    (∀ n : NoteEvent, s.tempo > 0 → s.currentSampleRate > 0 → 0 ≤ n.startTime →
      n.startTime < s.secondsToBeats ((s.currentBlockSize : ℚ) / s.currentSampleRate) →
      0 ≤ truncToInt (s.beatsToSeconds n.startTime * s.currentSampleRate) ∧
      truncToInt (s.beatsToSeconds n.startTime * s.currentSampleRate) < s.currentBlockSize) := by
  constructor
  · refine ⟨(dueNotes s a b (tl.getNotesInRange a b)).map (noteOffEvent s), ?_⟩
    rw [generateEvents_eq s tl a b buf htl]
    simp [generatedEvents, noteOnEvent_fun, beatsToSeconds]
  · intro n ht hr h0 hlt
    have hx0 : 0 ≤ s.beatsToSeconds n.startTime * s.currentSampleRate := by
      unfold beatsToSeconds
      positivity
    have hlt2 : s.beatsToSeconds n.startTime * s.currentSampleRate < (s.currentBlockSize : ℚ) := by
      unfold beatsToSeconds secondsToBeats at *
      rw [lt_div_iff₀ (by norm_num : (0 : ℚ) < 60)] at hlt
      have h1 : n.startTime * 60 / s.tempo < (s.currentBlockSize : ℚ) / s.currentSampleRate := by
        rw [div_lt_iff₀ ht]; exact hlt
      rw [lt_div_iff₀ hr] at h1
      exact h1
    rw [truncToInt_of_nonneg _ hx0]
    exact ⟨Int.floor_nonneg.mpr hx0, Int.floor_lt.mpr hlt2⟩

/-- Example: on the later-note example (one-beat blocks of 22050
samples) a note at distance 1/2 beat is placed inside the block. -/
theorem generateEvents_noteOn_offset_witness :
    laterNoteExample.timeline = some laterNoteTimeline ∧
    laterNoteExample.tempo > 0 ∧ laterNoteExample.currentSampleRate > 0 ∧
    0 ≤ truncToInt (laterNoteExample.beatsToSeconds (1 / 2) * laterNoteExample.currentSampleRate) ∧
    truncToInt (laterNoteExample.beatsToSeconds (1 / 2) * laterNoteExample.currentSampleRate)
      < laterNoteExample.currentBlockSize := by
  obtain ⟨htl, htempo, hsr, hbs, _, _, _⟩ := laterNoteExample_state
  have ht : laterNoteExample.tempo > 0 := by rw [htempo]; norm_num
  have hr : laterNoteExample.currentSampleRate > 0 := by rw [hsr]; norm_num
  exact ⟨htl, ht, hr,
    (generateEvents_noteOn_offset laterNoteExample laterNoteTimeline htl 4 5 []).2
      ⟨60, 100, 1 / 2, 1⟩ ht hr (by norm_num)
      (by simp only [secondsToBeats, htempo, hsr, hbs]; norm_num)⟩

end Sequencer

/-! ## Effects: bounded output of the delay -/

/-- The prepared delay, evaluated: buffer of 88712 cleared slots, write position 0,
idle smoothers at 500 ms, 0.5 and 0.3. -/
theorem preparedDelay_state :
    preparedDelay.delayBufferSize = 88712 ∧ preparedDelay.delayWritePosition = 0 ∧
    preparedDelay.sampleRate = 44100 ∧ preparedDelay.isPrepared = true ∧
    preparedDelay.delayTimeMs = 500 ∧ preparedDelay.parameters.DelayTimeParam = 500 ∧
    preparedDelay.delayTimeSmoothed = ⟨500, 500, 0, 0, 4410⟩ ∧
    preparedDelay.feedbackSmoothed = ⟨1 / 2, 1 / 2, 0, 0, 2205⟩ ∧
    preparedDelay.dryWetSmoothed = ⟨3 / 10, 3 / 10, 0, 0, 2205⟩ ∧
    preparedDelay.delayBuffer = (fun _ _ => 0) := by
  have h3 : ⌊(MAX_DELAY_TIME_MS / 1000 : ℚ) * 44100⌋ = 88200 := by
    rw [Int.floor_eq_iff]; norm_num [MAX_DELAY_TIME_MS]
  have h4 : (0 : ℚ) ≤ MAX_DELAY_TIME_MS / 1000 * 44100 := by norm_num [MAX_DELAY_TIME_MS]
  simp [preparedDelay, Delay.prepareToPlay, Delay.baseprepareToPlay, Delay.init,
    Delay.updateParameters, Delay.calculateDelayBufferSize, SmoothedValue.reset,
    SmoothedValue.setCurrentAndTargetValue, SmoothedValue.init, truncToInt, h3, h4]
  constructor <;> (rw [Int.floor_eq_iff]; norm_num)


/-- A smoother that is not smoothing returns its target and stays as it is. -/
theorem SmoothedValue.getNextValue_of_idle (sv : SmoothedValue) (h : sv.countdown ≤ 0) :
    sv.getNextValue = (sv, sv.target) := by
  unfold SmoothedValue.getNextValue SmoothedValue.isSmoothing
  simp [not_lt.mpr h]

/-- The smoothed values of the prepared delay: 22050 samples, feedback 0.5, mix 0.3. -/
theorem preparedDelay_nextParams :
    preparedDelay.nextParams = ⟨22050, 1 / 2, 3 / 10⟩ := by
  obtain ⟨_, _, hsr, _, _, _, hdt, hfb, hdw, _⟩ := preparedDelay_state
  unfold Delay.nextParams
  rw [hdt, hfb, hdw, hsr]
  simp [SmoothedValue.getNextValue_of_idle]
  norm_num



/-- Both read positions of the delay lie inside the buffer. -/
theorem readPositions_mem (L w : Int) (d : ℚ) (hL : 0 < L) (hw0 : 0 ≤ w) (hw : w < L)
    (hd0 : 0 ≤ d) (hd : d ≤ (L : ℚ)) :
    (0 ≤ readPosition w L d ∧ readPosition w L d < L) ∧
    (0 ≤ readPosition2 (readPosition w L d) L ∧ readPosition2 (readPosition w L d) L < L) := by
  obtain ⟨ht0, ht⟩ := truncToInt_bounds L d hd0 hd
  have h1 : 0 ≤ readPosition w L d ∧ readPosition w L d < L := by
    unfold readPosition
    dsimp only
    split_ifs <;> omega
  refine ⟨h1, ?_⟩
  unfold readPosition2
  rw [Int.tmod_eq_emod (by omega) (le_of_lt hL)]
  exact ⟨Int.emod_nonneg _ (ne_of_gt hL), Int.emod_lt_of_pos _ hL⟩

/-- The interpolated sample is bounded like the slots it is read from. -/
theorem delayedSample_bounded (delayData : Int → ℚ) (w L : Int) (d B : ℚ)
    (hL : 0 < L) (hw0 : 0 ≤ w) (hw : w < L) (hd0 : 0 ≤ d) (hd : d ≤ (L : ℚ))
    (hbuf : ∀ i, 0 ≤ i → i < L → |delayData i| ≤ B) :
    |delayedSample delayData w L d| ≤ B := by
  obtain ⟨⟨ha0, ha1⟩, ⟨hb0, hb1⟩⟩ := readPositions_mem L w d hL hw0 hw hd0 hd
  have ha := abs_le.mp (hbuf _ ha0 ha1)
  have hb := abs_le.mp (hbuf _ hb0 hb1)
  obtain ⟨hf0, hf1⟩ := delayFraction_mem d
  have hi := interpolation_between (delayData (readPosition w L d))
    (delayData (readPosition2 (readPosition w L d) L)) (delayFraction d) hf0 (le_of_lt hf1)
  unfold delayedSample
  dsimp only
  rw [abs_le]
  constructor
  · exact le_trans (le_min ha.1 hb.1) hi.1
  · exact le_trans hi.2 (max_le ha.2 hb.2)

/-- One pass of the sample loop keeps the slots within `20 * M` and gives an
output within `20 * M`. -/
theorem sampleStep_bounded (delayData : Int → ℚ) (w L : Int) (x M : ℚ) (p : SampleParams)
    (hM : 0 ≤ M) (hL : 0 < L) (hw0 : 0 ≤ w) (hw : w < L)
    (hbuf : ∀ i, 0 ≤ i → i < L → |delayData i| ≤ 20 * M) (hx : |x| ≤ M) (hp : p.InRange L) :
    (∀ i, 0 ≤ i → i < L → |(sampleStep delayData w L x p).1 i| ≤ 20 * M) ∧
    |(sampleStep delayData w L x p).2| ≤ 20 * M := by
  obtain ⟨hg0, hg1, hm0, hm1, hd0, hd1⟩ := hp
  have hdel := abs_le.mp
    (delayedSample_bounded delayData w L p.currentDelayTimeSamples (20 * M) hL hw0 hw hd0 hd1 hbuf)
  have hx2 := abs_le.mp hx
  constructor
  · intro i hi0 hi1
    unfold sampleStep
    dsimp only
    by_cases hiw : i = w
    · rw [hiw, Function.update_same, abs_le]
      constructor <;> nlinarith [hdel.1, hdel.2, hx2.1, hx2.2]
    · rw [Function.update_noteq hiw]
      exact hbuf i hi0 hi1
  · unfold sampleStep
    dsimp only
    rw [abs_le]
    constructor <;> nlinarith [hdel.1, hdel.2, hx2.1, hx2.2]

namespace Delay

/-- What one pass of the sample loop keeps, and the bound it maintains. -/
theorem processSample_bounded (d : Delay) (channel : Nat) (x M : ℚ) (hM : 0 ≤ M)
    (hL : 0 < d.delayBufferSize) (hw0 : 0 ≤ d.delayWritePosition)
    (hw : d.delayWritePosition < d.delayBufferSize) (hb : d.SlotsBounded (20 * M))
    (hx : |x| ≤ M) (hp : d.nextParams.InRange d.delayBufferSize) :
    (d.processSample channel x).1.delayBufferSize = d.delayBufferSize ∧
    (d.processSample channel x).1.delayWritePosition = d.delayWritePosition ∧
    (d.processSample channel x).1.SlotsBounded (20 * M) ∧
    |(d.processSample channel x).2| ≤ 20 * M := by
  have hs := sampleStep_bounded (d.delayBuffer channel) d.delayWritePosition d.delayBufferSize
    x M d.nextParams hM hL hw0 hw (fun i h0 h1 => hb channel i h0 h1) hx hp
  refine ⟨rfl, rfl, ?_, hs.2⟩
  intro c i h0 h1
  unfold processSample
  dsimp only
  by_cases hc : c = channel
  · rw [hc, Function.update_same]
    exact hs.1 i h0 h1
  · rw [Function.update_noteq hc]
    exact hb c i h0 h1

/-- The sample loop over a channel keeps the buffer size, the write position
and the bound on the slots, and its outputs are within `20 * M`. -/
theorem processSamples_bounded (channel : Nat) (M : ℚ) (hM : 0 ≤ M) (xs : List ℚ) (d : Delay)
    (hL : 0 < d.delayBufferSize) (hw0 : 0 ≤ d.delayWritePosition)
    (hw : d.delayWritePosition < d.delayBufferSize) (hb : d.SlotsBounded (20 * M))
    (hx : ∀ x ∈ xs, |x| ≤ M) (hp : SamplesInRange channel d xs) :
    (processSamples channel d xs).1.delayBufferSize = d.delayBufferSize ∧
    (processSamples channel d xs).1.delayWritePosition = d.delayWritePosition ∧
    (processSamples channel d xs).1.SlotsBounded (20 * M) ∧
    (∀ y ∈ (processSamples channel d xs).2, |y| ≤ 20 * M) := by
  induction xs generalizing d with
  | nil => exact ⟨rfl, rfl, hb, by simp [processSamples]⟩
  | cons x rest ih =>
    obtain ⟨hp1, hp2⟩ := hp
    obtain ⟨e1, e2, e3, e4⟩ := processSample_bounded d channel x M hM hL hw0 hw hb
      (hx x (List.mem_cons_self _ _)) hp1
    obtain ⟨f1, f2, f3, f4⟩ := ih (d.processSample channel x).1 (by rw [e1]; exact hL)
      (by rw [e2]; exact hw0) (by rw [e1, e2]; exact hw) e3
      (fun y hy => hx y (List.mem_cons_of_mem _ hy)) hp2
    refine ⟨by rw [processSamples]; exact f1.trans e1, by rw [processSamples]; exact f2.trans e2,
      by rw [processSamples]; exact f3, ?_⟩
    intro y hy
    rw [processSamples] at hy
    rcases List.mem_cons.mp hy with h | h
    · rw [h]; exact e4
    · exact f4 y h

/-- The channel loop keeps the buffer size, a write position inside the buffer
and the bound on the slots, and its outputs are within `20 * M`. -/
theorem processChannels_bounded (numSamples : Int) (hn : 0 ≤ numSamples) (M : ℚ) (hM : 0 ≤ M)
    (chans : List (List ℚ)) (d : Delay) (channel : Nat)
    (hL : 0 < d.delayBufferSize) (hw0 : 0 ≤ d.delayWritePosition)
    (hw : d.delayWritePosition < d.delayBufferSize) (hb : d.SlotsBounded (20 * M))
    (hx : ∀ channelData ∈ chans, ∀ x ∈ channelData, |x| ≤ M)
    (hp : ChannelsInRange numSamples d channel chans) :
    (processChannels numSamples d channel chans).1.delayBufferSize = d.delayBufferSize ∧
    0 ≤ (processChannels numSamples d channel chans).1.delayWritePosition ∧
    (processChannels numSamples d channel chans).1.delayWritePosition < d.delayBufferSize ∧
    (processChannels numSamples d channel chans).1.SlotsBounded (20 * M) ∧
    (∀ channelData ∈ (processChannels numSamples d channel chans).2,
      ∀ y ∈ channelData, |y| ≤ 20 * M) := by
  induction chans generalizing d channel with
  | nil => exact ⟨rfl, hw0, hw, hb, by simp [processChannels]⟩
  | cons channelData rest ih =>
    obtain ⟨hp1, hp2⟩ := hp
    obtain ⟨e1, e2, e3, e4⟩ := processSamples_bounded channel M hM channelData d hL hw0 hw hb
      (hx channelData (List.mem_cons_self _ _)) hp1
    have a1 : ((processSamples channel d channelData).1.advanceWritePosition
        numSamples).delayBufferSize = d.delayBufferSize := e1
    have hsum : 0 ≤ (processSamples channel d channelData).1.delayWritePosition + numSamples := by
      rw [e2]; omega
    have hL2 : 0 < (processSamples channel d channelData).1.delayBufferSize := by
      rw [e1]; exact hL
    have a2 : 0 ≤ ((processSamples channel d channelData).1.advanceWritePosition
        numSamples).delayWritePosition := by
      show 0 ≤ Int.tmod _ _
      rw [Int.tmod_eq_emod hsum (le_of_lt hL2)]
      exact Int.emod_nonneg _ (ne_of_gt hL2)
    have a3 : ((processSamples channel d channelData).1.advanceWritePosition
        numSamples).delayWritePosition < d.delayBufferSize := by
      show Int.tmod _ _ < _
      rw [Int.tmod_eq_emod hsum (le_of_lt hL2), ← e1]
      exact Int.emod_lt_of_pos _ hL2
    have a4 : ((processSamples channel d channelData).1.advanceWritePosition
        numSamples).SlotsBounded (20 * M) := e3
    obtain ⟨f1, f2, f3, f4, f5⟩ :=
      ih ((processSamples channel d channelData).1.advanceWritePosition numSamples) (channel + 1)
        (by rw [a1]; exact hL) a2 (by rw [a1]; exact a3) a4
        (fun cd hcd => hx cd (List.mem_cons_of_mem _ hcd)) hp2
    rw [processChannels]
    refine ⟨f1.trans a1, f2, by rw [← a1]; exact f3, f4, ?_⟩
    intro cd hcd y hy
    rcases List.mem_cons.mp hcd with h | h
    · rw [h] at hy; exact e4 y hy
    · exact f5 cd h y hy

/-- The delay-time check leaves buffer, buffer size and write position alone. -/
theorem pollDelayTime_frame (d : Delay) :
    d.pollDelayTime.delayBufferSize = d.delayBufferSize ∧
    d.pollDelayTime.delayWritePosition = d.delayWritePosition ∧
    d.pollDelayTime.delayBuffer = d.delayBuffer := by
  unfold pollDelayTime updateParameters
  dsimp only
  split_ifs <;> exact ⟨rfl, rfl, rfl⟩

/-- The number of samples of a block is not negative. -/
theorem getNumSamples_nonneg (buffer : AudioBuffer) : 0 ≤ buffer.getNumSamples := by
  unfold AudioBuffer.getNumSamples
  cases buffer with
  | nil => exact le_refl 0
  | cons c _ => exact Int.natCast_nonneg _

/-- A sequence of blocks keeps the buffer size, a write position inside the
buffer and the bound on the slots, and all outputs are within `20 * M`. -/
theorem runBlocks_invariant (M : ℚ) (hM : 0 ≤ M) (blocks : List AudioBuffer) (d : Delay)
    (hL : 0 < d.delayBufferSize) (hw0 : 0 ≤ d.delayWritePosition)
    (hw : d.delayWritePosition < d.delayBufferSize) (hb : d.SlotsBounded (20 * M))
    (hx : ∀ buffer ∈ blocks, ∀ channelData ∈ buffer, ∀ x ∈ channelData, |x| ≤ M)
    (hp : BlocksInRange d blocks) :
    (runBlocks d blocks).1.delayBufferSize = d.delayBufferSize ∧
    (runBlocks d blocks).1.SlotsBounded (20 * M) ∧
    (∀ buffer ∈ (runBlocks d blocks).2, ∀ channelData ∈ buffer, ∀ y ∈ channelData,
      |y| ≤ 20 * M) := by
  induction blocks generalizing d with
  | nil => exact ⟨rfl, hb, by simp [runBlocks]⟩
  | cons buffer rest ih =>
    obtain ⟨hp1, hp2⟩ := hp
    obtain ⟨p1, p2, p3⟩ := pollDelayTime_frame d
    have hb2 : d.pollDelayTime.SlotsBounded (20 * M) := by
      intro c i h0 h1
      rw [p3]
      rw [p1] at h1
      exact hb c i h0 h1
    obtain ⟨e1, e2, e3, e4, e5⟩ := processChannels_bounded buffer.getNumSamples
      (getNumSamples_nonneg buffer) M hM buffer d.pollDelayTime 0 (by rw [p1]; exact hL)
      (by rw [p2]; exact hw0) (by rw [p1, p2]; exact hw) hb2
      (hx buffer (List.mem_cons_self _ _)) hp1
    have hsize : (d.processBlockSIMD buffer).1.delayBufferSize = d.delayBufferSize := e1.trans p1
    obtain ⟨f1, f2, f3⟩ := ih (d.processBlockSIMD buffer).1 (by rw [hsize]; exact hL) e2
      (by rw [hsize, ← p1]; exact e3) e4 (fun b hb' => hx b (List.mem_cons_of_mem _ hb')) hp2
    refine ⟨by rw [runBlocks]; exact f1.trans hsize, by rw [runBlocks]; exact f2, ?_⟩
    intro b hb' cd hcd y hy
    rw [runBlocks] at hb'
    rcases List.mem_cons.mp hb' with h | h
    · rw [h] at hcd; exact e5 cd hcd y hy
    · exact f3 b h cd hcd y hy


/-- C12: for a bound `M ≥ 0` and input samples of magnitude at most `M`, if the
delay buffer starts cleared and every pass of the sample loop works with a
feedback in [0, 0.95], a dry/wet mix in [0, 1] and a delay between 0 and the
buffer size (so that both reads are inside the buffer), then after any number of
processed blocks every slot of the delay buffer and every output sample has
magnitude at most `20 * M = M / (1 - 0.95)`. -/
theorem runBlocks_bounded (d : Delay) (M : ℚ) (blocks : List AudioBuffer) (hM : 0 ≤ M)
    (hL : 0 < d.delayBufferSize) (hw0 : 0 ≤ d.delayWritePosition)
    (hw : d.delayWritePosition < d.delayBufferSize)
    (hclear : ∀ (channel : Nat) (i : Int), 0 ≤ i → i < d.delayBufferSize →
      d.delayBuffer channel i = 0)
    (hin : ∀ buffer ∈ blocks, ∀ channelData ∈ buffer, ∀ x ∈ channelData, |x| ≤ M)
    (hrange : BlocksInRange d blocks) :
    (∀ (channel : Nat) (i : Int), 0 ≤ i → i < d.delayBufferSize →
      |(runBlocks d blocks).1.delayBuffer channel i| ≤ 20 * M) ∧
    (∀ buffer ∈ (runBlocks d blocks).2, ∀ channelData ∈ buffer, ∀ y ∈ channelData,
      |y| ≤ 20 * M) ∧
    20 * M = M / (1 - 19 / 20) := by
  have hb : d.SlotsBounded (20 * M) := by
    intro c i h0 h1
    rw [hclear c i h0 h1, abs_zero]
    linarith
  obtain ⟨h1, h2, h3⟩ := runBlocks_invariant M hM blocks d hL hw0 hw hb hin hrange
  refine ⟨?_, h3, by ring⟩
  intro c i h0 hi
  exact h2 c i h0 (by rw [h1]; exact hi)

/-- With idle smoothers one pass of the sample loop leaves the smoothers, the
sample rate and the buffer size as they are. -/
theorem processSample_of_idle (d : Delay) (channel : Nat) (x : ℚ)
    (h1 : d.delayTimeSmoothed.countdown ≤ 0) (h2 : d.feedbackSmoothed.countdown ≤ 0)
    (h3 : d.dryWetSmoothed.countdown ≤ 0) :
    (d.processSample channel x).1.delayTimeSmoothed = d.delayTimeSmoothed ∧
    (d.processSample channel x).1.feedbackSmoothed = d.feedbackSmoothed ∧
    (d.processSample channel x).1.dryWetSmoothed = d.dryWetSmoothed ∧
    (d.processSample channel x).1.sampleRate = d.sampleRate ∧
    (d.processSample channel x).1.delayBufferSize = d.delayBufferSize := by
  unfold processSample
  simp [SmoothedValue.getNextValue_of_idle, h1, h2, h3]

/-- With idle smoothers whose values are in range, every pass of the sample loop
over a channel works with values in range. -/
theorem samplesInRange_of_idle (channel : Nat) (xs : List ℚ) (d : Delay)
    (h1 : d.delayTimeSmoothed.countdown ≤ 0) (h2 : d.feedbackSmoothed.countdown ≤ 0)
    (h3 : d.dryWetSmoothed.countdown ≤ 0) (hp : d.nextParams.InRange d.delayBufferSize) :
    SamplesInRange channel d xs ∧
    (processSamples channel d xs).1.delayTimeSmoothed = d.delayTimeSmoothed ∧
    (processSamples channel d xs).1.feedbackSmoothed = d.feedbackSmoothed ∧
    (processSamples channel d xs).1.dryWetSmoothed = d.dryWetSmoothed ∧
    (processSamples channel d xs).1.sampleRate = d.sampleRate ∧
    (processSamples channel d xs).1.delayBufferSize = d.delayBufferSize := by
  induction xs generalizing d with
  | nil => exact ⟨trivial, rfl, rfl, rfl, rfl, rfl⟩
  | cons x rest ih =>
    obtain ⟨e1, e2, e3, e4, e5⟩ := processSample_of_idle d channel x h1 h2 h3
    have hp2 : (d.processSample channel x).1.nextParams.InRange
        (d.processSample channel x).1.delayBufferSize := by
      unfold nextParams
      rw [e1, e2, e3, e4, e5]
      exact hp
    obtain ⟨f0, f1, f2, f3, f4, f5⟩ := ih (d.processSample channel x).1 (by rw [e1]; exact h1)
      (by rw [e2]; exact h2) (by rw [e3]; exact h3) hp2
    rw [processSamples]
    exact ⟨⟨hp, f0⟩, f1.trans e1, f2.trans e2, f3.trans e3, f4.trans e4, f5.trans e5⟩

/-- With idle smoothers whose values are in range, every pass of the sample loop
over all channels works with values in range. -/
theorem channelsInRange_of_idle (numSamples : Int) (chans : List (List ℚ)) (d : Delay)
    (channel : Nat)
    (h1 : d.delayTimeSmoothed.countdown ≤ 0) (h2 : d.feedbackSmoothed.countdown ≤ 0)
    (h3 : d.dryWetSmoothed.countdown ≤ 0) (hp : d.nextParams.InRange d.delayBufferSize) :
    ChannelsInRange numSamples d channel chans := by
  induction chans generalizing d channel with
  | nil => trivial
  | cons channelData rest ih =>
    obtain ⟨f0, f1, f2, f3, f4, f5⟩ := samplesInRange_of_idle channel channelData d h1 h2 h3 hp
    refine ⟨f0, ih _ (channel + 1) ?_ ?_ ?_ ?_⟩
    · show (processSamples channel d channelData).1.delayTimeSmoothed.countdown ≤ 0
      rw [f1]; exact h1
    · show (processSamples channel d channelData).1.feedbackSmoothed.countdown ≤ 0
      rw [f2]; exact h2
    · show (processSamples channel d channelData).1.dryWetSmoothed.countdown ≤ 0
      rw [f3]; exact h3
    · have : ((processSamples channel d channelData).1.advanceWritePosition numSamples).nextParams
          = d.nextParams := by
        show (⟨_, _, _⟩ : SampleParams) = ⟨_, _, _⟩
        simp only [advanceWritePosition, f1, f2, f3, f4]
      rw [this]
      exact (show ((processSamples channel d channelData).1.advanceWritePosition
        numSamples).delayBufferSize = d.delayBufferSize from f5) ▸ hp

end Delay



namespace Delay

/-- On the prepared delay every pass of the sample loop over the stereo block
works with values in range. -/
theorem preparedDelay_inRange : BlocksInRange preparedDelay [stereoBlock] := by
  obtain ⟨hL, hw, hsr, _, hms, hpar, hdt, hfb, hdw, hbuf⟩ := preparedDelay_state
  have hpoll : preparedDelay.pollDelayTime = preparedDelay := by
    unfold Delay.pollDelayTime
    simp [hms, hpar]
  refine ⟨?_, trivial⟩
  rw [hpoll]
  apply channelsInRange_of_idle
  · rw [hdt]
  · rw [hfb]
  · rw [hdw]
  · rw [preparedDelay_nextParams, hL]
    unfold SampleParams.InRange
    norm_num

/-- Witness of C12: the prepared delay, the stereo block with samples 1 and 2,
and the bound `M = 2`. -/
theorem runBlocks_bounded_witness :
    BlocksInRange preparedDelay [stereoBlock] ∧
    (∀ (channel : Nat) (i : Int), 0 ≤ i → i < preparedDelay.delayBufferSize →
      |(runBlocks preparedDelay [stereoBlock]).1.delayBuffer channel i| ≤ 20 * 2) ∧
    (∀ buffer ∈ (runBlocks preparedDelay [stereoBlock]).2, ∀ channelData ∈ buffer,
      ∀ y ∈ channelData, |y| ≤ 20 * 2) := by
  obtain ⟨hL, hw, _, _, _, _, _, _, _, hbuf⟩ := preparedDelay_state
  have h := runBlocks_bounded preparedDelay 2 [stereoBlock] (by norm_num)
    (by rw [hL]; decide) (by rw [hw]) (by rw [hw, hL]; decide)
    (fun c i _ _ => by rw [hbuf])
    (by
      intro b hb cd hcd x hx
      simp only [List.mem_singleton] at hb
      subst hb
      simp only [stereoBlock, List.mem_cons, List.mem_singleton, List.not_mem_nil, or_false,
        or_self] at hcd
      subst hcd
      simp only [List.mem_cons, List.mem_singleton, List.not_mem_nil, or_false] at hx
      rcases hx with rfl | rfl <;> norm_num)
    preparedDelay_inRange
  exact ⟨preparedDelay_inRange, h.1, h.2.1⟩

end Delay

/-! ## Effects: write position of the delay, and what the block processing reads -/

/-- The prepared delay in closed form. -/
theorem preparedDelay_eq :
    preparedDelay.pollDelayTime = preparedDelay ∧
    preparedDelay.delayBufferSize = 88712 ∧ preparedDelay.delayWritePosition = 0 ∧
    preparedDelay.sampleRate = 44100 ∧
    preparedDelay.delayTimeSmoothed.getNextValue = (preparedDelay.delayTimeSmoothed, 500) ∧
    preparedDelay.feedbackSmoothed.getNextValue = (preparedDelay.feedbackSmoothed, 1 / 2) ∧
    preparedDelay.dryWetSmoothed.getNextValue = (preparedDelay.dryWetSmoothed, 3 / 10) ∧
    preparedDelay.delayBuffer = (fun _ _ => 0) := by
  obtain ⟨hL, hw, hsr, _, hms, hpar, hdt, hfb, hdw, hbuf⟩ := preparedDelay_state
  refine ⟨?_, hL, hw, hsr, ?_, ?_, ?_, hbuf⟩
  · unfold Delay.pollDelayTime
    simp [hms, hpar]
  · rw [SmoothedValue.getNextValue_of_idle _ (by rw [hdt]), hdt]
  · rw [SmoothedValue.getNextValue_of_idle _ (by rw [hfb]), hfb]
  · rw [SmoothedValue.getNextValue_of_idle _ (by rw [hdw]), hdw]

/-- C18 fails on the prepared delay (buffer length 88712, write position 0)
and a stereo block of two samples per channel: both samples of channel 0 are
written to slot 0, which ends up holding the second sample, and slot 1 is never
written; channel 1 writes to slot 2 instead of slots 0 and 1; and the write
position after the block is 4, not 2. -/
theorem processBlockSIMD_write_position :
    preparedDelay.delayBufferSize = 88712 ∧ preparedDelay.delayWritePosition = 0 ∧
    stereoBlock = [[1, 2], [1, 2]] ∧
    (preparedDelay.processBlockSIMD stereoBlock).1.delayBuffer 0 0 = 2 ∧
    (preparedDelay.processBlockSIMD stereoBlock).1.delayBuffer 0 1 = 0 ∧
    (preparedDelay.processBlockSIMD stereoBlock).1.delayBuffer 1 2 = 2 ∧
    (preparedDelay.processBlockSIMD stereoBlock).1.delayBuffer 1 0 = 0 ∧
    (preparedDelay.processBlockSIMD stereoBlock).1.delayWritePosition = 4 := by
  obtain ⟨hpoll, hL, hw, hsr, hdt, hfb, hdw, hbuf⟩ := preparedDelay_eq
  have ht : truncToInt (500 / 1000 * 44100 : ℚ) = 22050 := by
    unfold truncToInt
    rw [if_pos (by norm_num), Int.floor_eq_iff]
    norm_num
  have hfl : ⌊(500 / 1000 * 44100 : ℚ)⌋ = 22050 := by
    rw [Int.floor_eq_iff]; norm_num
  have t1 : Int.tmod 2 88712 = 2 := by decide
  have t2 : Int.tmod 66663 88712 = 66663 := by decide
  have t3 : Int.tmod 66665 88712 = 66665 := by decide
  have t4 : Int.tmod 4 88712 = 4 := by decide
  refine ⟨hL, hw, rfl, ?_, ?_, ?_, ?_, ?_⟩ <;>
    simp [Delay.processBlockSIMD, hpoll, stereoBlock, AudioBuffer.getNumSamples,
      Delay.processChannels, Delay.processSamples, Delay.processSample, Delay.nextParams,
      Delay.advanceWritePosition, sampleStep, delayedSample, readPosition, readPosition2,
      delayFraction, hL, hw, hsr, hdt, hfb, hdw, hbuf, ht, hfl, Function.update, t1, t2, t3, t4]


namespace Delay

/-- The sample loop body does not read the atomic slots. -/
theorem processSample_parameters (d : Delay) (p : DelayParameters) (channel : Nat) (x : ℚ) :
    ({ d with parameters := p } : Delay).processSample channel x =
      ({ (d.processSample channel x).1 with parameters := p }, (d.processSample channel x).2) :=
  rfl

/-- The sample loop does not read the atomic slots. -/
theorem processSamples_parameters (p : DelayParameters) (channel : Nat) (xs : List ℚ) (d : Delay) :
    processSamples channel ({ d with parameters := p } : Delay) xs =
      ({ (processSamples channel d xs).1 with parameters := p },
        (processSamples channel d xs).2) := by
  induction xs generalizing d with
  | nil => rfl
  | cons x rest ih =>
    rw [processSamples, processSample_parameters, ih, processSamples]

/-- The channel loop does not read the atomic slots. -/
theorem processChannels_parameters (p : DelayParameters) (numSamples : Int)
    (chans : List (List ℚ)) (d : Delay) (channel : Nat) :
    processChannels numSamples ({ d with parameters := p } : Delay) channel chans =
      ({ (processChannels numSamples d channel chans).1 with parameters := p },
        (processChannels numSamples d channel chans).2) := by
  induction chans generalizing d channel with
  | nil => rfl
  | cons channelData rest ih =>
    rw [processChannels, processSamples_parameters]
    have : (({ (processSamples channel d channelData).1 with parameters := p } : Delay)
        ).advanceWritePosition numSamples =
        { (processSamples channel d channelData).1.advanceWritePosition numSamples with
          parameters := p } := rfl
    simp only [this, ih]
    rw [processChannels]

/-- The block processing reads the delay-time slot only: with that slot equal,
other slot contents give the same output and the same state up to the slots. -/
theorem processBlockSIMD_parameters (d : Delay) (p : DelayParameters) (buffer : AudioBuffer)
    (h : p.DelayTimeParam = d.parameters.DelayTimeParam) :
    ({ d with parameters := p } : Delay).processBlockSIMD buffer =
      ({ (d.processBlockSIMD buffer).1 with parameters := p }, (d.processBlockSIMD buffer).2) := by
  have hpoll : ({ d with parameters := p } : Delay).pollDelayTime =
      { d.pollDelayTime with parameters := p } := by
    unfold pollDelayTime updateParameters
    simp only [h]
    split_ifs <;> rfl
  unfold processBlockSIMD
  rw [hpoll, processChannels_parameters]

end Delay

/-- C17, as stated, fails on the prepared delay: `setDryWet 1` writes the cached field
`dryWetMix` and starts a ramp on the smoother `dryWetSmoothed`, both non-atomic.
The block processing never reads the dry/wet slot: with only the slot changed
the output is the old one (0.7 for the sample 1), with only the smoother changed
and the slots as before the output is the new one (1102/1575). -/
theorem setDryWet_reaches_block_through_smoother :
    preparedDelay.isPrepared = true ∧
    preparedDelay.dryWetMix = 3 / 10 ∧ (preparedDelay.setDryWet 1).dryWetMix = 1 ∧
    preparedDelay.dryWetSmoothed.target = 3 / 10 ∧
    (preparedDelay.setDryWet 1).dryWetSmoothed.target = 1 ∧
    (preparedDelay.setDryWet 1).dryWetSmoothed.countdown = 2205 ∧
    (preparedDelay.processBlockSIMD [[1]]).2 = [[7 / 10]] ∧
    (slotOnlyDelay.processBlockSIMD [[1]]).2 = [[7 / 10]] ∧
    (smootherOnlyDelay.processBlockSIMD [[1]]).2 = [[1102 / 1575]] := by
  obtain ⟨hL, hw, hsr, hprep, hms, hpar, hdt, hfb, hdw, hbuf⟩ := preparedDelay_state
  obtain ⟨hpoll, _, _, _, gdt, gfb, gdw, _⟩ := preparedDelay_eq
  have hmix : preparedDelay.dryWetMix = 3 / 10 := by
    simp [preparedDelay, Delay.prepareToPlay, Delay.baseprepareToPlay, Delay.init,
      Delay.updateParameters]
  have hsm : (preparedDelay.setDryWet 1).dryWetSmoothed = ⟨3 / 10, 1, 1 / 3150, 2205, 2205⟩ := by
    unfold Delay.setDryWet
    simp [hprep, jlimit, hdw, SmoothedValue.setTargetValue]
    norm_num
  have hmix1 : (preparedDelay.setDryWet 1).dryWetMix = 1 :=
    (Delay.setDryWet_stored preparedDelay 1).1.trans (by norm_num [jlimit])
  have hframe : (preparedDelay.setDryWet 1).delayTimeMs = preparedDelay.delayTimeMs ∧
      (preparedDelay.setDryWet 1).parameters.DelayTimeParam =
        preparedDelay.parameters.DelayTimeParam ∧
      (preparedDelay.setDryWet 1).delayBuffer = preparedDelay.delayBuffer ∧
      (preparedDelay.setDryWet 1).delayTimeSmoothed = preparedDelay.delayTimeSmoothed ∧
      (preparedDelay.setDryWet 1).feedbackSmoothed = preparedDelay.feedbackSmoothed ∧
      (preparedDelay.setDryWet 1).sampleRate = preparedDelay.sampleRate ∧
      (preparedDelay.setDryWet 1).delayWritePosition = preparedDelay.delayWritePosition ∧
      (preparedDelay.setDryWet 1).delayBufferSize = preparedDelay.delayBufferSize := by
    unfold Delay.setDryWet
    simp [hprep]
  obtain ⟨k1, k2, k3, k4, k5, k6, k7, k8⟩ := hframe
  have hblock : (preparedDelay.processBlockSIMD [[1]]).2 = [[7 / 10]] := by
    simp [Delay.processBlockSIMD, hpoll, Delay.processChannels, Delay.processSamples,
      Delay.processSample, Delay.nextParams, sampleStep, delayedSample, hbuf, gdw]
    norm_num
  refine ⟨hprep, hmix, hmix1, ?_, ?_, ?_, hblock, ?_, ?_⟩
  · rw [hdw]
  · rw [hsm]
  · rw [hsm]
  · have e : slotOnlyDelay.processBlockSIMD [[1]] = _ :=
      Delay.processBlockSIMD_parameters preparedDelay
        { preparedDelay.parameters with DryWetParam := 1 } [[1]] rfl
    rw [e]
    exact hblock
  · have e : smootherOnlyDelay.processBlockSIMD [[1]] = _ :=
      Delay.processBlockSIMD_parameters (preparedDelay.setDryWet 1) preparedDelay.parameters
        [[1]] k2.symm
    rw [e]
    have hpoll2 : (preparedDelay.setDryWet 1).pollDelayTime = preparedDelay.setDryWet 1 := by
      unfold Delay.pollDelayTime
      simp [k1, k2, hms, hpar]
    simp [Delay.processBlockSIMD, hpoll2, Delay.processChannels, Delay.processSamples,
      Delay.processSample, Delay.nextParams, sampleStep, delayedSample, k3, hbuf, hsm,
      SmoothedValue.getNextValue, SmoothedValue.isSmoothing]
    norm_num

/-! ## Effects: what the setters write -/

/-- C17 (amended): every Delay and Reverb setter publishes the clamped value in
the atomic parameter slot and also writes non-atomic state: the cached field
always and, when the node is prepared, the target of the parameter's smoother
(`setDelayTime` also recomputes `delaySamples`, the Reverb setters also rewrite
`reverbParams` and hand them to the reverb); the sample loop of
`Delay::processBlockSIMD` works with the values of these smoothers. -/
theorem setters_write_smoothers (d : Delay) (r : Reverb) (x : ℚ) (channel : Nat) (y : ℚ) :
    ((d.setDelayTime x).parameters.DelayTimeParam = jlimit 10 MAX_DELAY_TIME_MS x ∧
      (d.setDelayTime x).delayTimeMs = jlimit 10 MAX_DELAY_TIME_MS x ∧
      (d.isPrepared = true →
        (d.setDelayTime x).delayTimeSmoothed =
          d.delayTimeSmoothed.setTargetValue (jlimit 10 MAX_DELAY_TIME_MS x) ∧
        (d.sampleRate > 0 → (d.setDelayTime x).delaySamples =
          truncToInt ((jlimit 10 MAX_DELAY_TIME_MS x / 1000) * d.sampleRate)))) ∧
    ((d.setFeedback x).parameters.FeedbackParam = jlimit 0 (19 / 20) x ∧
      (d.setFeedback x).feedbackAmount = jlimit 0 (19 / 20) x ∧
      (d.isPrepared = true →
        (d.setFeedback x).feedbackSmoothed =
          d.feedbackSmoothed.setTargetValue (jlimit 0 (19 / 20) x))) ∧
    ((d.setDryWet x).parameters.DryWetParam = jlimit 0 1 x ∧
      (d.setDryWet x).dryWetMix = jlimit 0 1 x ∧
      (d.isPrepared = true →
        (d.setDryWet x).dryWetSmoothed = d.dryWetSmoothed.setTargetValue (jlimit 0 1 x))) ∧
    ((r.setRoomSize x).parameters.RoomSizeParam = jlimit 0 1 x ∧
      (r.setRoomSize x).roomSize = jlimit 0 1 x ∧
      (r.isPrepared = true →
        (r.setRoomSize x).roomSizeSmoothed = r.roomSizeSmoothed.setTargetValue (jlimit 0 1 x) ∧
        (r.setRoomSize x).reverb.roomSize = jlimit 0 1 x)) ∧
    ((r.setDamping x).parameters.DampingParam = jlimit 0 1 x ∧
      (r.setDamping x).dampingAmount = jlimit 0 1 x ∧
      (r.isPrepared = true →
        (r.setDamping x).dampingSmoothed = r.dampingSmoothed.setTargetValue (jlimit 0 1 x) ∧
        (r.setDamping x).reverb.damping = jlimit 0 1 x)) ∧
    ((r.setWidth x).parameters.WidthParam = jlimit 0 1 x ∧
      (r.setWidth x).stereoWidth = jlimit 0 1 x ∧
      (r.isPrepared = true →
        (r.setWidth x).widthSmoothed = r.widthSmoothed.setTargetValue (jlimit 0 1 x) ∧
        (r.setWidth x).reverb.width = jlimit 0 1 x)) ∧
    ((r.setDryWet x).parameters.DryWetParam = jlimit 0 1 x ∧
      (r.setDryWet x).dryWetMix = jlimit 0 1 x ∧
      (r.isPrepared = true →
        (r.setDryWet x).dryWetSmoothed = r.dryWetSmoothed.setTargetValue (jlimit 0 1 x) ∧
        (r.setDryWet x).reverb.wetLevel = jlimit 0 1 x)) ∧
    (d.processSample channel y).2 =
      (sampleStep (d.delayBuffer channel) d.delayWritePosition d.delayBufferSize y
        ⟨(d.delayTimeSmoothed.getNextValue.2 / 1000) * d.sampleRate,
          d.feedbackSmoothed.getNextValue.2, d.dryWetSmoothed.getNextValue.2⟩).2 := by
  refine ⟨⟨(Delay.setDelayTime_stored d x).2, (Delay.setDelayTime_stored d x).1, ?_⟩,
    ⟨?_, ?_, ?_⟩, ⟨(Delay.setDryWet_stored d x).2, (Delay.setDryWet_stored d x).1, ?_⟩,
    ⟨(Reverb.setRoomSize_stored r x).2, (Reverb.setRoomSize_stored r x).1, ?_⟩,
    ⟨(Reverb.setDamping_stored r x).2, (Reverb.setDamping_stored r x).1, ?_⟩,
    ⟨(Reverb.setWidth_stored r x).2, (Reverb.setWidth_stored r x).1, ?_⟩,
    ⟨(Reverb.reverbDryWet_stored r x).2, (Reverb.reverbDryWet_stored r x).1, ?_⟩, rfl⟩
  · intro hp
    refine ⟨?_, ?_⟩
    · unfold Delay.setDelayTime Delay.updateParameters
      simp only [hp, if_true]
      split_ifs <;> rfl
    · intro hs
      unfold Delay.setDelayTime Delay.updateParameters
      simp only [hp, if_true]
      rw [if_pos hs]
  · unfold Delay.setFeedback; dsimp only; split_ifs <;> rfl
  · unfold Delay.setFeedback; dsimp only; split_ifs <;> rfl
  · intro hp
    unfold Delay.setFeedback
    simp only [hp, if_true]
  · intro hp
    unfold Delay.setDryWet
    simp only [hp, if_true]
  · intro hp
    unfold Reverb.setRoomSize Reverb.updateParameters
    simp [hp]
  · intro hp
    unfold Reverb.setDamping Reverb.updateParameters
    simp [hp]
  · intro hp
    unfold Reverb.setWidth Reverb.updateParameters
    simp [hp]
  · intro hp
    unfold Reverb.setDryWet Reverb.updateParameters
    simp [hp]


/-- Witness of C17 (amended): on the prepared delay `setFeedback 0.9` sets the
target of the feedback smoother, and on the prepared reverb `setRoomSize 0.9`
sets the target of the room-size smoother. -/
theorem setters_write_smoothers_witness :
    preparedDelay.isPrepared = true ∧ preparedReverb.isPrepared = true ∧
    (preparedDelay.setFeedback (9 / 10)).feedbackSmoothed =
      preparedDelay.feedbackSmoothed.setTargetValue (jlimit 0 (19 / 20) (9 / 10)) ∧
    (preparedDelay.setDryWet (9 / 10)).dryWetSmoothed =
      preparedDelay.dryWetSmoothed.setTargetValue (jlimit 0 1 (9 / 10)) ∧
    (preparedReverb.setRoomSize (9 / 10)).roomSizeSmoothed =
      preparedReverb.roomSizeSmoothed.setTargetValue (jlimit 0 1 (9 / 10)) :=
  have h1 : preparedDelay.isPrepared = true := preparedDelay_state.2.2.2.1
  have h2 : preparedReverb.isPrepared = true := by
    simp [preparedReverb, Reverb.prepareToPlay, Reverb.baseprepareToPlay, Reverb.updateParameters]
  ⟨h1, h2,
    (setters_write_smoothers preparedDelay preparedReverb (9 / 10) 0 0).2.1.2.2 h1,
    (setters_write_smoothers preparedDelay preparedReverb (9 / 10) 0 0).2.2.1.2.2 h1,
    ((setters_write_smoothers preparedDelay preparedReverb (9 / 10) 0 0).2.2.2.1.2.2 h2).1⟩

namespace Sequencer

/-! ## Registration of active notes -/

/-- C21 fails in the code: in the window [4, 5) the note starting at beat 4 with
duration 1 is registered with start 8 and end 9, not 4 and 5, the window start
being added to a start time that already counts from beat 0; at the end of the
window the time has reached 4 + 1 = 5, yet no note-off is emitted and the note
stays active: its note-off is due only once the time reaches 9, four beats late. -/
theorem generateEvents_registers_shifted_note :
    laterNoteExample.timeline = some laterNoteTimeline ∧
    laterNoteTimeline.getNotesInRange 4 5 = [⟨60, 100, 4, 1⟩] ∧
    (laterNoteExample.generateEvents 4 5 []).1.activeNotes = [⟨60, 100, 8, 9⟩] ∧
    (laterNoteExample.generateEvents 4 5 []).2 = [⟨MidiMessage.noteOn 1 60 (100 / 127), 88200⟩] ∧
    isDue 5 (registeredNote 4 ⟨60, 100, 4, 1⟩) = false ∧
    (registeredNote 4 ⟨60, 100, 4, 1⟩).startTime ≠ 4 ∧
    (registeredNote 4 ⟨60, 100, 4, 1⟩).endTime ≠ 4 + 1 ∧
    (∀ t : ℚ, isDue t (registeredNote 4 ⟨60, 100, 4, 1⟩) = true ↔ 9 ≤ t) := by
  obtain ⟨htl, htempo, hsr, hbs, hpos, hact, hlast⟩ := laterNoteExample_state
  have hn : laterNoteTimeline.getNotesInRange 4 5 = [⟨60, 100, 4, 1⟩] := by
    simp [laterNoteTimeline]
    norm_num
  refine ⟨htl, hn, ?_, ?_, ?_, ?_, ?_, ?_⟩
  rotate_right
  · intro t
    norm_num [isDue, registeredNote]
  · rw [generateEvents_eq _ laterNoteTimeline 4 5 [] htl, hn]
    simp [keptNotes, hact, registeredNote, isDue]
    norm_num
  · rw [generateEvents_eq _ laterNoteTimeline 4 5 [] htl, hn]
    simp [generatedEvents, dueNotes, hact, registeredNote, isDue, noteOnEvent, beatsToSeconds,
      secondsToSamples, htempo, hsr, truncToInt]
    norm_num
  · norm_num [isDue, registeredNote]
  · norm_num [registeredNote]
  · norm_num [registeredNote]

/-- What the code computes: for a window from `a` to `b`, the active note
`generateEvents` registers for a returned note `n` starts at `a + n.startTime` and
ends at `a + n.startTime + n.duration`, so its lifetime is `n.duration`; it is due at time
`t` exactly when `a + n.startTime + n.duration ≤ t`. After the call it is among
the active notes when it is not due at `b`, and otherwise its note-off is among
the emitted events. -/
theorem generateEvents_registers_note (s : Sequencer) (tl : Timeline) (a b : ℚ)
    (buf : MidiBuffer) (htl : s.timeline = some tl) (n : NoteEvent)
    (hn : n ∈ tl.getNotesInRange a b) :
    (registeredNote a n).note = n.note ∧
    (registeredNote a n).startTime = a + n.startTime ∧
    (registeredNote a n).endTime = a + n.startTime + n.duration ∧
    (registeredNote a n).endTime - (registeredNote a n).startTime = n.duration ∧
    (∀ t : ℚ, isDue t (registeredNote a n) = true ↔ a + n.startTime + n.duration ≤ t) ∧
    (b < a + n.startTime + n.duration →
      registeredNote a n ∈ (s.generateEvents a b buf).1.activeNotes) ∧
    (a + n.startTime + n.duration ≤ b →
      registeredNote a n ∉ (s.generateEvents a b buf).1.activeNotes ∧
      noteOffEvent s (registeredNote a n) ∈ (s.generateEvents a b buf).2) := by
  rw [generateEvents_eq s tl a b buf htl]
  have hreg : registeredNote a n ∈ s.activeNotes ++ (tl.getNotesInRange a b).map (registeredNote a) :=
    List.mem_append_right _ (List.mem_map_of_mem _ hn)
  refine ⟨rfl, rfl, rfl, ?_, ?_, ?_, ?_⟩
  · simp [registeredNote]
  · intro t
    simp [isDue, registeredNote]
  · intro hlt
    simp only [keptNotes, List.mem_filter]
    refine ⟨hreg, ?_⟩
    simp [isDue, registeredNote, hlt]
  · intro hle
    have hdue : isDue b (registeredNote a n) = true := by
      simp [isDue, registeredNote, hle]
    constructor
    · simp only [keptNotes, List.mem_filter, not_and]
      intro _
      simp [hdue]
    · simp only [generatedEvents, dueNotes]
      apply List.mem_append_right
      apply List.mem_append_right
      exact List.mem_map_of_mem _ (List.mem_filter.mpr ⟨hreg, hdue⟩)

/-- Example: the note at beat 4 returned for the window [4, 5) is
registered from beat 8 to beat 9 and is still active after the call. -/
theorem generateEvents_registers_note_witness :
    laterNoteExample.timeline = some laterNoteTimeline ∧
    (⟨60, 100, 4, 1⟩ : NoteEvent) ∈ laterNoteTimeline.getNotesInRange 4 5 ∧
    (registeredNote 4 ⟨60, 100, 4, 1⟩).startTime = 4 + 4 ∧
    (registeredNote 4 ⟨60, 100, 4, 1⟩).endTime = 4 + 4 + 1 ∧
    registeredNote 4 ⟨60, 100, 4, 1⟩ ∈ (laterNoteExample.generateEvents 4 5 []).1.activeNotes := by
  have htl := laterNoteExample_state.1
  have hn : (⟨60, 100, 4, 1⟩ : NoteEvent) ∈ laterNoteTimeline.getNotesInRange 4 5 := by
    simp [laterNoteTimeline]
    norm_num
  have h := generateEvents_registers_note laterNoteExample laterNoteTimeline 4 5 [] htl
    ⟨60, 100, 4, 1⟩ hn
  exact ⟨htl, hn, h.2.1, h.2.2.1, h.2.2.2.2.2.1 (by norm_num)⟩

end Sequencer

namespace Sequencer

/-! ## Note-offs of the active notes -/

/-- C22: `checkNoteOffs t` keeps exactly the active notes with `t < endTime`, in
their original order, and appends to the buffer one note-off per removed note
(those with `endTime ≤ t`), in order, carrying the note's pitch at the sample
offset `trunc (beatsToSeconds (endTime - lastEventPosition) * sampleRate)`. -/
theorem checkNoteOffs_removes_due (s : Sequencer) (t : ℚ) (buf : MidiBuffer) :
    (s.checkNoteOffs t buf).1.activeNotes = s.activeNotes.filter (fun n => decide (t < n.endTime)) ∧
    (s.checkNoteOffs t buf).2 =
      buf ++ (s.activeNotes.filter (fun n => decide (n.endTime ≤ t))).map
        (fun n => ⟨MidiMessage.noteOff 1 n.note,
          truncToInt (s.beatsToSeconds (n.endTime - s.lastEventPosition) * s.currentSampleRate)⟩) ∧
    (∀ n : ActiveNote,
      n ∈ (s.checkNoteOffs t buf).1.activeNotes ↔ n ∈ s.activeNotes ∧ t < n.endTime) ∧
    List.Sublist (s.checkNoteOffs t buf).1.activeNotes s.activeNotes ∧
    ((s.checkNoteOffs t buf).2.length : Int) =
      buf.length + (s.activeNotes.length - (s.checkNoteOffs t buf).1.activeNotes.length) := by
  have hkept : (s.checkNoteOffs t buf).1.activeNotes =
      s.activeNotes.filter (fun n => decide (t < n.endTime)) := by
    simp only [checkNoteOffs, checkNoteOffsLoop_eq]
    apply List.filter_congr
    intro n _
    by_cases hle : n.endTime ≤ t
    · simp [isDue, hle, not_lt.mpr hle]
    · simp [isDue, hle, not_le.mp hle]
  have hbuf : (s.checkNoteOffs t buf).2 =
      buf ++ (s.activeNotes.filter (fun n => decide (n.endTime ≤ t))).map
        (fun n => ⟨MidiMessage.noteOff 1 n.note,
          truncToInt (s.beatsToSeconds (n.endTime - s.lastEventPosition) * s.currentSampleRate)⟩) := by
    simp only [checkNoteOffs, checkNoteOffsLoop_eq]
    rfl
  refine ⟨hkept, hbuf, ?_, ?_, ?_⟩
  · intro n
    rw [hkept]
    simp [List.mem_filter]
  · rw [hkept]
    exact List.filter_sublist _
  · rw [hkept, hbuf]
    have hlen := List.length_eq_length_filter_add (l := s.activeNotes)
      (fun n => decide (n.endTime ≤ t))
    have hsame : s.activeNotes.filter (fun n => !decide (n.endTime ≤ t)) =
        s.activeNotes.filter (fun n => decide (t < n.endTime)) := by
      apply List.filter_congr
      intro n _
      by_cases hle : n.endTime ≤ t
      · simp [hle, not_lt.mpr hle]
      · simp [hle, not_le.mp hle]
    rw [hsame] at hlen
    simp only [List.length_append, List.length_map]
    push_cast
    omega

/-- Witness of C22: of three active notes ending at beats 1, 3 and 1, the call at
time 1 removes the first and the third, emits their note-offs at sample 22050 and
keeps the second. -/
theorem checkNoteOffs_removes_due_witness :
    (twoActiveExample.checkNoteOffs 1 []).1.activeNotes = [⟨62, 100, 0, 3⟩] ∧
    (twoActiveExample.checkNoteOffs 1 []).2 =
      [⟨MidiMessage.noteOff 1 60, 22050⟩, ⟨MidiMessage.noteOff 1 64, 22050⟩] := by
  have h := checkNoteOffs_removes_due twoActiveExample 1 []
  have hf : ⌊(22050 : ℚ)⌋ = 22050 := by
    rw [Int.floor_eq_iff]; norm_num
  constructor
  · rw [h.1]
    norm_num [twoActiveExample, Sequencer.init]
  · rw [h.2.1]
    simp [twoActiveExample, Sequencer.init, beatsToSeconds, truncToInt]
    norm_num [hf]

end Sequencer

/-! ## Parameter notifications of a window -/

/-- The parameter notifications of two traces, one after the other. -/
theorem parameterCallbacks_append (xs ys : List Effect) :
    parameterCallbacks (xs ++ ys) = parameterCallbacks xs ++ parameterCallbacks ys := by
  simp [parameterCallbacks, List.filterMap_append]

/-- The calls before the parameter notifications hold no parameter notification. -/
theorem parameterCallbacks_noteEffects (s : Sequencer) (a b : ℚ) (notes : List NoteEvent) :
    parameterCallbacks (noteEffects s a b notes) = [] := by
  unfold noteEffects
  cases s.noteEventCallback <;>
    simp [parameterCallbacks, List.filterMap_append, List.filterMap_map, noteOffCallback,
      Function.comp_def]

/-- A run of parameter notifications, read back. -/
theorem parameterCallbacks_map (params : List String) (value : String → ℚ) :
    parameterCallbacks (params.map (fun paramId => Effect.parameterCallback paramId (value paramId))) =
      params.map (fun paramId => (paramId, value paramId)) := by
  induction params with
  | nil => rfl
  | cons p rest ih =>
    simp only [List.map_cons]
    rw [← ih]
    rfl

namespace Sequencer

/-- C23: with a timeline and a parameter listener set, one call of `generateEvents`
for the window from `a` to `b` makes its collaborator calls in this order: the
timeline query and the listener calls of the note-ons and note-offs, then one
parameter notification per automated parameter of the timeline (none when the
timeline object has no inner timeline to ask), each with the parameter's value at
`b`; the MIDI events of the window are the note-ons followed by the note-offs;
afterwards the last-event boundary is `b`. -/
theorem generateEvents_parameter_notifications (s : Sequencer) (tl : Timeline) (a b : ℚ)
    (buf : MidiBuffer) (htl : s.timeline = some tl) (hcb : s.parameterCallback = true) :
    (s.generateEvents a b buf).1.effects =
      s.effects ++ noteEffects s a b (tl.getNotesInRange a b) ++
        (if tl.hasTimeline then
          tl.getAutomatedParameters.map
            (fun paramId => Effect.parameterCallback paramId (tl.getParameterValueAtTime paramId b))
        else []) ∧
    parameterCallbacks (noteEffects s a b (tl.getNotesInRange a b)) = [] ∧
    parameterCallbacks (s.generateEvents a b buf).1.effects =
      parameterCallbacks s.effects ++
        (if tl.hasTimeline then
          tl.getAutomatedParameters.map (fun paramId => (paramId, tl.getParameterValueAtTime paramId b))
        else []) ∧
    (s.generateEvents a b buf).2 = buf ++ generatedEvents s a b (tl.getNotesInRange a b) ∧
    (s.generateEvents a b buf).1.lastEventPosition = b := by
  have heff : (s.generateEvents a b buf).1.effects =
      s.effects ++ noteEffects s a b (tl.getNotesInRange a b) ++
        (if tl.hasTimeline then
          tl.getAutomatedParameters.map
            (fun paramId => Effect.parameterCallback paramId (tl.getParameterValueAtTime paramId b))
        else []) := by
    rw [generateEvents_eq s tl a b buf htl]
    simp only [generatedEffects, noteEffects, parameterEffects, htl, hcb, Bool.true_and,
      List.append_assoc]
  refine ⟨heff, parameterCallbacks_noteEffects _ _ _ _, ?_, ?_, ?_⟩
  · rw [heff, parameterCallbacks_append, parameterCallbacks_append,
      parameterCallbacks_noteEffects, List.append_nil]
    cases tl.hasTimeline
    · simp [parameterCallbacks]
    · simp only [if_true]
      rw [parameterCallbacks_map tl.getAutomatedParameters (fun p => tl.getParameterValueAtTime p b)]
  · rw [generateEvents_eq s tl a b buf htl]
  · rw [generateEvents_eq s tl a b buf htl]

/-- The automated example, evaluated. -/
theorem automatedExample_state :
    automatedExample.timeline = some automatedTimeline ∧
    automatedExample.parameterCallback = true ∧ automatedExample.noteEventCallback = true ∧
    automatedExample.activeNotes = [] ∧
    automatedExample.effects = [Effect.startTimer 10] := by
  simp [automatedExample, runOps, Op.apply, setTimeline, setNoteEventCallback,
    setParameterCallback, play, Sequencer.init]

/-- Witness of C23: on the automated example, the window [0, 1) notifies the
parameter listener of "cutoff" = 1 and "resonance" = 1, after the query and the
note callbacks, and moves the boundary to 1. -/
theorem generateEvents_parameter_notifications_witness :
    automatedExample.timeline = some automatedTimeline ∧
    automatedExample.parameterCallback = true ∧
    (automatedExample.generateEvents 0 1 []).1.effects =
      [Effect.startTimer 10, Effect.notesQuery 0 1, Effect.noteCallback ⟨60, 100, 0, 1⟩,
        Effect.noteCallback ⟨60, 0, 1, 0⟩,
        Effect.parameterCallback "cutoff" 1, Effect.parameterCallback "resonance" 1] ∧
    (automatedExample.generateEvents 0 1 []).1.lastEventPosition = 1 := by
  obtain ⟨htl, hcb, hn, hact, heff⟩ := automatedExample_state
  have h := generateEvents_parameter_notifications automatedExample automatedTimeline 0 1 []
    htl hcb
  refine ⟨htl, hcb, ?_, h.2.2.2.2⟩
  rw [h.1, heff]
  simp [noteEffects, dueNotes, hn, hact, automatedTimeline, registeredNote, isDue,
    noteOffCallback]

end Sequencer

/-! ## Effects: size of the delay buffer -/

namespace Delay

/-- The buffer size exceeds the delay in samples of every delay time up to the
maximum. -/
theorem calculateDelayBufferSize_gt (sampleRate maxDelayMs t : ℚ) (hsr : 0 < sampleRate)
    (ht0 : 0 ≤ t) (ht : t ≤ maxDelayMs) :
    t / 1000 * sampleRate < (calculateDelayBufferSize sampleRate maxDelayMs : ℚ) := by
  have hmax : 0 ≤ maxDelayMs / 1000 * sampleRate :=
    mul_nonneg (div_nonneg (le_trans ht0 ht) (by norm_num)) (le_of_lt hsr)
  have hle : t / 1000 * sampleRate ≤ maxDelayMs / 1000 * sampleRate :=
    mul_le_mul_of_nonneg_right (div_le_div_of_nonneg_right ht (by norm_num)) (le_of_lt hsr)
  have hfl := Int.lt_floor_add_one (maxDelayMs / 1000 * sampleRate)
  unfold calculateDelayBufferSize
  dsimp only
  rw [truncToInt_of_nonneg _ hmax]
  push_cast
  linarith

/-- The buffer size is at least the safety margin. -/
theorem calculateDelayBufferSize_ge (sampleRate maxDelayMs : ℚ) (hsr : 0 < sampleRate)
    (hmax : 0 ≤ maxDelayMs) : 512 ≤ calculateDelayBufferSize sampleRate maxDelayMs := by
  have h0 : 0 ≤ maxDelayMs / 1000 * sampleRate :=
    mul_nonneg (div_nonneg hmax (by norm_num)) (le_of_lt hsr)
  unfold calculateDelayBufferSize
  dsimp only
  rw [truncToInt_of_nonneg _ h0]
  have := Int.floor_nonneg.mpr h0
  omega

/-- The buffer size and write position set by `prepareToPlay`. -/
theorem prepareToPlay_buffer (d : Delay) (sampleRate : ℚ) (samplesPerBlock : Int) :
    (d.prepareToPlay sampleRate samplesPerBlock).delayBufferSize =
      calculateDelayBufferSize sampleRate MAX_DELAY_TIME_MS ∧
    (d.prepareToPlay sampleRate samplesPerBlock).delayWritePosition = 0 ∧
    (d.prepareToPlay sampleRate samplesPerBlock).sampleRate = sampleRate := by
  unfold prepareToPlay updateParameters baseprepareToPlay
  dsimp only
  split_ifs <;> exact ⟨rfl, rfl, rfl⟩

end Delay

/-- C24: for a sample rate > 0 and a maximum delay time `maxDelayMs ≥ 0`,
`calculateDelayBufferSize` returns `trunc (maxDelayMs / 1000 * sampleRate) + 512`,
which is positive and strictly greater than the delay in samples of every delay
time in `[0, maxDelayMs]`. After `prepareToPlay` at that sample rate the buffer has
the size computed for `MAX_DELAY_TIME_MS` and the write position 0, and for every
write position inside the buffer and every clamped delay time
(`jlimit 10 MAX_DELAY_TIME_MS x`) both read positions lie inside the buffer. -/
theorem calculateDelayBufferSize_covers (sampleRate maxDelayMs : ℚ) (hsr : 0 < sampleRate)
    (hmax : 0 ≤ maxDelayMs) :
    Delay.calculateDelayBufferSize sampleRate maxDelayMs =
      truncToInt (maxDelayMs / 1000 * sampleRate) + 512 ∧
    0 < Delay.calculateDelayBufferSize sampleRate maxDelayMs ∧
    (∀ t : ℚ, 0 ≤ t → t ≤ maxDelayMs →
      t / 1000 * sampleRate < (Delay.calculateDelayBufferSize sampleRate maxDelayMs : ℚ)) ∧
    (∀ (d : Delay) (samplesPerBlock : Int),
      (d.prepareToPlay sampleRate samplesPerBlock).delayBufferSize =
        Delay.calculateDelayBufferSize sampleRate MAX_DELAY_TIME_MS ∧
      (d.prepareToPlay sampleRate samplesPerBlock).delayWritePosition = 0 ∧
      ∀ (x : ℚ) (w : Int), 0 ≤ w →
        w < (d.prepareToPlay sampleRate samplesPerBlock).delayBufferSize →
        (0 ≤ readPosition w (d.prepareToPlay sampleRate samplesPerBlock).delayBufferSize
            (jlimit 10 MAX_DELAY_TIME_MS x / 1000 * sampleRate) ∧
          readPosition w (d.prepareToPlay sampleRate samplesPerBlock).delayBufferSize
            (jlimit 10 MAX_DELAY_TIME_MS x / 1000 * sampleRate) <
              (d.prepareToPlay sampleRate samplesPerBlock).delayBufferSize) ∧
        (0 ≤ readPosition2
            (readPosition w (d.prepareToPlay sampleRate samplesPerBlock).delayBufferSize
              (jlimit 10 MAX_DELAY_TIME_MS x / 1000 * sampleRate))
            (d.prepareToPlay sampleRate samplesPerBlock).delayBufferSize ∧
          readPosition2
            (readPosition w (d.prepareToPlay sampleRate samplesPerBlock).delayBufferSize
              (jlimit 10 MAX_DELAY_TIME_MS x / 1000 * sampleRate))
            (d.prepareToPlay sampleRate samplesPerBlock).delayBufferSize <
              (d.prepareToPlay sampleRate samplesPerBlock).delayBufferSize)) := by
  refine ⟨rfl, ?_, ?_, ?_⟩
  · have := Delay.calculateDelayBufferSize_ge sampleRate maxDelayMs hsr hmax
    omega
  · intro t ht0 ht
    exact Delay.calculateDelayBufferSize_gt sampleRate maxDelayMs t hsr ht0 ht
  · intro d samplesPerBlock
    obtain ⟨hsize, hw, _⟩ := Delay.prepareToPlay_buffer d sampleRate samplesPerBlock
    refine ⟨hsize, hw, ?_⟩
    intro x w hw0 hwL
    rw [hsize] at hwL ⊢
    obtain ⟨hlo, hhi⟩ := jlimit_mem 10 MAX_DELAY_TIME_MS x (by norm_num [MAX_DELAY_TIME_MS])
    have ht0 : 0 ≤ jlimit 10 MAX_DELAY_TIME_MS x := le_trans (by norm_num) hlo
    have hL : 0 < Delay.calculateDelayBufferSize sampleRate MAX_DELAY_TIME_MS := by
      have := Delay.calculateDelayBufferSize_ge sampleRate MAX_DELAY_TIME_MS hsr
        (by norm_num [MAX_DELAY_TIME_MS])
      omega
    exact readPositions_mem _ w _ hL hw0 hwL
      (mul_nonneg (div_nonneg ht0 (by norm_num)) (le_of_lt hsr))
      (le_of_lt (Delay.calculateDelayBufferSize_gt sampleRate MAX_DELAY_TIME_MS _ hsr ht0 hhi))

/-- Witness of C24: at 44100 Hz and a maximum of 2000 ms the buffer has
88200 + 512 = 88712 slots, more than the 88200 samples of the longest delay. -/
theorem calculateDelayBufferSize_covers_witness :
    (0 : ℚ) < 44100 ∧ (0 : ℚ) ≤ 2000 ∧
    Delay.calculateDelayBufferSize 44100 2000 = truncToInt (2000 / 1000 * 44100) + 512 ∧
    0 < Delay.calculateDelayBufferSize 44100 2000 ∧
    (2000 : ℚ) / 1000 * 44100 < (Delay.calculateDelayBufferSize 44100 2000 : ℚ) :=
  have h := calculateDelayBufferSize_covers 44100 2000 (by norm_num) (by norm_num)
  ⟨by norm_num, by norm_num, h.1, h.2.1, h.2.2.1 2000 (by norm_num) (le_refl _)⟩

namespace Sequencer

/-! ## The playhead stays in the loop region -/

/-- The position after a block that reaches the loop end: the loop start plus the
overshoot. -/
theorem processMidi_position_of_wrap (s : Sequencer) (tl : Timeline) (i o : MidiBuffer)
    (hplay : s.playing = true) (htl : s.timeline = some tl) (hloop : s.looping = true)
    (hwrap : s.loopEnd ≤
      s.currentPosition + s.secondsToBeats ((s.currentBlockSize : ℚ) / s.currentSampleRate)) :
    (s.processMidi i o).1.currentPosition =
      s.loopStart +
        (s.currentPosition + s.secondsToBeats ((s.currentBlockSize : ℚ) / s.currentSampleRate)
          - s.loopEnd) := by
  unfold processMidi
  simp [hplay, htl, hloop, hwrap, generateEvents_frame]

/-- C25: for a playing sequencer with a timeline, looping enabled,
`loopStart < loopEnd`, a position below `loopEnd` and a block of more than 0 and at
most `loopEnd - loopStart` beats, the position after `processMidi` is below
`loopEnd`, and at least `loopStart` whenever the position before was. -/
theorem processMidi_stays_in_loop (s : Sequencer) (tl : Timeline) (i o : MidiBuffer)
    (hplay : s.playing = true) (htl : s.timeline = some tl) (hloop : s.looping = true)
    (_hrange : s.loopStart < s.loopEnd) (hp : s.currentPosition < s.loopEnd)
    (hb0 : 0 < s.secondsToBeats ((s.currentBlockSize : ℚ) / s.currentSampleRate))
    (hb : s.secondsToBeats ((s.currentBlockSize : ℚ) / s.currentSampleRate)
      ≤ s.loopEnd - s.loopStart) :
    (s.processMidi i o).1.currentPosition < s.loopEnd ∧
    (s.loopStart ≤ s.currentPosition → s.loopStart ≤ (s.processMidi i o).1.currentPosition) := by
  by_cases hwrap : s.loopEnd ≤
      s.currentPosition + s.secondsToBeats ((s.currentBlockSize : ℚ) / s.currentSampleRate)
  · rw [processMidi_position_of_wrap s tl i o hplay htl hloop hwrap]
    constructor
    · linarith
    · intro _
      linarith
  · rw [processMidi_position_of_no_wrap s tl i o hplay htl (Or.inr (not_le.mp hwrap))]
    constructor
    · exact not_le.mp hwrap
    · intro h
      linarith

/-- Witness of C25: the looping example (position 3.5 in the loop [0, 4), blocks of
one beat) ends the block inside the loop. -/
theorem processMidi_stays_in_loop_witness :
    loopingExample.playing = true ∧ loopingExample.looping = true ∧
    loopingExample.loopStart < loopingExample.loopEnd ∧
    loopingExample.currentPosition < loopingExample.loopEnd ∧
    (loopingExample.processMidi [] []).1.currentPosition < loopingExample.loopEnd ∧
    loopingExample.loopStart ≤ (loopingExample.processMidi [] []).1.currentPosition := by
  have hb : loopingExample.secondsToBeats
      ((loopingExample.currentBlockSize : ℚ) / loopingExample.currentSampleRate) = 1 := by
    norm_num [loopingExample, Sequencer.init, secondsToBeats]
  have hs : loopingExample.loopStart = 0 := rfl
  have he : loopingExample.loopEnd = 4 := rfl
  have hpos : loopingExample.currentPosition = 7 / 2 := rfl
  have h := processMidi_stays_in_loop loopingExample singleNoteTimeline [] [] rfl rfl rfl
    (by rw [hs, he]; norm_num) (by rw [hpos, he]; norm_num) (by rw [hb]; norm_num)
    (by rw [hb, hs, he]; norm_num)
  exact ⟨rfl, rfl, by rw [hs, he]; norm_num, by rw [hpos, he]; norm_num, h.1,
    h.2 (by rw [hs, hpos]; norm_num)⟩

end Sequencer

namespace Sequencer

/-! ## Saving and restoring -/

/-- The record `createStateXml` writes: the tag "Sequencer" and the eight
attributes in the order of the `setAttribute` calls. -/
theorem createStateXml_eq (s : Sequencer) (txt : TextReadings) :
    s.createStateXml txt =
      ⟨"Sequencer",
        [XmlAttribute.ofDouble txt "position" s.currentPosition,
          XmlAttribute.ofDouble txt "tempo" s.tempo,
          XmlAttribute.ofInt txt "timeSignatureNumerator" s.timeSignatureNumerator,
          XmlAttribute.ofInt txt "timeSignatureDenominator" s.timeSignatureDenominator,
          XmlAttribute.ofBool "looping" s.looping,
          XmlAttribute.ofDouble txt "loopStart" s.loopStart,
          XmlAttribute.ofDouble txt "loopEnd" s.loopEnd,
          XmlAttribute.ofDouble txt "quantizationGrid" s.quantizationGrid]⟩ := by
  simp [createStateXml, XmlElement.setAttribute, XmlAttribute.ofDouble, XmlAttribute.ofInt,
    XmlAttribute.ofBool]

/-- C26: restoring the record that `createStateXml` wrote for a state `s` succeeds
and, whatever the state `s₀` it is restored into, gives the position, tempo, time
signature, looping flag, loop start, loop end and quantization grid of `s`;
restored into `s` itself it gives `s` back. -/
theorem restoreStateFromXml_createStateXml (s s₀ : Sequencer) (txt : TextReadings) :
    (s₀.restoreStateFromXml (some (s.createStateXml txt))).2 = true ∧
    (s₀.restoreStateFromXml (some (s.createStateXml txt))).1.currentPosition = s.currentPosition ∧
    (s₀.restoreStateFromXml (some (s.createStateXml txt))).1.tempo = s.tempo ∧
    (s₀.restoreStateFromXml (some (s.createStateXml txt))).1.timeSignatureNumerator =
      s.timeSignatureNumerator ∧
    (s₀.restoreStateFromXml (some (s.createStateXml txt))).1.timeSignatureDenominator =
      s.timeSignatureDenominator ∧
    (s₀.restoreStateFromXml (some (s.createStateXml txt))).1.looping = s.looping ∧
    (s₀.restoreStateFromXml (some (s.createStateXml txt))).1.loopStart = s.loopStart ∧
    (s₀.restoreStateFromXml (some (s.createStateXml txt))).1.loopEnd = s.loopEnd ∧
    (s₀.restoreStateFromXml (some (s.createStateXml txt))).1.quantizationGrid =
      s.quantizationGrid ∧
    s.restoreStateFromXml (some (s.createStateXml txt)) = (s, true) := by
  rw [createStateXml_eq]
  simp [restoreStateFromXml, XmlElement.getDoubleAttribute, XmlElement.getIntAttribute,
    XmlElement.getBoolAttribute, XmlElement.findAttribute, XmlAttribute.ofDouble,
    XmlAttribute.ofInt, XmlAttribute.ofBool, List.find?]

/-- C27: `restoreStateFromXml` returns false exactly when the record is null or
its tag name is not "Sequencer", and then the state is left as it was. -/
theorem restoreStateFromXml_false_iff (s : Sequencer) (xml : Option XmlElement) :
    ((s.restoreStateFromXml xml).2 = false ↔
      (xml = none ∨ ∃ x : XmlElement, xml = some x ∧ x.tagName ≠ "Sequencer")) ∧
    ((s.restoreStateFromXml xml).2 = false → (s.restoreStateFromXml xml).1 = s) := by
  cases xml with
  | none => simp [restoreStateFromXml]
  | some x =>
    by_cases htag : x.tagName = "Sequencer"
    · simp [restoreStateFromXml, htag]
    · simp [restoreStateFromXml, htag]

/-- Witness of C27: a record tagged "Mixer" is refused and the state stays as the
constructor left it. -/
theorem restoreStateFromXml_false_iff_witness :
    ((Sequencer.init 10).restoreStateFromXml (some ⟨"Mixer", [⟨"tempo", 90, 90, true⟩]⟩)).2 = false ∧
    ((Sequencer.init 10).restoreStateFromXml (some ⟨"Mixer", [⟨"tempo", 90, 90, true⟩]⟩)).1 =
      Sequencer.init 10 :=
  have h := restoreStateFromXml_false_iff (Sequencer.init 10)
    (some ⟨"Mixer", [⟨"tempo", 90, 90, true⟩]⟩)
  have hf : ((Sequencer.init 10).restoreStateFromXml
      (some ⟨"Mixer", [⟨"tempo", 90, 90, true⟩]⟩)).2 = false :=
    h.1.mpr (Or.inr ⟨_, rfl, by decide⟩)
  ⟨hf, h.2 hf⟩

/-! ## Pass-through of a stopped sequencer -/

/-- C28: for a sequencer that is stopped or has no timeline, `processMidi` leaves
the whole state as it was (position, last-event boundary, active notes, no call on
a collaborator) and returns the output buffer with the input events appended,
nothing else. -/
theorem processMidi_pass_through (s : Sequencer) (i o : MidiBuffer)
    (h : s.playing = false ∨ s.timeline = none) :
    s.processMidi i o = (s, o ++ i) ∧
    (s.processMidi i o).2 = o ++ i ∧
    (s.processMidi i o).1.currentPosition = s.currentPosition ∧
    (s.processMidi i o).1.lastEventPosition = s.lastEventPosition ∧
    (s.processMidi i o).1.activeNotes = s.activeNotes ∧
    (s.processMidi i o).1.effects = s.effects := by
  have heq : s.processMidi i o = (s, o ++ i) := by
    unfold processMidi
    rcases h with h | h <;> simp [h, MidiBuffer.addEvents]
  rw [heq]
  exact ⟨rfl, rfl, rfl, rfl, rfl, rfl⟩

/-- Witness of C28: the stopped sequencer the constructor leaves passes an input
note-on through behind the event already in the output buffer. -/
theorem processMidi_pass_through_witness :
    (Sequencer.init 10).playing = false ∧
    ((Sequencer.init 10).processMidi [⟨MidiMessage.noteOn 1 60 1, 3⟩]
        [⟨MidiMessage.noteOff 1 62, 0⟩]).2 =
      [⟨MidiMessage.noteOff 1 62, 0⟩, ⟨MidiMessage.noteOn 1 60 1, 3⟩] ∧
    ((Sequencer.init 10).processMidi [⟨MidiMessage.noteOn 1 60 1, 3⟩]
        [⟨MidiMessage.noteOff 1 62, 0⟩]).1.activeNotes = [] :=
  have h := processMidi_pass_through (Sequencer.init 10) [⟨MidiMessage.noteOn 1 60 1, 3⟩]
    [⟨MidiMessage.noteOff 1 62, 0⟩] (Or.inl rfl)
  ⟨rfl, h.2.1, h.2.2.2.2.1⟩

end Sequencer

/-! ## Effects: parameters handed to the reverberation network -/

namespace Reverb

/-- The invariant behind the handed parameters: the cached dry/wet mix is in
[0, 1] and the handed parameters are valid. -/
theorem init_handedParams :
    (0 ≤ Reverb.init.dryWetMix ∧ Reverb.init.dryWetMix ≤ 1) ∧ Reverb.init.HandedParamsValid := by
  norm_num [Reverb.init, HandedParamsValid]

/-- With a cached mix in [0, 1], `updateParameters` hands valid parameters. -/
theorem updateParameters_handedParams (r : Reverb) (h0 : 0 ≤ r.dryWetMix) (h1 : r.dryWetMix ≤ 1) :
    (0 ≤ r.updateParameters.dryWetMix ∧ r.updateParameters.dryWetMix ≤ 1) ∧
      r.updateParameters.HandedParamsValid :=
  ⟨⟨h0, h1⟩, h0, h1, rfl, rfl⟩

/-- Every parameter-setting call keeps the cached mix in [0, 1] and the handed
parameters valid. -/
theorem apply_handedParams (op : ReverbOp) (r : Reverb)
    (h : (0 ≤ r.dryWetMix ∧ r.dryWetMix ≤ 1) ∧ r.HandedParamsValid) :
    (0 ≤ (op.apply r).dryWetMix ∧ (op.apply r).dryWetMix ≤ 1) ∧ (op.apply r).HandedParamsValid := by
  obtain ⟨⟨h0, h1⟩, hv⟩ := h
  cases op with
  | setRoomSize size =>
    simp only [ReverbOp.apply, setRoomSize]
    split_ifs
    · exact updateParameters_handedParams _ h0 h1
    · exact ⟨⟨h0, h1⟩, hv⟩
  | setDamping damping =>
    simp only [ReverbOp.apply, setDamping]
    split_ifs
    · exact updateParameters_handedParams _ h0 h1
    · exact ⟨⟨h0, h1⟩, hv⟩
  | setWidth width =>
    simp only [ReverbOp.apply, setWidth]
    split_ifs
    · exact updateParameters_handedParams _ h0 h1
    · exact ⟨⟨h0, h1⟩, hv⟩
  | setDryWet dryWet =>
    obtain ⟨hj0, hj1⟩ := jlimit_mem 0 1 dryWet (by norm_num)
    simp only [ReverbOp.apply, setDryWet]
    split_ifs
    · exact updateParameters_handedParams _ hj0 hj1
    · exact ⟨⟨hj0, hj1⟩, hv⟩
  | prepareToPlay sampleRate samplesPerBlock =>
    simp only [ReverbOp.apply, prepareToPlay]
    exact updateParameters_handedParams _ h0 h1
  | updateParameters =>
    exact updateParameters_handedParams _ h0 h1

/-- A sequence of parameter-setting calls keeps the cached mix in [0, 1] and the
handed parameters valid. -/
theorem runCalls_handedParams (ops : List ReverbOp) (r : Reverb)
    (h : (0 ≤ r.dryWetMix ∧ r.dryWetMix ≤ 1) ∧ r.HandedParamsValid) :
    (0 ≤ (r.runCalls ops).dryWetMix ∧ (r.runCalls ops).dryWetMix ≤ 1) ∧
      (r.runCalls ops).HandedParamsValid := by
  induction ops generalizing r with
  | nil => exact h
  | cons op rest ih => exact ih (op.apply r) (apply_handedParams op r h)

/-- C29: in every reverb state reached from the constructor by setter calls,
`prepareToPlay` and `updateParameters`, the parameters last handed to the
reverberation network have a wet level in [0, 1], the dry level `1 - wetLevel`
and freeze mode 0, and the working copy `reverbParams` equals them after
`updateParameters`; `updateParameters` hands over the cached `dryWetMix`,
`roomSize`, `dampingAmount` and `stereoWidth` as wet level, room size, damping
and width, and leaves the cached values as they were. -/
theorem reachable_handed_params (r : Reverb) (h : r.ReachableBySetters) :
    (0 ≤ r.reverb.wetLevel ∧ r.reverb.wetLevel ≤ 1 ∧
      r.reverb.dryLevel = 1 - r.reverb.wetLevel ∧ r.reverb.freezeMode = 0) ∧
    (r.updateParameters.reverb.wetLevel = r.dryWetMix ∧
      r.updateParameters.reverb.roomSize = r.roomSize ∧
      r.updateParameters.reverb.damping = r.dampingAmount ∧
      r.updateParameters.reverb.width = r.stereoWidth ∧
      r.updateParameters.reverbParams = r.updateParameters.reverb) ∧
    (r.updateParameters.dryWetMix = r.dryWetMix ∧ r.updateParameters.roomSize = r.roomSize ∧
      r.updateParameters.dampingAmount = r.dampingAmount ∧
      r.updateParameters.stereoWidth = r.stereoWidth) := by
  obtain ⟨ops, rfl⟩ := h
  exact ⟨(runCalls_handedParams ops Reverb.init init_handedParams).2,
    ⟨rfl, rfl, rfl, rfl, rfl⟩, ⟨rfl, rfl, rfl, rfl⟩⟩

/-- Witness of C29: after `prepareToPlay 44100 512`, `setDryWet 2` and
`setRoomSize (-1)` the network has wet level 1, dry level 0 and room size 0. -/
theorem reachable_handed_params_witness :
    (Reverb.init.runCalls
      [ReverbOp.prepareToPlay 44100 512, ReverbOp.setDryWet 2, ReverbOp.setRoomSize (-1)]).reverb =
      ⟨0, 1 / 2, 1, 0, 1, 0⟩ ∧
    (0 : ℚ) ≤ (Reverb.init.runCalls
      [ReverbOp.prepareToPlay 44100 512, ReverbOp.setDryWet 2,
        ReverbOp.setRoomSize (-1)]).reverb.wetLevel := by
  have h := reachable_handed_params
    (Reverb.init.runCalls
      [ReverbOp.prepareToPlay 44100 512, ReverbOp.setDryWet 2, ReverbOp.setRoomSize (-1)])
    ⟨_, rfl⟩
  refine ⟨?_, h.1.1⟩
  norm_num [runCalls, ReverbOp.apply, prepareToPlay, baseprepareToPlay, setDryWet, setRoomSize,
    updateParameters, Reverb.init, jlimit]

end Reverb

/-! ## Mixer: mute states after solo clicks -/

namespace MixerView

/-- C30 fails in the code: starting from four input channels, none soloed or
muted, solo is clicked on channel 0, on channel 1 and on channel 0 again. After
the first two clicks the mute states agree with the solo states; after the third,
`handleSoloChange 0 false` finds channel 1 still soloed and changes nothing, so
channel 0 is neither soloed nor muted while channel 1 is soloed. -/
theorem handleSoloChange_unsolo_keeps_unmuted :
    MixerView.init.inputChannels = [⟨false, false⟩, ⟨false, false⟩, ⟨false, false⟩, ⟨false, false⟩] ∧
    (MixerView.init.clickSolos [0]).inputChannels =
      [⟨true, false⟩, ⟨false, true⟩, ⟨false, true⟩, ⟨false, true⟩] ∧
    (MixerView.init.clickSolos [0, 1]).inputChannels =
      [⟨true, false⟩, ⟨true, false⟩, ⟨false, true⟩, ⟨false, true⟩] ∧
    (MixerView.init.clickSolos [0, 1]).SoloMuteConsistent ∧
    (MixerView.init.clickSolos [0, 1, 0]).inputChannels =
      [⟨false, false⟩, ⟨true, false⟩, ⟨false, true⟩, ⟨false, true⟩] ∧
    ¬ (MixerView.init.clickSolos [0, 1, 0]).SoloMuteConsistent := by
  have h0 : MixerView.init.inputChannels =
      [⟨false, false⟩, ⟨false, false⟩, ⟨false, false⟩, ⟨false, false⟩] := by decide
  have h1 : (MixerView.init.clickSolos [0]).inputChannels =
      [⟨true, false⟩, ⟨false, true⟩, ⟨false, true⟩, ⟨false, true⟩] := by decide
  have h2 : (MixerView.init.clickSolos [0, 1]).inputChannels =
      [⟨true, false⟩, ⟨true, false⟩, ⟨false, true⟩, ⟨false, true⟩] := by decide
  have h3 : (MixerView.init.clickSolos [0, 1, 0]).inputChannels =
      [⟨false, false⟩, ⟨true, false⟩, ⟨false, true⟩, ⟨false, true⟩] := by decide
  refine ⟨h0, h1, h2, ?_, h3, ?_⟩
  · unfold SoloMuteConsistent
    rw [h2]
    simp [MixerChannel.isSoloed, MixerChannel.isMuted]
  · unfold SoloMuteConsistent
    rw [h3]
    simp [MixerChannel.isSoloed, MixerChannel.isMuted]

end MixerView

namespace MixerView

/-- The indices collected from `i` on are at least `i`. -/
theorem soloedChannels_ge (l : List MixerChannel) (i j : Int) (h : j ∈ soloedChannels i l) :
    i ≤ j := by
  induction l generalizing i with
  | nil => simp [soloedChannels] at h
  | cons ch rest ih =>
    unfold soloedChannels at h
    split_ifs at h
    · rcases List.mem_cons.mp h with h | h
      · omega
      · have := ih (i + 1) h
        omega
    · have := ih (i + 1) h
      omega

/-- In the soloed branch every channel ends up muted exactly when it is not
soloed, whatever the indices below `i` in the list searched. -/
theorem muteNonSoloed_eq (l : List MixerChannel) (i : Int) (before : List Int)
    (hbefore : ∀ j ∈ before, j < i) :
    muteNonSoloed (before ++ soloedChannels i l) i l =
      l.map (fun ch => ⟨ch.soloButton, !ch.soloButton⟩) := by
  induction l generalizing i before with
  | nil => rfl
  | cons ch rest ih =>
    have hrest : i ∉ soloedChannels (i + 1) rest := by
      intro hmem
      have := soloedChannels_ge rest (i + 1) i hmem
      omega
    have hb : i ∉ before := by
      intro hmem
      have := hbefore i hmem
      omega
    unfold muteNonSoloed soloedChannels
    cases hs : ch.isSoloed
    · have htail := ih (i + 1) before (fun j hj => by have := hbefore j hj; omega)
      have hc : (before ++ soloedChannels (i + 1) rest).contains i = false := by
        simp [hb, hrest]
      simp only [hs, Bool.false_eq_true, if_false, hc, htail, List.map_cons]
      cases ch with
      | mk so mu =>
        simp only [MixerChannel.isSoloed] at hs
        subst hs
        cases mu <;> simp [MixerChannel.isMuted, MixerChannel.setMute]
    · have htail := ih (i + 1) (before ++ [i]) (fun j hj => by
        rcases List.mem_append.mp hj with hj | hj
        · have := hbefore j hj; omega
        · simp at hj; omega)
      rw [List.append_assoc] at htail
      have hc : (before ++ i :: soloedChannels (i + 1) rest).contains i = true := by
        simp
      simp only [if_true, hc, List.map_cons]
      rw [show ([i] ++ soloedChannels (i + 1) rest) = i :: soloedChannels (i + 1) rest from rfl]
        at htail
      rw [htail]
      cases ch with
      | mk so mu =>
        simp only [MixerChannel.isSoloed] at hs
        subst hs
        cases mu <;> simp [MixerChannel.isMuted, MixerChannel.setMute]

/-- The sibling path: after `handleSoloChange` with `soloed = true`, every input
channel is muted exactly when it is not soloed. -/
theorem handleSoloChange_soloed (v : MixerView) (channelIndex : Int) :
    (v.handleSoloChange channelIndex true).inputChannels =
      v.inputChannels.map (fun ch => ⟨ch.soloButton, !ch.soloButton⟩) := by
  have h := muteNonSoloed_eq v.inputChannels 0 [] (by simp)
  simpa [handleSoloChange] using h

end MixerView

namespace Sequencer

/-! ## A note-off ahead of its note-on after the loop wrap -/

/-- The two windows of the wrapped block on the timeline with the short note. -/
theorem wrapNote_windows (s : Sequencer) (htl : s.timeline = some wrapNoteTimeline)
    (htempo : s.tempo = 120) (hsr : s.currentSampleRate = 44100) (hact : s.activeNotes = []) :
    (s.generateEvents (7 / 2) 4 []).2 = [] ∧
    (s.generateEvents (7 / 2) 4 []).1.lastEventPosition = 4 ∧
    ((s.generateEvents (7 / 2) 4 []).1.generateEvents 0 (1 / 2) []).2 =
      [⟨MidiMessage.noteOn 1 60 (100 / 127), 2205⟩, ⟨MidiMessage.noteOff 1 60, -83790⟩] ∧
    ((s.generateEvents (7 / 2) 4 []).1.generateEvents 0 (1 / 2) []).1.activeNotes = [] := by
  have hn1 : wrapNoteTimeline.getNotesInRange (7 / 2) 4 = [] := by
    norm_num [wrapNoteTimeline]
  have hn2 : wrapNoteTimeline.getNotesInRange 0 (1 / 2) = [⟨60, 100, 1 / 10, 1 / 10⟩] := by
    norm_num [wrapNoteTimeline]
  have hf1 : ⌊(2205 : ℚ)⌋ = 2205 := by
    rw [Int.floor_eq_iff]; norm_num
  have hf2 : ⌈(-83790 : ℚ)⌉ = -83790 := by
    rw [Int.ceil_eq_iff]; norm_num
  have e1 : (s.generateEvents (7 / 2) 4 []).2 = [] := by
    rw [generateEvents_eq _ wrapNoteTimeline _ _ _ htl, hn1]
    simp [generatedEvents, dueNotes, hact]
  have l1 : (s.generateEvents (7 / 2) 4 []).1.lastEventPosition = 4 := by
    rw [generateEvents_eq _ wrapNoteTimeline _ _ _ htl]
  have a1 : (s.generateEvents (7 / 2) 4 []).1.activeNotes = [] := by
    rw [generateEvents_eq _ wrapNoteTimeline _ _ _ htl, hn1]
    simp [keptNotes, hact]
  have t1 : (s.generateEvents (7 / 2) 4 []).1.timeline = some wrapNoteTimeline := by
    rw [(generateEvents_frame _ _ _ _).2.2.2.2.2.2, htl]
  have tempo1 : (s.generateEvents (7 / 2) 4 []).1.tempo = 120 := by
    rw [(generateEvents_frame _ _ _ _).2.1, htempo]
  have sr1 : (s.generateEvents (7 / 2) 4 []).1.currentSampleRate = 44100 := by
    rw [generateEvents_eq _ wrapNoteTimeline _ _ _ htl]
    exact hsr
  have hreg : registeredNote 0 ⟨60, 100, 1 / 10, 1 / 10⟩ = ⟨60, 100, 1 / 10, 1 / 5⟩ := by
    norm_num [registeredNote]
  have hdue : isDue (1 / 2) ⟨60, 100, 1 / 10, 1 / 5⟩ = true := by
    norm_num [isDue]
  refine ⟨e1, l1, ?_, ?_⟩
  · rw [generateEvents_eq _ wrapNoteTimeline _ _ _ t1, hn2]
    have hon : truncToInt ((1 / 10 : ℚ) * 60 / 120 * 44100) = 2205 := by
      norm_num [truncToInt, hf1]
    have hoff : truncToInt (((1 / 5 : ℚ) - 4) * 60 / 120 * 44100) = -83790 := by
      norm_num [truncToInt, hf2]
    simp only [generatedEvents, dueNotes, a1, List.nil_append, List.map_cons, List.map_nil, hreg,
      List.filter_cons, hdue, if_true, List.filter_nil, noteOnEvent, noteOffEvent, beatsToSeconds,
      secondsToSamples, tempo1, sr1, l1, hon, hoff]
    norm_num
  · rw [generateEvents_eq _ wrapNoteTimeline _ _ _ t1, hn2]
    simp only [keptNotes, a1, List.nil_append, List.map_cons, List.map_nil, hreg,
      List.filter_cons, hdue]
    simp

/-- A block that reaches the loop end, as the two calls of `generateEvents` it
makes on the state with the wrapped position. -/
theorem processMidi_wrap_calls (s : Sequencer) (tl : Timeline) (i o : MidiBuffer)
    (hplay : s.playing = true) (htl : s.timeline = some tl) (hloop : s.looping = true)
    (hwrap : s.loopEnd ≤
      s.currentPosition + s.secondsToBeats ((s.currentBlockSize : ℚ) / s.currentSampleRate)) :
    ∃ s₂ : Sequencer,
      s₂.timeline = s.timeline ∧ s₂.tempo = s.tempo ∧
      s₂.currentSampleRate = s.currentSampleRate ∧ s₂.activeNotes = s.activeNotes ∧
      s.processMidi i o =
        (((s₂.generateEvents s.currentPosition s.loopEnd []).1.generateEvents s.loopStart
            (s.loopStart +
              (s.currentPosition +
                s.secondsToBeats ((s.currentBlockSize : ℚ) / s.currentSampleRate) - s.loopEnd))
            (s₂.generateEvents s.currentPosition s.loopEnd []).2).1,
          ((s₂.generateEvents s.currentPosition s.loopEnd []).1.generateEvents s.loopStart
            (s.loopStart +
              (s.currentPosition +
                s.secondsToBeats ((s.currentBlockSize : ℚ) / s.currentSampleRate) - s.loopEnd))
            (s₂.generateEvents s.currentPosition s.loopEnd []).2).2 ++ i) := by
  refine ⟨{ s with currentPosition := s.loopStart +
      (s.currentPosition +
        s.secondsToBeats ((s.currentBlockSize : ℚ) / s.currentSampleRate) - s.loopEnd) },
    rfl, rfl, rfl, rfl, ?_⟩
  unfold processMidi
  simp [hplay, htl, hloop, hwrap, generateEvents_frame, MidiBuffer.addEvents]

/-- The wrap example, evaluated. -/
theorem wrapNoteExample_state :
    wrapNoteExample.timeline = some wrapNoteTimeline ∧ wrapNoteExample.playing = true ∧
    wrapNoteExample.looping = true ∧ wrapNoteExample.loopStart = 0 ∧
    wrapNoteExample.loopEnd = 4 ∧ wrapNoteExample.tempo = 120 ∧
    wrapNoteExample.currentSampleRate = 44100 ∧ wrapNoteExample.currentBlockSize = 22050 ∧
    wrapNoteExample.currentPosition = 7 / 2 ∧ wrapNoteExample.lastEventPosition = 7 / 2 ∧
    wrapNoteExample.activeNotes = [] := by
  norm_num [wrapNoteExample, runOps, Op.apply, setTimeline, prepare, setLooping, setPosition, play,
    Sequencer.init]

/-- C3 fails in the code: a playing sequencer at position 3.5 of the loop [0, 4)
processes a block of one beat; its timeline holds a note of pitch 60 at beat 1/10
with duration 1/10. The block is split into the windows [3.5, 4) and [0, 0.5); the
first call of `generateEvents` adds nothing and leaves the last-event boundary at
the loop end 4; the second adds the note-on at sample 2205 and, the note being due,
its note-off at the sample offset of beat 0.2 from that boundary, which is
-83790. The buffer, ordered by sample position, holds the note-off ahead of the
note-on. -/
theorem processMidi_wrap_noteOff_before_noteOn :
    wrapNoteExample.playing = true ∧ wrapNoteExample.looping = true ∧
    wrapNoteExample.currentPosition = 7 / 2 ∧ wrapNoteExample.loopStart = 0 ∧
    wrapNoteExample.loopEnd = 4 ∧
    wrapNoteTimeline.getNotesInRange 0 (1 / 2) = [⟨60, 100, 1 / 10, 1 / 10⟩] ∧
    (wrapNoteExample.generateEvents (7 / 2) 4 []).2 = [] ∧
    (wrapNoteExample.generateEvents (7 / 2) 4 []).1.lastEventPosition = 4 ∧
    (runGenerateEvents wrapNoteExample [] [(7 / 2, 4), (0, 1 / 2)]).2 =
      [⟨MidiMessage.noteOn 1 60 (100 / 127), 2205⟩, ⟨MidiMessage.noteOff 1 60, -83790⟩] ∧
    (wrapNoteExample.processMidi [] []).2 =
      [⟨MidiMessage.noteOn 1 60 (100 / 127), 2205⟩, ⟨MidiMessage.noteOff 1 60, -83790⟩] ∧
    MidiBuffer.inBufferOrder (wrapNoteExample.processMidi [] []).2 =
      [⟨MidiMessage.noteOff 1 60, -83790⟩, ⟨MidiMessage.noteOn 1 60 (100 / 127), 2205⟩] ∧
    (wrapNoteExample.processMidi [] []).1.activeNotes = [] := by
  obtain ⟨htl, hplay, hloop, hls, hle, htempo, hsr, hbs, hpos, hlast, hact⟩ :=
    wrapNoteExample_state
  have hn2 : wrapNoteTimeline.getNotesInRange 0 (1 / 2) = [⟨60, 100, 1 / 10, 1 / 10⟩] := by
    norm_num [wrapNoteTimeline]
  have hb : wrapNoteExample.secondsToBeats
      ((wrapNoteExample.currentBlockSize : ℚ) / wrapNoteExample.currentSampleRate) = 1 := by
    simp only [secondsToBeats, htempo, hsr, hbs]
    norm_num
  obtain ⟨e1, l1, e2, a2⟩ := wrapNote_windows wrapNoteExample htl htempo hsr hact
  obtain ⟨s₂, htl₂, htempo₂, hsr₂, hact₂, hpm⟩ :=
    processMidi_wrap_calls wrapNoteExample wrapNoteTimeline [] [] hplay htl hloop
      (by rw [hb, hle, hpos]; norm_num)
  obtain ⟨f1, _, f2, b2⟩ := wrapNote_windows s₂ (htl₂.trans htl) (htempo₂.trans htempo)
    (hsr₂.trans hsr) (hact₂.trans hact)
  have hend : wrapNoteExample.loopStart +
      (wrapNoteExample.currentPosition +
        wrapNoteExample.secondsToBeats
          ((wrapNoteExample.currentBlockSize : ℚ) / wrapNoteExample.currentSampleRate) -
        wrapNoteExample.loopEnd) = 1 / 2 := by
    rw [hb, hls, hpos, hle]; norm_num
  rw [hend, hpos, hle, hls, f1] at hpm
  have hout : (wrapNoteExample.processMidi [] []).2 =
      [⟨MidiMessage.noteOn 1 60 (100 / 127), 2205⟩, ⟨MidiMessage.noteOff 1 60, -83790⟩] := by
    rw [hpm]
    simp only [f2, List.append_nil]
  refine ⟨hplay, hloop, hpos, hls, hle, hn2, e1, l1, ?_, hout, ?_, ?_⟩
  · simp only [runGenerateEvents, e1, e2]
  · rw [hout]
    simp [MidiBuffer.inBufferOrder, MidiBuffer.insertByPosition]
  · rw [hpm]
    exact b2

end Sequencer

end UndergroundBeats
